import Mathlib

/-! The DummyClusterNetwork reconciler.

A shallow embedding of `controllers/dummyclusternetwork_controller.go`.

* Go strings are Lean strings; the `strings` helpers the controller calls are written over the
  character list of a string.
* An `unstructured.Unstructured` object is its typed metadata (what the controller reaches
  through `GetName`, `GetNamespace`, `GetFinalizers`, `SetFinalizers`, `GetDeletionTimestamp`)
  together with the JSON tree of the remaining top-level fields, which the controller reads by
  path with `unstructured.NestedString` and `unstructured.NestedSlice`.
* The embedded `client.Client` is a value of type `Client`: the contents of the store, the set of
  calls that fail, and the log of the calls issued so far. Every method takes the client and
  returns its answer together with the client afterwards.
-/

namespace Harvester

/-! ## Strings -/

/-- Go `strings.HasSuffix`: `len(s) >= len(suffix) && s[len(s)-len(suffix):] == suffix`. -/
def HasSuffix (s suffix : String) : Bool :=
  decide (suffix.data.length ≤ s.data.length) &&
    decide (s.data.drop (s.data.length - suffix.data.length) = suffix.data)

/-- The pieces of a character list between the occurrences of `sep`; the accumulator `cur` holds
the piece being read. -/
def splitAux (sep : Char) : List Char → List Char → List (List Char)
  | [], cur => [cur]
  | c :: rest, cur =>
    if c = sep then cur :: splitAux sep rest [] else splitAux sep rest (cur ++ [c])

/-- Go `strings.Split(s, sep)` for a separator of one character: `n` occurrences of the separator
give `n + 1` pieces, empty ones included. -/
def Split (s : String) (sep : Char) : List String :=
  (splitAux sep s.data []).map String.mk

/-- Go `unicode.IsSpace`: the Latin-1 spaces and the other code points of the White_Space
property. -/
def IsSpace (c : Char) : Bool :=
  let n := c.toNat
  (9 ≤ n && n ≤ 13) || n == 32 || n == 133 || n == 160 || n == 5760 ||
    (8192 ≤ n && n ≤ 8202) || n == 8232 || n == 8233 || n == 8239 || n == 8287 || n == 12288

/-- Go `strings.TrimSpace`: the string without its leading and trailing white space. -/
def TrimSpace (s : String) : String :=
  String.mk ((s.data.dropWhile IsSpace).reverse.dropWhile IsSpace).reverse

/-- Go `strings.Join(elems, sep)`. -/
def Join : List String → String → String
  | [], _ => ""
  | [a], _ => a
  | a :: b :: rest, sep => a ++ sep ++ Join (b :: rest) sep

/-! ## Errors -/

/-- The reason carried by an API status error (`metav1.StatusReason`), as far as the controller
tells reasons apart. -/
inductive StatusReason where
  | NotFound
  | AlreadyExists
  | Conflict
  | Unknown
  deriving DecidableEq, Repr

/-- A non-nil Go `error`: its status reason and the text `err.Error()` returns. -/
structure GoError where
  reason : StatusReason
  msg : String
  deriving DecidableEq, Repr

/-- A Go `error` value; `none` is `nil`. -/
abbrev error := Option GoError

/-- Go `errors.IsNotFound` of `k8s.io/apimachinery/pkg/api/errors`. -/
def IsNotFound (err : GoError) : Bool :=
  decide (err.reason = StatusReason.NotFound)

/-- Go `err.Error()`. -/
def GoError.Error (err : GoError) : String := err.msg

/-! ## Unstructured content -/

/-- A value of an unstructured JSON tree (`interface{}` holding nil, a bool, a number, a string,
a `[]interface{}` or a `map[string]interface{}`). -/
inductive Val where
  | null
  | bool (b : Bool)
  | num (n : Int)
  | str (s : String)
  | arr (items : List Val)
  | obj (fields : List (String × Val))

/-- A `map[string]interface{}`, as the list of its entries; reading a key takes its first
entry. -/
abbrev Fields := List (String × Val)

/-- Go `m[key] = v` on a map: the entry of `key` is replaced, or added when there is none. -/
def setField : Fields → String → Val → Fields
  | [], key, v => [(key, v)]
  | (k, w) :: rest, key, v =>
    if k = key then (key, v) :: rest else (k, w) :: setField rest key v

/-- The error of a failed field access; its text is never read by the controller. -/
def accessorError : GoError := ⟨StatusReason.Unknown, "accessor error"⟩

/-- Go `unstructured.NestedFieldNoCopy`: walk `fields` down from `val`; the result is the value,
whether it was found, and an error when a value on the way is not a map. -/
def NestedFieldNoCopy : Val → List String → Option Val × Bool × error
  | val, [] => (some val, true, none)
  | Val.null, _ :: _ => (none, false, none)
  | Val.obj m, field :: rest =>
    match m.lookup field with
    | some v => NestedFieldNoCopy v rest
    | none => (none, false, none)
  | _, _ :: _ => (none, false, some accessorError)

/-- Go `unstructured.NestedString`. -/
def NestedString (obj : Fields) (fields : List String) : String × Bool × error :=
  match NestedFieldNoCopy (Val.obj obj) fields with
  | (some (Val.str s), true, none) => (s, true, none)
  | (some _, true, none) => ("", false, some accessorError)
  | (_, found, err) => ("", found, err)

/-- Go `unstructured.NestedSlice`. -/
def NestedSlice (obj : Fields) (fields : List String) : List Val × Bool × error :=
  match NestedFieldNoCopy (Val.obj obj) fields with
  | (some (Val.arr items), true, none) => (items, true, none)
  | (some _, true, none) => ([], false, some accessorError)
  | (_, found, err) => ([], found, err)

/-- The metadata of an object that the controller reaches through typed accessors. A deletion
timestamp that is absent or zero is `none` (`GetDeletionTimestamp` returns nil for both). -/
structure ObjectMeta where
  Name : String := ""
  Namespace : String := ""
  Labels : List (String × String) := []
  Annotations : List (String × String) := []
  Finalizers : List String := []
  DeletionTimestamp : Option Nat := none

/-- Go `unstructured.Unstructured`: the metadata and, in `Object`, every other top-level field
of the object (`apiVersion`, `kind`, `spec`, `status`, ...). -/
structure Unstructured where
  metadata : ObjectMeta := {}
  Object : Fields := []

/-- Go `GetName`. -/
def Unstructured.GetName (u : Unstructured) : String := u.metadata.Name

/-- Go `GetNamespace`. -/
def Unstructured.GetNamespace (u : Unstructured) : String := u.metadata.Namespace

/-- Go `GetFinalizers`. -/
def Unstructured.GetFinalizers (u : Unstructured) : List String := u.metadata.Finalizers

/-- Go `SetFinalizers`. -/
def Unstructured.SetFinalizers (u : Unstructured) (finalizers : List String) : Unstructured :=
  { u with metadata := { u.metadata with Finalizers := finalizers } }

/-- Go `GetDeletionTimestamp().IsZero()`: no deletion has been requested. -/
def Unstructured.DeletionTimestampIsZero (u : Unstructured) : Bool :=
  u.metadata.DeletionTimestamp.isNone

/-! ## The DaemonSet of the bridge agent -/

/-- Go `corev1.VolumeMount`, the fields the controller sets. -/
structure VolumeMount where
  Name : String
  MountPath : String
  ReadOnly : Bool

/-- Go `corev1.Container`, the fields the controller sets. -/
structure Container where
  Name : String
  Image : String
  Privileged : Option Bool
  Command : List String
  Args : List String
  VolumeMounts : List VolumeMount

/-- Go `corev1.Volume` with a `HostPath` source. -/
structure Volume where
  Name : String
  HostPath : String
  HostPathType : String

/-- Go `corev1.Toleration`, the field the controller sets. -/
structure Toleration where
  Operator : String

/-- Go `corev1.PodSpec`, the fields the controller sets. -/
structure PodSpec where
  HostNetwork : Bool
  HostPID : Bool
  Containers : List Container
  Volumes : List Volume
  Tolerations : List Toleration

/-- Go `appsv1.DaemonSet`, the fields the controller sets. A zero value is `default`. -/
structure DaemonSet where
  metadata : ObjectMeta := {}
  MatchLabels : List (String × String) := []
  TemplateLabels : List (String × String) := []
  Spec : PodSpec := ⟨false, false, [], [], []⟩

/-! ## The client -/

/-- A collection of objects of one kind, read by identity: `get k` is the object stored under
the identity `k`, and an object is only ever stored under its own identity `key a`. -/
structure Keyed (K α : Type) [DecidableEq K] (key : α → K) where
  get : K → Option α
  sound : ∀ k a, get k = some a → key a = k

/-- The collection that holds nothing. -/
def Keyed.empty {K α : Type} [DecidableEq K] {key : α → K} : Keyed K α key :=
  ⟨fun _ => none, fun _ _ h => nomatch h⟩

/-- Store `a` under its identity, in place of what was stored there. -/
def Keyed.set {K α : Type} [DecidableEq K] {key : α → K} (m : Keyed K α key) (a : α) :
    Keyed K α key :=
  ⟨fun k => if k = key a then some a else m.get k, by
    intro k b h
    by_cases hk : k = key a
    · simp only [if_pos hk] at h
      rw [hk, ← Option.some.inj h]
    · simp only [if_neg hk] at h
      exact m.sound k b h⟩

/-- Remove what is stored under the identity `k0`. -/
def Keyed.erase {K α : Type} [DecidableEq K] {key : α → K} (m : Keyed K α key) (k0 : K) :
    Keyed K α key :=
  ⟨fun k => if k = k0 then none else m.get k, by
    intro k b h
    by_cases hk : k = k0
    · simp only [if_pos hk] at h
      exact nomatch h
    · simp only [if_neg hk] at h
      exact m.sound k b h⟩

/-- The identity of a namespaced unstructured object. -/
def Unstructured.key (u : Unstructured) : String × String := (u.GetNamespace, u.GetName)

/-- The identity of a DaemonSet. -/
def DaemonSet.key (ds : DaemonSet) : String × String :=
  (ds.metadata.Namespace, ds.metadata.Name)

/-- The contents of the store: the DummyClusterNetworks by name (they are cluster-scoped), the
NetworkAttachmentDefinitions and DaemonSets by namespace and name, and the VirtualMachines and
VirtualMachineInstances in the order a list call returns them. -/
structure Store where
  dcns : Keyed String Unstructured Unstructured.GetName
  nads : Keyed (String × String) Unstructured Unstructured.key
  daemonSets : Keyed (String × String) DaemonSet DaemonSet.key
  vms : List Unstructured
  vmis : List Unstructured

/-- A call of the controller on its client, with its arguments. -/
inductive Call where
  | getDCN (name : String)
  | update (obj : Unstructured)
  | statusUpdate (obj : Unstructured)
  | getNAD (ns name : String)
  | createNAD (obj : Unstructured)
  | deleteNAD (obj : Unstructured)
  | getDaemonSet (ns name : String)
  | createDaemonSet (ds : DaemonSet)
  | deleteDaemonSet (ds : DaemonSet)
  | listVM
  | listVMI

/-- The calls that write to the store. -/
def Call.isWrite : Call → Bool
  | update _ | statusUpdate _ | createNAD _ | deleteNAD _ | createDaemonSet _
  | deleteDaemonSet _ => true
  | _ => false

/-- The calls that delete a dependent resource. -/
def Call.isDelete : Call → Bool
  | deleteNAD _ | deleteDaemonSet _ => true
  | _ => false

/-- The calls that create a dependent resource. -/
def Call.isCreate : Call → Bool
  | createNAD _ | createDaemonSet _ => true
  | _ => false

/-- The `Update` of the DummyClusterNetwork itself, which persists its finalizer list. -/
def Call.isUpdate : Call → Bool
  | update _ => true
  | _ => false

/-- The update of the status sub-resource. -/
def Call.isStatusUpdate : Call → Bool
  | statusUpdate _ => true
  | _ => false

/-- The calls that read or write a dependent resource. -/
def Call.isDependent : Call → Bool
  | getNAD _ _ | createNAD _ | deleteNAD _ | getDaemonSet _ _ | createDaemonSet _
  | deleteDaemonSet _ => true
  | _ => false

/-- The list calls over the workloads. -/
def Call.isList : Call → Bool
  | listVM | listVMI => true
  | _ => false

/-- The embedded `client.Client`. The store is an external collaborator of the controller: it
is modelled by the contract the controller relies on (get, list, create, update, delete by
identity). `fail` names the calls the store refuses and the error it answers them with; a call
it does not name is carried out on `store`. `log` is the sequence of calls issued so far,
oldest first. -/
structure Client where
  store : Store
  fail : Call → error
  log : List Call

/-- Record a call in the log. -/
def Client.record (r : Client) (c : Call) : Client :=
  { r with log := r.log ++ [c] }

/-- The API status error `NotFound`. -/
def notFound : GoError := ⟨StatusReason.NotFound, "not found"⟩

/-- The API status error `AlreadyExists`. -/
def alreadyExists : GoError := ⟨StatusReason.AlreadyExists, "already exists"⟩

/-- Go `r.Get(ctx, types.NamespacedName{Name: name}, &dcn)` for a DummyClusterNetwork. -/
def Client.GetDCN (r : Client) (name : String) : Except GoError Unstructured × Client :=
  let r1 := r.record (Call.getDCN name)
  match r.fail (Call.getDCN name) with
  | some err => (Except.error err, r1)
  | none =>
    match r.store.dcns.get name with
    | some obj => (Except.ok obj, r1)
    | none => (Except.error notFound, r1)

/-- Go `r.Update(ctx, &dcn)`: the stored object is replaced by `obj`. -/
def Client.Update (r : Client) (obj : Unstructured) : error × Client :=
  let r1 := r.record (Call.update obj)
  match r.fail (Call.update obj) with
  | some err => (some err, r1)
  | none =>
    match r.store.dcns.get obj.GetName with
    | none => (some notFound, r1)
    | some _ => (none, { r1 with store := { r.store with dcns := r.store.dcns.set obj } })

/-- Go `r.Status().Update(ctx, obj)`: the `status` of the stored object is replaced by that of
`obj`, the rest of the stored object is kept. -/
def Client.StatusUpdate (r : Client) (obj : Unstructured) : error × Client :=
  let r1 := r.record (Call.statusUpdate obj)
  match r.fail (Call.statusUpdate obj) with
  | some err => (some err, r1)
  | none =>
    match r.store.dcns.get obj.GetName with
    | none => (some notFound, r1)
    | some old =>
      let status := (obj.Object.lookup "status").getD Val.null
      let new : Unstructured := { old with Object := setField old.Object "status" status }
      (none, { r1 with store := { r.store with dcns := r.store.dcns.set new } })

/-- Go `r.Get(ctx, types.NamespacedName{Namespace: ns, Name: name}, &nad)`. -/
def Client.GetNAD (r : Client) (ns name : String) : Except GoError Unstructured × Client :=
  let r1 := r.record (Call.getNAD ns name)
  match r.fail (Call.getNAD ns name) with
  | some err => (Except.error err, r1)
  | none =>
    match r.store.nads.get (ns, name) with
    | some obj => (Except.ok obj, r1)
    | none => (Except.error notFound, r1)

/-- Go `r.Create(ctx, &nad)`. -/
def Client.CreateNAD (r : Client) (obj : Unstructured) : error × Client :=
  let r1 := r.record (Call.createNAD obj)
  match r.fail (Call.createNAD obj) with
  | some err => (some err, r1)
  | none =>
    match r.store.nads.get obj.key with
    | some _ => (some alreadyExists, r1)
    | none => (none, { r1 with store := { r.store with nads := r.store.nads.set obj } })

/-- Go `r.Delete(ctx, &nad)`. -/
def Client.DeleteNAD (r : Client) (obj : Unstructured) : error × Client :=
  let r1 := r.record (Call.deleteNAD obj)
  match r.fail (Call.deleteNAD obj) with
  | some err => (some err, r1)
  | none =>
    match r.store.nads.get obj.key with
    | none => (some notFound, r1)
    | some _ => (none, { r1 with store := { r.store with nads := r.store.nads.erase obj.key } })

/-- Go `r.Get(ctx, types.NamespacedName{Namespace: ns, Name: name}, &ds)`. -/
def Client.GetDaemonSet (r : Client) (ns name : String) :
    Except GoError DaemonSet × Client :=
  let r1 := r.record (Call.getDaemonSet ns name)
  match r.fail (Call.getDaemonSet ns name) with
  | some err => (Except.error err, r1)
  | none =>
    match r.store.daemonSets.get (ns, name) with
    | some ds => (Except.ok ds, r1)
    | none => (Except.error notFound, r1)

/-- Go `r.Create(ctx, &ds)`. -/
def Client.CreateDaemonSet (r : Client) (ds : DaemonSet) : error × Client :=
  let r1 := r.record (Call.createDaemonSet ds)
  match r.fail (Call.createDaemonSet ds) with
  | some err => (some err, r1)
  | none =>
    match r.store.daemonSets.get ds.key with
    | some _ => (some alreadyExists, r1)
    | none =>
      (none, { r1 with store := { r.store with daemonSets := r.store.daemonSets.set ds } })

/-- Go `r.Delete(ctx, &ds)`. -/
def Client.DeleteDaemonSet (r : Client) (ds : DaemonSet) : error × Client :=
  let r1 := r.record (Call.deleteDaemonSet ds)
  match r.fail (Call.deleteDaemonSet ds) with
  | some err => (some err, r1)
  | none =>
    match r.store.daemonSets.get ds.key with
    | none => (some notFound, r1)
    | some _ =>
      (none, { r1 with store := { r.store with
        daemonSets := r.store.daemonSets.erase ds.key } })

/-- Go `r.List(ctx, &vmList)` for the kind `VirtualMachineList`. -/
def Client.ListVM (r : Client) : Except GoError (List Unstructured) × Client :=
  let r1 := r.record Call.listVM
  match r.fail Call.listVM with
  | some err => (Except.error err, r1)
  | none => (Except.ok r.store.vms, r1)

/-- Go `r.List(ctx, &vmiList)` for the kind `VirtualMachineInstanceList`. -/
def Client.ListVMI (r : Client) : Except GoError (List Unstructured) × Client :=
  let r1 := r.record Call.listVMI
  match r.fail Call.listVMI with
  | some err => (Except.error err, r1)
  | none => (Except.ok r.store.vmis, r1)

/-! ## The controller -/

/-- Go `finalizerName`. -/
def finalizerName : String := "finalizer.network.harvester.io/dummy"

/-- Go `time.Second`, in nanoseconds. -/
def Second : Nat := 1000000000

/-- Go `ctrl.Request`. -/
structure Request where
  Namespace : String := ""
  Name : String

/-- Go `ctrl.Result`; the zero value is `{}`. -/
structure Result where
  Requeue : Bool := false
  RequeueAfter : Nat := 0
  deriving DecidableEq, Repr

/-- Go `containsString`. -/
def containsString : List String → String → Bool
  | [], _ => false
  | item :: rest, s => if item = s then true else containsString rest s

/-- Go `removeString`. -/
def removeString (slice : List String) (s : String) : List String :=
  slice.foldl (fun out item => if item = s then out else out ++ [item]) []

/-- The body of the loop over `networks` in `objectUsesNetwork`: whether the entry `n` makes the
function return true. -/
def networkEntryMatches (fullName shortName : String) (n : Val) : Bool :=
  match n with
  | Val.obj m =>
    match m.lookup "multus" with
    | some (Val.obj multus) =>
      match multus.lookup "networkName" with
      | some (Val.str networkName) =>
        networkName == fullName || networkName == shortName ||
          HasSuffix networkName ("/" ++ shortName)
      | _ => false
    | _ => false
  | _ => false

/-- The loop over `networks` in `objectUsesNetwork`: true when it returns true, false when it
runs to its end. -/
def networksLoop (fullName shortName : String) : List Val → Bool
  | [] => false
  | n :: rest =>
    if networkEntryMatches fullName shortName n then true
    else networksLoop fullName shortName rest

/-- The loop over `parts` in `objectUsesNetwork`. -/
def partsLoop (fullName shortName : String) : List String → Bool
  | [] => false
  | p :: rest =>
    let t := TrimSpace p
    if t == fullName || t == shortName || HasSuffix t ("/" ++ shortName) then true
    else partsLoop fullName shortName rest

/-- Go `objectUsesNetwork`. -/
def objectUsesNetwork (obj : Unstructured) (fullName shortName : String) : Bool × error :=
  let networks := NestedSlice obj.Object ["spec", "template", "spec", "networks"]
  if (networks.2.2 = none ∧ networks.2.1 = true) ∧
      networksLoop fullName shortName networks.1 = true then (true, none)
  else
    let ann := (NestedString obj.Object
      ["spec", "template", "metadata", "annotations", "k8s.v1.cni.cncf.io/networks"]).1
    if ann ≠ "" ∧ partsLoop fullName shortName (Split ann ',') = true then (true, none)
    else (false, none)

/-- Go `isNetworkInUse`. -/
def isNetworkInUse (r : Client) (fullName shortName : String) :
    (Bool × List String × error) × Client :=
  let users : List String := []
  match r.ListVM with
  | (Except.error err, r) => ((false, [], some err), r)
  | (Except.ok vmList, r) =>
    let users := vmList.foldl (fun users vm =>
      if (objectUsesNetwork vm fullName shortName).1 then
        users ++ ["VM/" ++ vm.GetNamespace ++ "/" ++ vm.GetName]
      else users) users
    match r.ListVMI with
    | (Except.error err, r) => ((false, [], some err), r)
    | (Except.ok vmiList, r) =>
      let users := vmiList.foldl (fun users vmi =>
        if (objectUsesNetwork vmi fullName shortName).1 then
          users ++ ["VMI/" ++ vmi.GetNamespace ++ "/" ++ vmi.GetName]
        else users) users
      ((decide (users.length > 0), users, none), r)

/-- The first statement of `updateStatus`: `unstructured.SetNestedField` of the map of `phase`
and `reason` at `status`. -/
def setStatus (obj : Unstructured) (phase reason : String) : Unstructured :=
  let status := Val.obj [("phase", Val.str phase), ("reason", Val.str reason)]
  { obj with Object := setField obj.Object "status" status }

/-- Go `updateStatus`. -/
def updateStatus (r : Client) (obj : Unstructured) (phase reason : String) : error × Client :=
  r.StatusUpdate (setStatus obj phase reason)

/-- The `fmt.Sprintf` of `ensureNetworkAttachmentDefinition`: the CNI configuration of the
bridge. -/
def nadConfig (bridge : String) : String :=
  "\x7b\n  \"cniVersion\":\"0.3.1\",\n  \"type\":\"bridge\",\n  \"bridge\":\"" ++ bridge ++
    "\",\n  \"isGateway\": true,\n  \"ipMasq\": true,\n  \"ipam\": \x7b\n    \"type\":\"host-local\",\n    \"subnet\":\"10.10.0.0/24\"\n  \x7d\n\x7d"

/-- The object that `ensureNetworkAttachmentDefinition` builds and creates. -/
def nadBody (ns name bridge : String) : Unstructured :=
  { metadata := { Name := name, Namespace := ns }
    Object := [("apiVersion", Val.str "k8s.cni.cncf.io/v1"),
      ("kind", Val.str "NetworkAttachmentDefinition"),
      ("spec", Val.obj [("config", Val.str (nadConfig bridge))])] }

/-- Go `ensureNetworkAttachmentDefinition`. -/
def ensureNetworkAttachmentDefinition (r : Client) (ns name bridge : String) : error × Client :=
  match r.GetNAD ns name with
  | (Except.ok _, r) => (none, r)
  | (Except.error err, r) =>
    if !IsNotFound err then (some err, r)
    else r.CreateNAD (nadBody ns name bridge)

/-- The `fmt.Sprintf` of `ensureBridgeDaemonSet`: the script of the bridge agent. -/
def bridgeScript (bridge : String) : String :=
  "BRIDGE=\"" ++ bridge ++
    "\"\nwhile true; do\n  if ip link show \"$BRIDGE\" >/dev/null 2>&1; then\n    ip link set \"$BRIDGE\" up || true\n  else\n    ip link add name \"$BRIDGE\" type bridge || true\n    ip link set \"$BRIDGE\" up || true\n  fi\n  sleep 30\ndone"

/-- The DaemonSet that `ensureBridgeDaemonSet` builds and creates. -/
def bridgeDaemonSet (dsName bridge : String) : DaemonSet :=
  { metadata := { Name := dsName, Namespace := "kube-system",
                  Labels := [("app", "dummy-bridge-ensure")] }
    MatchLabels := [("app", "dummy-bridge-ensure")]
    TemplateLabels := [("app", "dummy-bridge-ensure")]
    Spec :=
      { HostNetwork := true
        HostPID := true
        Containers := [
          { Name := "ensure-bridge"
            Image := "alpine:3.18"
            Privileged := some true
            Command := ["/bin/sh", "-c"]
            Args := [bridgeScript bridge]
            VolumeMounts := [
              { Name := "lib-modules", MountPath := "/lib/modules", ReadOnly := true }] }]
        Volumes := [
          { Name := "lib-modules", HostPath := "/lib/modules", HostPathType := "Directory" }]
        Tolerations := [{ Operator := "Exists" }] } }

/-- Go `ensureBridgeDaemonSet`. -/
def ensureBridgeDaemonSet (r : Client) (bridge : String) : error × Client :=
  let dsName := "dummy-bridge-ensure"
  match r.GetDaemonSet "kube-system" dsName with
  | (Except.ok _, r) => (none, r)
  | (Except.error err, r) =>
    if !IsNotFound err then (some err, r)
    else r.CreateDaemonSet (bridgeDaemonSet dsName bridge)

/-- Go `deleteBridgeDaemonSet`. -/
def deleteBridgeDaemonSet (r : Client) (_bridge : String) : error × Client :=
  let dsName := "dummy-bridge-ensure"
  match r.GetDaemonSet "kube-system" dsName with
  | (Except.error err, r) =>
    if IsNotFound err then (none, r) else (some err, r)
  | (Except.ok ds, r) => r.DeleteDaemonSet ds

/-- Go `deleteNAD`. -/
def deleteNAD (r : Client) (ns name : String) : error × Client :=
  match r.GetNAD ns name with
  | (Except.error err, r) =>
    if IsNotFound err then (none, r) else (some err, r)
  | (Except.ok nad, r) => r.DeleteNAD nad

/-- Steps b to d of the provisioning path of `Reconcile`: ensure the two dependents and write
the status. -/
def reconcileEnsure (r : Client) (dcn : Unstructured)
    (bridgeName nadName nadNamespace : String) : (Result × error) × Client :=
  match ensureNetworkAttachmentDefinition r nadNamespace nadName bridgeName with
  | (some err, r) =>
    (({}, some err), (updateStatus r dcn "ErrorEnsuringNAD" err.Error).2)
  | (none, r) =>
    match ensureBridgeDaemonSet r bridgeName with
    | (some err, r) =>
      (({}, some err), (updateStatus r dcn "ErrorEnsuringDaemonSet" err.Error).2)
    | (none, r) =>
      (({}, none), (updateStatus r dcn "Ready" "Resources created").2)

/-- The provisioning path of `Reconcile` (the body of `if dcn.GetDeletionTimestamp().IsZero()`),
entered with the fetched object and the three fields of its spec: add the finalizer when it is
absent, then go on with `reconcileEnsure`. -/
def reconcileProvision (r : Client) (dcn : Unstructured)
    (bridgeName nadName nadNamespace : String) : (Result × error) × Client :=
  if !containsString dcn.GetFinalizers finalizerName then
    let dcn := dcn.SetFinalizers (dcn.GetFinalizers ++ [finalizerName])
    match r.Update dcn with
    | (some err, r) => (({}, some err), r)
    | (none, r) => reconcileEnsure r dcn bridgeName nadName nadNamespace
  else reconcileEnsure r dcn bridgeName nadName nadNamespace

/-- The teardown path of `Reconcile` (what follows the provisioning block), entered with the
fetched object and the three fields of its spec. -/
def reconcileTeardown (r : Client) (dcn : Unstructured)
    (bridgeName nadName nadNamespace : String) : (Result × error) × Client :=
  let fullName := nadNamespace ++ "/" ++ nadName
  match isNetworkInUse r fullName nadName with
  | ((_, _, some err), r) => (({}, some err), r)
  | ((inUse, users, none), r) =>
    if inUse then
      let msg := "Network in use by " ++ toString users.length ++ " objects: " ++
        Join users ","
      (({ RequeueAfter := 30 * Second }, none),
        (updateStatus r dcn "DeletionBlocked" msg).2)
    else
      match deleteBridgeDaemonSet r bridgeName with
      | (some err, r) => (({}, some err), r)
      | (none, r) =>
        match deleteNAD r nadNamespace nadName with
        | (some err, r) => (({}, some err), r)
        | (none, r) =>
          let dcn := dcn.SetFinalizers (removeString dcn.GetFinalizers finalizerName)
          match r.Update dcn with
          | (some err, r) => (({}, some err), r)
          | (none, r) =>
            (({}, none), (updateStatus r dcn "Deleted" "Cleaned up resources").2)

/-- Go `Reconcile`: the fetch, the check of the spec, and the branch on the deletion timestamp
into `reconcileProvision` and `reconcileTeardown`. -/
def Reconcile (r : Client) (req : Request) : (Result × error) × Client :=
  match r.GetDCN req.Name with
  | (Except.error err, r) =>
    if IsNotFound err then (({}, none), r) else (({}, some err), r)
  | (Except.ok dcn, r) =>
    let bridgeName := (NestedString dcn.Object ["spec", "bridgeName"]).1
    let nadName := (NestedString dcn.Object ["spec", "nadName"]).1
    let nadNamespace := (NestedString dcn.Object ["spec", "nadNamespace"]).1
    if bridgeName = "" ∨ nadName = "" ∨ nadNamespace = "" then
      (({ RequeueAfter := 30 * Second }, none),
        (updateStatus r dcn "InvalidSpec"
          "bridgeName, nadName and nadNamespace are required").2)
    else if dcn.DeletionTimestampIsZero then
      reconcileProvision r dcn bridgeName nadName nadNamespace
    else
      reconcileTeardown r dcn bridgeName nadName nadNamespace

/-- The field `bridgeName` of the spec, as `Reconcile` reads it. -/
def specBridgeName (dcn : Unstructured) : String :=
  (NestedString dcn.Object ["spec", "bridgeName"]).1

/-- The field `nadName` of the spec, as `Reconcile` reads it. -/
def specNadName (dcn : Unstructured) : String :=
  (NestedString dcn.Object ["spec", "nadName"]).1

/-- The field `nadNamespace` of the spec, as `Reconcile` reads it. -/
def specNadNamespace (dcn : Unstructured) : String :=
  (NestedString dcn.Object ["spec", "nadNamespace"]).1

/-! ## The vocabulary of the specification -/

/-- The value found at a path of keys below `v`: every value on the way is a map that holds the
next key. -/
def fieldAt : Val → List String → Option Val
  | v, [] => some v
  | Val.obj m, k :: rest =>
    match m.lookup k with
    | some w => fieldAt w rest
    | none => none
  | _, _ :: _ => none

/-- The matching rule of the specification: a reference `x` names the network when it is the
full name, the short name, or ends with `"/" + shortName`. -/
def NameMatch (x fullName shortName : String) : Prop :=
  x = fullName ∨ x = shortName ∨ ∃ p : String, x = p ++ ("/" ++ shortName)

/-- The path of the network list of the pod template. -/
def networksPath : List String := ["spec", "template", "spec", "networks"]

/-- The path of the network annotation of the pod template. -/
def annotationPath : List String :=
  ["spec", "template", "metadata", "annotations", "k8s.v1.cni.cncf.io/networks"]

/-- A workload declares a reference to the network: its pod template lists a multus network
whose `networkName` matches, or carries a non-empty network annotation one of whose
comma-separated tokens matches once trimmed. -/
def DeclaresReference (o : Unstructured) (fullName shortName : String) : Prop :=
  (∃ nets, fieldAt (Val.obj o.Object) networksPath = some (Val.arr nets) ∧
    ∃ m multus n, Val.obj m ∈ nets ∧ m.lookup "multus" = some (Val.obj multus) ∧
      multus.lookup "networkName" = some (Val.str n) ∧ NameMatch n fullName shortName) ∨
  (∃ ann, fieldAt (Val.obj o.Object) annotationPath = some (Val.str ann) ∧ ann ≠ "" ∧
    ∃ p ∈ Split ann ',', NameMatch (TrimSpace p) fullName shortName)

/-- The identifier of a VirtualMachine in the usage report. -/
def vmIdent (w : Unstructured) : String := "VM/" ++ w.GetNamespace ++ "/" ++ w.GetName

/-- The identifier of a VirtualMachineInstance in the usage report. -/
def vmiIdent (w : Unstructured) : String := "VMI/" ++ w.GetNamespace ++ "/" ++ w.GetName

/-- The usage report of the specification: the identifiers of the listed VirtualMachines that
use the network, in list order, followed by those of the listed VirtualMachineInstances that
use it, in list order. -/
def usageReport (vms vmis : List Unstructured) (fullName shortName : String) : List String :=
  (vms.filter fun w => (objectUsesNetwork w fullName shortName).1).map vmIdent ++
    (vmis.filter fun w => (objectUsesNetwork w fullName shortName).1).map vmiIdent

/-- The text of the status written for an invalid spec. -/
def invalidSpecReason : String := "bridgeName, nadName and nadNamespace are required"

/-- The spec is valid: none of its three fields is missing or empty. -/
def ValidSpec (dcn : Unstructured) : Prop :=
  specBridgeName dcn ≠ "" ∧ specNadName dcn ≠ "" ∧ specNadNamespace dcn ≠ ""

instance (dcn : Unstructured) : Decidable (ValidSpec dcn) :=
  inferInstanceAs (Decidable (_ ∧ _ ∧ _))

/-- The reason of the specification for a blocked deletion:
`Network in use by N objects: <comma-joined identifiers>`. -/
def blockedReason (users : List String) : String :=
  "Network in use by " ++ toString users.length ++ " objects: " ++ Join users ","

/-! ## Concrete objects and stores -/

/-- The store that holds nothing. -/
def emptyStore : Store := ⟨Keyed.empty, Keyed.empty, Keyed.empty, [], []⟩

/-- A client whose store refuses no call and has logged none. -/
def clientOf (store : Store) : Client := { store := store, fail := fun _ => none, log := [] }

/-- A workload whose pod template carries the network annotation `ann`. -/
def annotatedWorkload (ns name ann : String) : Unstructured :=
  { metadata := { Name := name, Namespace := ns }
    Object := [("spec", Val.obj [("template", Val.obj [("metadata", Val.obj [("annotations",
      Val.obj [("k8s.v1.cni.cncf.io/networks", Val.str ann)])])])])] }

/-- A workload whose pod template lists one multus network named `networkName`. -/
def multusWorkload (ns name networkName : String) : Unstructured :=
  { metadata := { Name := name, Namespace := ns }
    Object := [("spec", Val.obj [("template", Val.obj [("spec", Val.obj [("networks",
      Val.arr [Val.obj [("name", Val.str "net"),
        ("multus", Val.obj [("networkName", Val.str networkName)])]])])])])] }

/-- A store with two VirtualMachines and two VirtualMachineInstances, one of each using the
network `default/net1`. -/
def usageStore : Store :=
  { emptyStore with
    vms := [multusWorkload "default" "a" "net1", multusWorkload "default" "b" "other"]
    vmis := [annotatedWorkload "default" "x" "default/net1",
      annotatedWorkload "default" "y" "foo, bar"] }

/-- A DummyClusterNetwork named `net` whose spec lacks `nadName`. -/
def invalidDCN : Unstructured :=
  { metadata := { Name := "net", Finalizers := [finalizerName], DeletionTimestamp := some 7 }
    Object := [("spec", Val.obj [("bridgeName", Val.str "br0"),
      ("nadNamespace", Val.str "default")])] }

/-- A DummyClusterNetwork named `net` with the spec of the scenarios (`br0`, `net1`,
`default`), the given finalizers and deletion timestamp. -/
def scenarioDCN (finalizers : List String) (deleted : Option Nat) : Unstructured :=
  { metadata := { Name := "net", Finalizers := finalizers, DeletionTimestamp := deleted }
    Object := [("spec", Val.obj [("bridgeName", Val.str "br0"), ("nadName", Val.str "net1"),
      ("nadNamespace", Val.str "default")])] }

/-- The store of scenario B: the DummyClusterNetwork is being deleted and a
VirtualMachineInstance `default/x` carries the annotation `default/net1`. -/
def scenarioBStore : Store :=
  { emptyStore with
    dcns := Keyed.empty.set (scenarioDCN [finalizerName] (some 7))
    vmis := [annotatedWorkload "default" "x" "default/net1"] }

/-- A client on the store of scenario B whose VirtualMachineInstance list call fails. -/
def listFailingClient : Client :=
  { store := scenarioBStore
    fail := fun c => match c with
      | Call.listVMI => some ⟨StatusReason.Unknown, "timeout"⟩
      | _ => none
    log := [] }

/-- A client on a store that holds the live DummyClusterNetwork of the scenarios, without
finalizer, and refuses every Update of it. -/
def updateFailingClient : Client :=
  { store := { emptyStore with dcns := Keyed.empty.set (scenarioDCN [] none) }
    fail := fun c => match c with
      | Call.update _ => some ⟨StatusReason.Conflict, "conflict"⟩
      | _ => none
    log := [] }

/-- The store of scenario A: the live DummyClusterNetwork of the scenarios, without finalizer,
and no dependent. -/
def scenarioAStore : Store :=
  { emptyStore with dcns := Keyed.empty.set (scenarioDCN [] none) }

/-- The store of scenario C: the DummyClusterNetwork is being deleted, both dependents exist
and no workload is listed. -/
def scenarioCStore : Store :=
  { emptyStore with
    dcns := Keyed.empty.set (scenarioDCN [finalizerName] (some 7))
    nads := Keyed.empty.set (nadBody "default" "net1" "br0")
    daemonSets := Keyed.empty.set (bridgeDaemonSet "dummy-bridge-ensure" "br0") }

/-- A workload without pod template that names the network `default/net1` exactly in a
top-level `spec.networks` list and in its own `metadata.annotations`. -/
def templatelessWorkload : Unstructured :=
  { metadata := { Name := "w", Namespace := "default",
                  Annotations := [("k8s.v1.cni.cncf.io/networks", "default/net1")] }
    Object := [("metadata", Val.obj [("annotations",
        Val.obj [("k8s.v1.cni.cncf.io/networks", Val.str "default/net1")])]),
      ("spec", Val.obj [("networks",
        Val.arr [Val.obj [("multus", Val.obj [("networkName", Val.str "default/net1")])]])])] }

/-- A store whose dependents exist with a content made for another bridge, `br9`. -/
def driftedStore : Store :=
  { emptyStore with
    nads := Keyed.empty.set (nadBody "default" "net1" "br9")
    daemonSets := Keyed.empty.set (bridgeDaemonSet "dummy-bridge-ensure" "br9") }

/-- The calls on a NetworkAttachmentDefinition. -/
def Call.isNAD : Call → Bool
  | getNAD _ _ | createNAD _ | deleteNAD _ => true
  | _ => false

/-- The calls on a DaemonSet. -/
def Call.isDaemonSet : Call → Bool
  | getDaemonSet _ _ | createDaemonSet _ | deleteDaemonSet _ => true
  | _ => false

/-- The client `r1` is `r` after some further calls, each of which satisfies `P`. -/
def Issued (P : Call → Prop) (r r1 : Client) : Prop :=
  ∃ calls, r1.log = r.log ++ calls ∧ ∀ c ∈ calls, P c

/-- Two clients that differ at most in which status updates their store refuses. -/
def Agree (r r1 : Client) : Prop :=
  r1.store = r.store ∧ r1.log = r.log ∧
    ∀ c, c.isStatusUpdate = false → r1.fail c = r.fail c

/-- The phase of the status carried by an object. -/
def phaseOf (obj : Unstructured) : Option Val :=
  fieldAt (Val.obj obj.Object) ["status", "phase"]

/-- The phases that the controller writes. -/
def writtenPhases : List String :=
  ["InvalidSpec", "ErrorEnsuringNAD", "ErrorEnsuringDaemonSet", "Ready", "DeletionBlocked",
    "Deleted"]

/-- The phases that the specification lists. -/
def specPhases : List String :=
  ["InvalidSpec", "ErrorEnsuringDependent", "Ready", "DeletionBlocked", "Deleted"]

/-- The client and the object with which `reconcileProvision` goes on to ensure the dependents
once the finalizer step is passed: unchanged when the sentinel is there, after the Update that
adds it otherwise. -/
def afterFinalizer (r : Client) (dcn : Unstructured) : Client × Unstructured :=
  if containsString dcn.GetFinalizers finalizerName = true then (r, dcn)
  else
    ((r.Update (dcn.SetFinalizers (dcn.GetFinalizers ++ [finalizerName]))).2,
      dcn.SetFinalizers (dcn.GetFinalizers ++ [finalizerName]))

/-- A client on a store that holds the live DummyClusterNetwork of the scenarios with its
finalizer, and refuses every Get of a NetworkAttachmentDefinition. -/
def nadFailingClient : Client :=
  { store := { emptyStore with dcns := Keyed.empty.set (scenarioDCN [finalizerName] none) }
    fail := fun c => match c with
      | Call.getNAD _ _ => some ⟨StatusReason.Unknown, "boom"⟩
      | _ => none
    log := [] }

/-- A client on the store of scenario C that refuses every Get of a DaemonSet. -/
def daemonSetFailingClient : Client :=
  { store := scenarioCStore
    fail := fun c => match c with
      | Call.getDaemonSet _ _ => some ⟨StatusReason.Unknown, "boom"⟩
      | _ => none
    log := [] }

/-- A client on the store of scenario A that refuses every status update. -/
def statusFailingClient : Client :=
  { store := scenarioAStore
    fail := fun c => match c with
      | Call.statusUpdate _ => some ⟨StatusReason.Conflict, "conflict"⟩
      | _ => none
    log := [] }

/-- The client after `k` consecutive invocations of `Reconcile` for the same request. -/
def reconcileTimes : Nat → Client → Request → Client
  | 0, r, _ => r
  | k + 1, r, req => (Reconcile (reconcileTimes k r req) req).2

/-- A DummyClusterNetwork with bridge `br0` and the NetworkAttachmentDefinition
`default/<nad>`. -/
def namedDCN (name nad : String) (finalizers : List String) (deleted : Option Nat) :
    Unstructured :=
  { metadata := { Name := name, Finalizers := finalizers, DeletionTimestamp := deleted }
    Object := [("spec", Val.obj [("bridgeName", Val.str "br0"), ("nadName", Val.str nad),
      ("nadNamespace", Val.str "default")])] }

/-- A store without dependents that holds two DummyClusterNetworks: `a`, live, for
`default/net1`, and `b`, being deleted, for `default/net2`; no workload is listed. -/
def twoNetworksStore : Store :=
  { emptyStore with
    dcns := (Keyed.empty.set (namedDCN "a" "net1" [] none)).set
      (namedDCN "b" "net2" [finalizerName] (some 7)) }

/-! # Theorems -/

/-! ## Strings -/

theorem HasSuffix_iff (x suffix : String) :
    HasSuffix x suffix = true ↔ ∃ p : String, x = p ++ suffix := by
  unfold HasSuffix
  rw [Bool.and_eq_true, decide_eq_true_iff, decide_eq_true_iff]
  constructor
  · rintro ⟨_, hdrop⟩
    refine ⟨String.mk (x.data.take (x.data.length - suffix.data.length)), ?_⟩
    apply String.ext
    have h := List.take_append_drop (x.data.length - suffix.data.length) x.data
    rw [hdrop] at h
    rw [String.data_append]
    exact h.symm
  · rintro ⟨p, rfl⟩
    rw [String.data_append]
    constructor
    · simp
    · simp

theorem nameMatch_iff (x fullName shortName : String) :
    (x == fullName || x == shortName || HasSuffix x ("/" ++ shortName)) = true ↔
      NameMatch x fullName shortName := by
  unfold NameMatch
  rw [Bool.or_eq_true, Bool.or_eq_true, beq_iff_eq, beq_iff_eq, HasSuffix_iff, or_assoc]

/-! ## Reading unstructured content -/

theorem NestedFieldNoCopy_eq (path : List String) :
    ∀ v : Val, NestedFieldNoCopy v path =
      match fieldAt v path with
      | some w => (some w, true, none)
      | none => (none, false, (NestedFieldNoCopy v path).2.2) := by
  induction path with
  | nil => intro v; cases v <;> rfl
  | cons k rest ih =>
    intro v
    cases v with
    | obj m =>
      simp only [NestedFieldNoCopy, fieldAt]
      cases hl : m.lookup k with
      | none => rfl
      | some w => exact ih w
    | null => rfl
    | bool b => rfl
    | num n => rfl
    | str s => rfl
    | arr items => rfl

theorem NestedSlice_found_iff (obj : Fields) (path : List String) :
    ((NestedSlice obj path).2.2 = none ∧ (NestedSlice obj path).2.1 = true) ↔
      ∃ items, fieldAt (Val.obj obj) path = some (Val.arr items) := by
  unfold NestedSlice
  rw [NestedFieldNoCopy_eq]
  cases h : fieldAt (Val.obj obj) path with
  | none => simp
  | some w => cases w <;> simp

theorem NestedSlice_of_fieldAt (obj : Fields) (path : List String) (items : List Val)
    (h : fieldAt (Val.obj obj) path = some (Val.arr items)) :
    (NestedSlice obj path).1 = items := by
  unfold NestedSlice
  rw [NestedFieldNoCopy_eq, h]

theorem NestedString_eq (obj : Fields) (path : List String) :
    (NestedString obj path).1 =
      match fieldAt (Val.obj obj) path with
      | some (Val.str s) => s
      | _ => "" := by
  unfold NestedString
  rw [NestedFieldNoCopy_eq]
  cases h : fieldAt (Val.obj obj) path with
  | none => simp
  | some w => cases w <;> simp

/-! ## The usage predicate -/

theorem networkEntryMatches_iff (f s : String) (e : Val) :
    networkEntryMatches f s e = true ↔
      ∃ m multus n, e = Val.obj m ∧ m.lookup "multus" = some (Val.obj multus) ∧
        multus.lookup "networkName" = some (Val.str n) ∧ NameMatch n f s := by
  constructor
  · intro h
    unfold networkEntryMatches at h
    split at h
    · rename_i m
      split at h
      · rename_i multus hm
        split at h
        · rename_i n hn
          exact ⟨m, multus, n, rfl, hm, hn, (nameMatch_iff n f s).mp h⟩
        · exact absurd h (by decide)
      · exact absurd h (by decide)
    · exact absurd h (by decide)
  · rintro ⟨m, multus, n, rfl, hm, hn, hmatch⟩
    simp only [networkEntryMatches, hm, hn]
    exact (nameMatch_iff n f s).mpr hmatch

theorem networksLoop_iff (f s : String) (nets : List Val) :
    networksLoop f s nets = true ↔ ∃ e ∈ nets, networkEntryMatches f s e = true := by
  induction nets with
  | nil => simp [networksLoop]
  | cons e rest ih =>
    unfold networksLoop
    by_cases he : networkEntryMatches f s e = true
    · simp [he]
    · simp [he, ih]

theorem partsLoop_iff (f s : String) (parts : List String) :
    partsLoop f s parts = true ↔ ∃ p ∈ parts, NameMatch (TrimSpace p) f s := by
  induction parts with
  | nil => simp [partsLoop]
  | cons p rest ih =>
    unfold partsLoop
    by_cases hp : NameMatch (TrimSpace p) f s
    · have h := (nameMatch_iff (TrimSpace p) f s).mpr hp
      simp only [h, if_true, List.mem_cons, exists_eq_or_imp, hp, true_or]
    · have h : (TrimSpace p == f || TrimSpace p == s || HasSuffix (TrimSpace p) ("/" ++ s)) =
          false := by
        rw [← Bool.not_eq_true, nameMatch_iff]; exact hp
      simp only [h, List.mem_cons, exists_eq_or_imp, hp, false_or]
      simpa using ih

/-- The structured source of `objectUsesNetwork`: `spec.template.spec.networks` is a list with
an entry that is a map whose `multus` is a map whose `networkName` is a matching string. -/
theorem structured_source_iff (o : Unstructured) (f s : String) :
    (((NestedSlice o.Object networksPath).2.2 = none ∧
        (NestedSlice o.Object networksPath).2.1 = true) ∧
      networksLoop f s (NestedSlice o.Object networksPath).1 = true) ↔
    ∃ nets, fieldAt (Val.obj o.Object) networksPath = some (Val.arr nets) ∧
      ∃ m multus n, Val.obj m ∈ nets ∧ m.lookup "multus" = some (Val.obj multus) ∧
        multus.lookup "networkName" = some (Val.str n) ∧ NameMatch n f s := by
  rw [NestedSlice_found_iff]
  constructor
  · rintro ⟨⟨nets, hnets⟩, hloop⟩
    rw [NestedSlice_of_fieldAt _ _ _ hnets, networksLoop_iff] at hloop
    obtain ⟨e, he, hmatch⟩ := hloop
    obtain ⟨m, multus, n, rfl, hm, hn, hnm⟩ := (networkEntryMatches_iff f s e).mp hmatch
    exact ⟨nets, hnets, m, multus, n, he, hm, hn, hnm⟩
  · rintro ⟨nets, hnets, m, multus, n, he, hm, hn, hnm⟩
    refine ⟨⟨nets, hnets⟩, ?_⟩
    rw [NestedSlice_of_fieldAt _ _ _ hnets, networksLoop_iff]
    exact ⟨Val.obj m, he, (networkEntryMatches_iff f s _).mpr ⟨m, multus, n, rfl, hm, hn, hnm⟩⟩

/-- The annotation source of `objectUsesNetwork`: the annotation is a non-empty string one of
whose comma-separated tokens matches once trimmed. -/
theorem annotation_source_iff (o : Unstructured) (f s : String) :
    ((NestedString o.Object annotationPath).1 ≠ "" ∧
      partsLoop f s (Split (NestedString o.Object annotationPath).1 ',') = true) ↔
    ∃ ann, fieldAt (Val.obj o.Object) annotationPath = some (Val.str ann) ∧ ann ≠ "" ∧
      ∃ p ∈ Split ann ',', NameMatch (TrimSpace p) f s := by
  rw [NestedString_eq, partsLoop_iff]
  constructor
  · rintro ⟨hne, hp⟩
    split at hne
    · rename_i ann hann
      rw [hann] at hp
      exact ⟨ann, hann, hne, hp⟩
    · exact absurd rfl hne
  · rintro ⟨ann, hann, hne, hp⟩
    rw [hann]
    exact ⟨hne, hp⟩

theorem objectUsesNetwork_err (o : Unstructured) (f s : String) :
    (objectUsesNetwork o f s).2 = none := by
  simp only [objectUsesNetwork]
  split
  · rfl
  · split <;> rfl

theorem objectUsesNetwork_true_iff (o : Unstructured) (f s : String) :
    (objectUsesNetwork o f s).1 = true ↔ DeclaresReference o f s := by
  unfold DeclaresReference
  rw [← structured_source_iff, ← annotation_source_iff]
  simp only [objectUsesNetwork]
  by_cases h1 : ((NestedSlice o.Object networksPath).2.2 = none ∧
        (NestedSlice o.Object networksPath).2.1 = true) ∧
      networksLoop f s (NestedSlice o.Object networksPath).1 = true
  · have h1c := h1
    unfold networksPath at h1c
    simp only [h1c, and_self, if_true, true_iff]
    exact Or.inl h1
  · have h1c := h1
    unfold networksPath at h1c
    rw [if_neg h1c]
    by_cases h2 : (NestedString o.Object annotationPath).1 ≠ "" ∧
        partsLoop f s (Split (NestedString o.Object annotationPath).1 ',') = true
    · have h2c := h2
      unfold annotationPath at h2c
      simp only [if_pos h2c, true_iff]
      exact Or.inr h2
    · have h2c := h2
      unfold annotationPath at h2c
      simp only [if_neg h2c]
      constructor
      · intro h; exact absurd h (by decide)
      · rintro (h | h)
        · exact absurd h h1
        · exact absurd h h2

/-- C3. `objectUsesNetwork` never returns an error, and returns true exactly when the network
list of the pod template holds a map entry whose `multus` map has a string `networkName` that
matches, or the network annotation of the pod template is a non-empty string one of whose
comma-separated tokens matches after trimming; a reference matches when it is the full name,
the short name, or ends with `"/" + shortName`; it returns false when neither source holds a
matching reference. With short name `bar` and full name `ns/bar`
the reference `foo/bar` matches and `foobar` does not, in either source. -/
theorem objectUsesNetwork_characterisation :
    (∀ (o : Unstructured) (f s : String),
      (objectUsesNetwork o f s).2 = none ∧
      ((objectUsesNetwork o f s).1 = true ↔
        (∃ nets, fieldAt (Val.obj o.Object) networksPath = some (Val.arr nets) ∧
          ∃ m multus n, Val.obj m ∈ nets ∧ m.lookup "multus" = some (Val.obj multus) ∧
            multus.lookup "networkName" = some (Val.str n) ∧ NameMatch n f s) ∨
        (∃ ann, fieldAt (Val.obj o.Object) annotationPath = some (Val.str ann) ∧ ann ≠ "" ∧
          ∃ p ∈ Split ann ',', NameMatch (TrimSpace p) f s)) ∧
      ((objectUsesNetwork o f s).1 = false ↔ ¬ DeclaresReference o f s)) ∧
    NameMatch "foo/bar" "ns/bar" "bar" ∧ ¬ NameMatch "foobar" "ns/bar" "bar" ∧
    (objectUsesNetwork (annotatedWorkload "ns" "w" "foo/bar") "ns/bar" "bar").1 = true ∧
    (objectUsesNetwork (annotatedWorkload "ns" "w" "foobar") "ns/bar" "bar").1 = false ∧
    (objectUsesNetwork (multusWorkload "ns" "w" "foo/bar") "ns/bar" "bar").1 = true ∧
    (objectUsesNetwork (multusWorkload "ns" "w" "foobar") "ns/bar" "bar").1 = false := by
  refine ⟨fun o f s => ⟨objectUsesNetwork_err o f s, objectUsesNetwork_true_iff o f s, ?_⟩,
    ?_, ?_, ?_, ?_, ?_, ?_⟩
  · rw [← objectUsesNetwork_true_iff, Bool.not_eq_true]
  · rw [← nameMatch_iff]; decide
  · rw [← nameMatch_iff]; decide
  · decide
  · decide
  · decide
  · decide

/-! ## The usage report -/

theorem foldl_users (uses : Unstructured → Bool) (ident : Unstructured → String)
    (items : List Unstructured) :
    ∀ init : List String,
      items.foldl (fun users w => if uses w = true then users ++ [ident w] else users) init =
        init ++ (items.filter uses).map ident := by
  induction items with
  | nil => intro init; simp
  | cons w rest ih =>
    intro init
    rw [List.foldl_cons, ih]
    by_cases hw : uses w = true
    · simp [hw]
    · simp [hw]

theorem isNetworkInUse_ok (r : Client) (f s : String)
    (hvm : r.fail Call.listVM = none) (hvmi : r.fail Call.listVMI = none) :
    isNetworkInUse r f s =
      ((decide ((usageReport r.store.vms r.store.vmis f s).length > 0),
          usageReport r.store.vms r.store.vmis f s, none),
        (r.record Call.listVM).record Call.listVMI) := by
  have h1 : r.ListVM = (Except.ok r.store.vms, r.record Call.listVM) := by
    simp only [Client.ListVM, hvm]
  have h2 : (r.record Call.listVM).ListVMI =
      (Except.ok r.store.vmis, (r.record Call.listVM).record Call.listVMI) := by
    simp only [Client.ListVMI, Client.record, hvmi]
  simp only [isNetworkInUse, h1, h2, usageReport]
  rw [foldl_users (fun w => (objectUsesNetwork w f s).1) (fun w => "VM/" ++ w.GetNamespace ++ "/" ++ w.GetName),
    foldl_users (fun w => (objectUsesNetwork w f s).1) (fun w => "VMI/" ++ w.GetNamespace ++ "/" ++ w.GetName)]
  rfl

theorem usageReport_ne_nil_iff (vms vmis : List Unstructured) (f s : String) :
    usageReport vms vmis f s ≠ [] ↔
      ∃ w ∈ vms ++ vmis, (objectUsesNetwork w f s).1 = true := by
  unfold usageReport
  constructor
  · intro h
    by_contra hno
    apply h
    simp only [not_exists, not_and, List.mem_append] at hno
    simp only [List.append_eq_nil, List.map_eq_nil_iff, List.filter_eq_nil_iff]
    exact ⟨fun w hw => hno w (Or.inl hw), fun w hw => hno w (Or.inr hw)⟩
  · rintro ⟨w, hw, huse⟩ h
    simp only [List.append_eq_nil, List.map_eq_nil_iff, List.filter_eq_nil_iff] at h
    rcases List.mem_append.mp hw with hw | hw
    · exact h.1 w hw huse
    · exact h.2 w hw huse

/-- C2. When both list calls succeed, `isNetworkInUse` returns no error, its users are the
identifiers `VM/<namespace>/<name>` of the listed VirtualMachines that `objectUsesNetwork`
accepts, in list order, followed by the identifiers `VMI/<namespace>/<name>` of the listed
VirtualMachineInstances it accepts, in list order, and `inUse` is true exactly when that list is
not empty; so every listed workload that declares a matching reference is among the users. -/
theorem isNetworkInUse_report (r : Client) (f s : String)
    (hvm : r.fail Call.listVM = none) (hvmi : r.fail Call.listVMI = none) :
    (isNetworkInUse r f s).1.2.2 = none ∧
    (isNetworkInUse r f s).1.2.1 =
      ((r.store.vms.filter fun w => (objectUsesNetwork w f s).1).map
          fun w => "VM/" ++ w.GetNamespace ++ "/" ++ w.GetName) ++
        ((r.store.vmis.filter fun w => (objectUsesNetwork w f s).1).map
          fun w => "VMI/" ++ w.GetNamespace ++ "/" ++ w.GetName) ∧
    ((isNetworkInUse r f s).1.1 = true ↔ (isNetworkInUse r f s).1.2.1 ≠ []) ∧
    (∀ w ∈ r.store.vms, DeclaresReference w f s →
      "VM/" ++ w.GetNamespace ++ "/" ++ w.GetName ∈ (isNetworkInUse r f s).1.2.1) ∧
    (∀ w ∈ r.store.vmis, DeclaresReference w f s →
      "VMI/" ++ w.GetNamespace ++ "/" ++ w.GetName ∈ (isNetworkInUse r f s).1.2.1) := by
  rw [isNetworkInUse_ok r f s hvm hvmi]
  refine ⟨rfl, rfl, ?_, ?_, ?_⟩
  · simp only [gt_iff_lt, decide_eq_true_eq, List.length_pos, ne_eq]
  · intro w hw hdecl
    have huse := (objectUsesNetwork_true_iff w f s).mpr hdecl
    show _ ∈ usageReport _ _ _ _
    unfold usageReport
    exact List.mem_append_left _ (List.mem_map.mpr ⟨w, List.mem_filter.mpr ⟨hw, huse⟩, rfl⟩)
  · intro w hw hdecl
    have huse := (objectUsesNetwork_true_iff w f s).mpr hdecl
    show _ ∈ usageReport _ _ _ _
    unfold usageReport
    exact List.mem_append_right _ (List.mem_map.mpr ⟨w, List.mem_filter.mpr ⟨hw, huse⟩, rfl⟩)

theorem isNetworkInUse_report_witness :
    (clientOf usageStore).fail Call.listVM = none ∧
    (clientOf usageStore).fail Call.listVMI = none ∧
    (isNetworkInUse (clientOf usageStore) "default/net1" "net1").1.2.1 =
      ["VM/default/a", "VMI/default/x"] :=
  ⟨rfl, rfl,
    (isNetworkInUse_report (clientOf usageStore) "default/net1" "net1" rfl rfl).2.1.trans
      (by decide)⟩

/-! ## The client -/

theorem Keyed.get_set {K α : Type} [DecidableEq K] {key : α → K} (m : Keyed K α key) (a : α)
    (k : K) : (m.set a).get k = if k = key a then some a else m.get k := rfl

theorem Keyed.get_erase {K α : Type} [DecidableEq K] {key : α → K} (m : Keyed K α key)
    (k0 k : K) : (m.erase k0).get k = if k = k0 then none else m.get k := rfl

theorem GetDCN_snd (r : Client) (name : String) :
    (r.GetDCN name).2 = r.record (Call.getDCN name) := by
  unfold Client.GetDCN
  cases r.fail (Call.getDCN name) with
  | some err => rfl
  | none => cases r.store.dcns.get name <;> rfl

theorem GetDCN_ok (r : Client) (name : String) (dcn : Unstructured)
    (hget : r.fail (Call.getDCN name) = none) (hdcn : r.store.dcns.get name = some dcn) :
    r.GetDCN name = (Except.ok dcn, r.record (Call.getDCN name)) := by
  simp only [Client.GetDCN, hget, hdcn]

theorem GetDCN_eq (r : Client) (name : String) :
    r.GetDCN name = ((r.GetDCN name).1, r.record (Call.getDCN name)) := by
  rw [← GetDCN_snd]

/-- What a status update leaves behind: one more call in the log, and a store that differs at
most in the status of the DummyClusterNetworks. -/
theorem updateStatus_effect (r : Client) (o : Unstructured) (phase reason : String) :
    (updateStatus r o phase reason).2.log =
      r.log ++ [Call.statusUpdate (setStatus o phase reason)] ∧
    (updateStatus r o phase reason).2.fail = r.fail ∧
    (updateStatus r o phase reason).2.store.nads = r.store.nads ∧
    (updateStatus r o phase reason).2.store.daemonSets = r.store.daemonSets ∧
    (updateStatus r o phase reason).2.store.vms = r.store.vms ∧
    (updateStatus r o phase reason).2.store.vmis = r.store.vmis ∧
    ∀ k, ((updateStatus r o phase reason).2.store.dcns.get k).map (fun x => x.metadata) =
      (r.store.dcns.get k).map (fun x => x.metadata) := by
  unfold updateStatus Client.StatusUpdate
  cases hf : r.fail (Call.statusUpdate (setStatus o phase reason)) with
  | some err => simp [Client.record]
  | none =>
    cases hg : r.store.dcns.get (setStatus o phase reason).GetName with
    | none => simp [Client.record]
    | some old =>
      refine ⟨rfl, rfl, rfl, rfl, rfl, rfl, ?_⟩
      intro k
      have hold := r.store.dcns.sound _ _ hg
      simp only [Keyed.get_set]
      by_cases hk : k = (setStatus o phase reason).GetName
      · have hk2 : k = old.GetName := by rw [hold]; exact hk
        rw [hk] at *
        simp only [Unstructured.GetName] at *
        simp [hold, hg]
      · have hk2 : ¬ k = old.GetName := by rw [hold]; exact hk
        simp only [Unstructured.GetName] at *
        simp [hk2]

theorem lookup_setField (m : Fields) (k : String) (v : Val) :
    (setField m k v).lookup k = some v := by
  induction m with
  | nil => simp [setField, List.lookup]
  | cons e rest ih =>
    obtain ⟨k1, w⟩ := e
    unfold setField
    by_cases hk : k1 = k
    · simp [hk, List.lookup]
    · have hk2 : (k == k1) = false := by
        rw [beq_eq_false_iff_ne]; exact fun h => hk h.symm
      simp only [hk, if_false, List.lookup, hk2]
      exact ih

theorem setStatus_phase (o : Unstructured) (phase reason : String) :
    fieldAt (Val.obj (setStatus o phase reason).Object) ["status", "phase"] =
      some (Val.str phase) := by
  simp [setStatus, fieldAt, lookup_setField, List.lookup]

theorem setStatus_reason (o : Unstructured) (phase reason : String) :
    fieldAt (Val.obj (setStatus o phase reason).Object) ["status", "reason"] =
      some (Val.str reason) := by
  simp [setStatus, fieldAt, lookup_setField, List.lookup]

/-! ## The fetch and the check of the spec -/

theorem Reconcile_fetch_error (r : Client) (req : Request) (err : GoError)
    (h : (r.GetDCN req.Name).1 = Except.error err) :
    Reconcile r req =
      (({}, if IsNotFound err = true then none else some err),
        r.record (Call.getDCN req.Name)) := by
  unfold Reconcile
  rw [GetDCN_eq, h]
  by_cases hnf : IsNotFound err = true
  · simp [hnf]
  · simp [hnf]

theorem Reconcile_fetched (r : Client) (req : Request) (dcn : Unstructured)
    (hget : r.fail (Call.getDCN req.Name) = none)
    (hdcn : r.store.dcns.get req.Name = some dcn) :
    Reconcile r req =
      if specBridgeName dcn = "" ∨ specNadName dcn = "" ∨ specNadNamespace dcn = "" then
        (({ RequeueAfter := 30 * Second }, none),
          (updateStatus (r.record (Call.getDCN req.Name)) dcn "InvalidSpec"
            invalidSpecReason).2)
      else if dcn.DeletionTimestampIsZero = true then
        reconcileProvision (r.record (Call.getDCN req.Name)) dcn (specBridgeName dcn)
          (specNadName dcn) (specNadNamespace dcn)
      else
        reconcileTeardown (r.record (Call.getDCN req.Name)) dcn (specBridgeName dcn)
          (specNadName dcn) (specNadNamespace dcn) := by
  unfold Reconcile
  rw [GetDCN_ok r req.Name dcn hget hdcn]
  rfl

/-- C10. When the Get of the DummyClusterNetwork fails, `Reconcile` issues no other call and
leaves the store as it was; it returns the empty result with a nil error when the failure is
not-found, and with exactly the error of the Get otherwise. -/
theorem Reconcile_primary_fetch (r : Client) (req : Request) (err : GoError)
    (h : (r.GetDCN req.Name).1 = Except.error err) :
    (IsNotFound err = true → (Reconcile r req).1 = ({}, none)) ∧
    (IsNotFound err = false → (Reconcile r req).1 = ({}, some err)) ∧
    (Reconcile r req).2.log = r.log ++ [Call.getDCN req.Name] ∧
    (Reconcile r req).2.store = r.store := by
  rw [Reconcile_fetch_error r req err h]
  refine ⟨?_, ?_, rfl, rfl⟩
  · intro hnf; simp [hnf]
  · intro hnf; simp [hnf]

theorem Reconcile_primary_fetch_witness :
    ((clientOf emptyStore).GetDCN "net").1 = Except.error notFound ∧
    (Reconcile (clientOf emptyStore) ⟨"", "net"⟩).1 = ({}, none) ∧
    (Reconcile (clientOf emptyStore) ⟨"", "net"⟩).2.log = [Call.getDCN "net"] :=
  ⟨rfl,
    (Reconcile_primary_fetch (clientOf emptyStore) ⟨"", "net"⟩ notFound rfl).1 rfl,
    (Reconcile_primary_fetch (clientOf emptyStore) ⟨"", "net"⟩ notFound rfl).2.2.1⟩

/-- C4. When the fetched DummyClusterNetwork lacks one of `spec.bridgeName`, `spec.nadName`,
`spec.nadNamespace` (the field is missing or empty), whatever its deletion timestamp and its
finalizers, `Reconcile` issues exactly two calls, the fetch and a status update whose phase is
`InvalidSpec`: none of them reads or writes a dependent resource, lists workloads or updates
the finalizer list; the dependents and the metadata of every stored DummyClusterNetwork are
unchanged; and the result is `RequeueAfter` = 30s with a nil error. -/
theorem Reconcile_invalid_spec (r : Client) (req : Request) (dcn : Unstructured)
    (hget : r.fail (Call.getDCN req.Name) = none)
    (hdcn : r.store.dcns.get req.Name = some dcn)
    (hinv : specBridgeName dcn = "" ∨ specNadName dcn = "" ∨ specNadNamespace dcn = "") :
    (Reconcile r req).1 = ({ RequeueAfter := 30 * Second }, none) ∧
    (∃ calls, (Reconcile r req).2.log = r.log ++ calls ∧
      calls = [Call.getDCN req.Name,
        Call.statusUpdate (setStatus dcn "InvalidSpec" invalidSpecReason)] ∧
      ∀ c ∈ calls, c.isDependent = false ∧ c.isList = false ∧ c.isUpdate = false ∧
        (c.isWrite = true → c = Call.statusUpdate (setStatus dcn "InvalidSpec" invalidSpecReason))) ∧
    fieldAt (Val.obj (setStatus dcn "InvalidSpec" invalidSpecReason).Object) ["status", "phase"] =
      some (Val.str "InvalidSpec") ∧
    (Reconcile r req).2.store.nads = r.store.nads ∧
    (Reconcile r req).2.store.daemonSets = r.store.daemonSets ∧
    (∀ k, ((Reconcile r req).2.store.dcns.get k).map (fun x => x.metadata) =
      (r.store.dcns.get k).map (fun x => x.metadata)) := by
  rw [Reconcile_fetched r req dcn hget hdcn, if_pos hinv]
  obtain ⟨hlog, _, hnads, hds, _, _, hmeta⟩ :=
    updateStatus_effect (r.record (Call.getDCN req.Name)) dcn "InvalidSpec" invalidSpecReason
  refine ⟨rfl, ⟨_, ?_, rfl, ?_⟩, setStatus_phase _ _ _, hnads, hds, hmeta⟩
  · rw [hlog]; simp [Client.record]
  · intro c hc
    simp only [List.mem_cons, List.mem_singleton, List.not_mem_nil, or_false] at hc
    rcases hc with rfl | rfl
    · simp [Call.isDependent, Call.isList, Call.isUpdate, Call.isWrite]
    · simp [Call.isDependent, Call.isList, Call.isUpdate, Call.isWrite]

theorem Reconcile_invalid_spec_witness :
    (clientOf { emptyStore with dcns := Keyed.empty.set invalidDCN }).fail (Call.getDCN "net") =
      none ∧
    (clientOf { emptyStore with dcns := Keyed.empty.set invalidDCN }).store.dcns.get "net" =
      some invalidDCN ∧
    (specBridgeName invalidDCN = "" ∨ specNadName invalidDCN = "" ∨
      specNadNamespace invalidDCN = "") ∧
    (Reconcile (clientOf { emptyStore with dcns := Keyed.empty.set invalidDCN }) ⟨"", "net"⟩).1 =
      ({ RequeueAfter := 30 * Second }, none) :=
  ⟨rfl, rfl, Or.inr (Or.inl rfl),
    (Reconcile_invalid_spec (clientOf { emptyStore with dcns := Keyed.empty.set invalidDCN })
      ⟨"", "net"⟩ invalidDCN rfl rfl (Or.inr (Or.inl rfl))).1⟩

/-! ## The teardown path -/

theorem validSpec_not_invalid (dcn : Unstructured) (hvalid : ValidSpec dcn) :
    ¬ (specBridgeName dcn = "" ∨ specNadName dcn = "" ∨ specNadNamespace dcn = "") := by
  rintro (h | h | h)
  · exact hvalid.1 h
  · exact hvalid.2.1 h
  · exact hvalid.2.2 h

theorem Reconcile_deleting (r : Client) (req : Request) (dcn : Unstructured)
    (hget : r.fail (Call.getDCN req.Name) = none)
    (hdcn : r.store.dcns.get req.Name = some dcn)
    (hvalid : ValidSpec dcn) (hdel : dcn.DeletionTimestampIsZero = false) :
    Reconcile r req =
      reconcileTeardown (r.record (Call.getDCN req.Name)) dcn (specBridgeName dcn)
        (specNadName dcn) (specNadNamespace dcn) := by
  rw [Reconcile_fetched r req dcn hget hdcn, if_neg (validSpec_not_invalid dcn hvalid), hdel]
  rfl

theorem Reconcile_live (r : Client) (req : Request) (dcn : Unstructured)
    (hget : r.fail (Call.getDCN req.Name) = none)
    (hdcn : r.store.dcns.get req.Name = some dcn)
    (hvalid : ValidSpec dcn) (hlive : dcn.DeletionTimestampIsZero = true) :
    Reconcile r req =
      reconcileProvision (r.record (Call.getDCN req.Name)) dcn (specBridgeName dcn)
        (specNadName dcn) (specNadNamespace dcn) := by
  rw [Reconcile_fetched r req dcn hget hdcn, if_neg (validSpec_not_invalid dcn hvalid), hlive]
  rfl

theorem isNetworkInUse_fail_vm (r : Client) (f s : String) (err : GoError)
    (hvm : r.fail Call.listVM = some err) :
    isNetworkInUse r f s = ((false, [], some err), r.record Call.listVM) := by
  simp only [isNetworkInUse, Client.ListVM, hvm]

theorem isNetworkInUse_fail_vmi (r : Client) (f s : String) (err : GoError)
    (hvm : r.fail Call.listVM = none) (hvmi : r.fail Call.listVMI = some err) :
    isNetworkInUse r f s =
      ((false, [], some err), (r.record Call.listVM).record Call.listVMI) := by
  simp only [isNetworkInUse, Client.ListVM, Client.ListVMI, Client.record, hvm, hvmi]

theorem reconcileTeardown_list_error (r r1 : Client) (dcn : Unstructured) (b n ns : String)
    (err : GoError) (h : isNetworkInUse r (ns ++ "/" ++ n) n = ((false, [], some err), r1)) :
    reconcileTeardown r dcn b n ns = (({}, some err), r1) := by
  simp only [reconcileTeardown, h]

theorem reconcileTeardown_in_use (r : Client) (dcn : Unstructured) (b n ns : String)
    (hvm : r.fail Call.listVM = none) (hvmi : r.fail Call.listVMI = none)
    (hused : ∃ w ∈ r.store.vms ++ r.store.vmis,
      (objectUsesNetwork w (ns ++ "/" ++ n) n).1 = true) :
    reconcileTeardown r dcn b n ns =
      (({ RequeueAfter := 30 * Second }, none),
        (updateStatus ((r.record Call.listVM).record Call.listVMI) dcn "DeletionBlocked"
          (blockedReason (usageReport r.store.vms r.store.vmis (ns ++ "/" ++ n) n))).2) := by
  have hne := (usageReport_ne_nil_iff _ _ _ _).mpr hused
  have hpos : decide ((usageReport r.store.vms r.store.vmis (ns ++ "/" ++ n) n).length > 0) =
      true := by
    rw [decide_eq_true_iff]; exact List.length_pos.mpr hne
  simp only [reconcileTeardown, isNetworkInUse_ok r _ _ hvm hvmi, hpos, if_true, blockedReason]

/-- C9. For a DummyClusterNetwork with a valid spec that is being deleted, when the
VirtualMachine list call fails, or it succeeds and the VirtualMachineInstance list call fails,
`isNetworkInUse` returns that error with `inUse` false and no users, and `Reconcile` returns the
same error with the empty result; the calls it issued are the fetch and the list calls, none of
them a status write, a Delete or an Update, and the store is unchanged. This holds whatever
the list that succeeded contains. -/
theorem Reconcile_usage_check_failure (r : Client) (req : Request) (dcn : Unstructured)
    (err : GoError)
    (hget : r.fail (Call.getDCN req.Name) = none)
    (hdcn : r.store.dcns.get req.Name = some dcn)
    (hvalid : ValidSpec dcn) (hdel : dcn.DeletionTimestampIsZero = false)
    (hfail : r.fail Call.listVM = some err ∨
      (r.fail Call.listVM = none ∧ r.fail Call.listVMI = some err)) :
    (∀ f s, (isNetworkInUse r f s).1 = (false, [], some err)) ∧
    (Reconcile r req).1 = ({}, some err) ∧
    (∃ calls, (Reconcile r req).2.log = r.log ++ calls ∧
      (calls = [Call.getDCN req.Name, Call.listVM] ∨
        calls = [Call.getDCN req.Name, Call.listVM, Call.listVMI]) ∧
      ∀ c ∈ calls, c.isStatusUpdate = false ∧ c.isDelete = false ∧ c.isUpdate = false ∧
        c.isWrite = false) ∧
    (Reconcile r req).2.store = r.store := by
  rw [Reconcile_deleting r req dcn hget hdcn hvalid hdel]
  rcases hfail with hvm | ⟨hvm, hvmi⟩
  · refine ⟨fun f s => by rw [isNetworkInUse_fail_vm r f s err hvm], ?_⟩
    rw [reconcileTeardown_list_error _ _ dcn _ _ _ err
      (isNetworkInUse_fail_vm (r.record (Call.getDCN req.Name)) _ _ err hvm)]
    refine ⟨rfl, ⟨[Call.getDCN req.Name, Call.listVM], ?_, Or.inl rfl, ?_⟩, rfl⟩
    · simp [Client.record]
    · intro c hc
      simp only [List.mem_cons, List.mem_singleton, List.not_mem_nil, or_false] at hc
      rcases hc with rfl | rfl <;>
        simp [Call.isStatusUpdate, Call.isDelete, Call.isUpdate, Call.isWrite]
  · refine ⟨fun f s => by rw [isNetworkInUse_fail_vmi r f s err hvm hvmi], ?_⟩
    rw [reconcileTeardown_list_error _ _ dcn _ _ _ err
      (isNetworkInUse_fail_vmi (r.record (Call.getDCN req.Name)) _ _ err hvm hvmi)]
    refine ⟨rfl, ⟨[Call.getDCN req.Name, Call.listVM, Call.listVMI], ?_, Or.inr rfl, ?_⟩, rfl⟩
    · simp [Client.record]
    · intro c hc
      simp only [List.mem_cons, List.mem_singleton, List.not_mem_nil, or_false] at hc
      rcases hc with rfl | rfl | rfl <;>
        simp [Call.isStatusUpdate, Call.isDelete, Call.isUpdate, Call.isWrite]

theorem Reconcile_usage_check_failure_witness :
    listFailingClient.fail (Call.getDCN "net") = none ∧
    listFailingClient.store.dcns.get "net" = some (scenarioDCN [finalizerName] (some 7)) ∧
    ValidSpec (scenarioDCN [finalizerName] (some 7)) ∧
    (scenarioDCN [finalizerName] (some 7)).DeletionTimestampIsZero = false ∧
    (listFailingClient.fail Call.listVM = none ∧
      listFailingClient.fail Call.listVMI = some ⟨StatusReason.Unknown, "timeout"⟩) ∧
    (Reconcile listFailingClient ⟨"", "net"⟩).1 =
      ({}, some ⟨StatusReason.Unknown, "timeout"⟩) :=
  ⟨rfl, rfl, by decide, rfl, ⟨rfl, rfl⟩,
    (Reconcile_usage_check_failure listFailingClient ⟨"", "net"⟩
      (scenarioDCN [finalizerName] (some 7)) ⟨StatusReason.Unknown, "timeout"⟩ rfl rfl
      (by decide) rfl (Or.inr ⟨rfl, rfl⟩)).2.1⟩

/-- C1. For a DummyClusterNetwork with a valid spec that is being deleted, when both list calls
succeed and a listed VirtualMachine or VirtualMachineInstance uses the network
`nadNamespace/nadName`, `Reconcile` issues the fetch, the two list calls and one status update,
hence no Delete of a dependent and no Update of the resource; the stored dependents are
unchanged, the stored resource keeps its finalizer list, the sentinel included if it was there;
and the result is `RequeueAfter` = 30s with a nil error. -/
theorem Reconcile_deletion_gate (r : Client) (req : Request) (dcn : Unstructured)
    (hget : r.fail (Call.getDCN req.Name) = none)
    (hdcn : r.store.dcns.get req.Name = some dcn)
    (hvalid : ValidSpec dcn) (hdel : dcn.DeletionTimestampIsZero = false)
    (hvm : r.fail Call.listVM = none) (hvmi : r.fail Call.listVMI = none)
    (hused : ∃ w ∈ r.store.vms ++ r.store.vmis,
      (objectUsesNetwork w (specNadNamespace dcn ++ "/" ++ specNadName dcn)
        (specNadName dcn)).1 = true) :
    (Reconcile r req).1 = ({ RequeueAfter := 30 * Second }, none) ∧
    (∃ calls reason, (Reconcile r req).2.log = r.log ++ calls ∧
      calls = [Call.getDCN req.Name, Call.listVM, Call.listVMI,
        Call.statusUpdate (setStatus dcn "DeletionBlocked" reason)] ∧
      ∀ c ∈ calls, c.isDelete = false ∧ c.isUpdate = false ∧ c.isCreate = false) ∧
    (Reconcile r req).2.store.daemonSets = r.store.daemonSets ∧
    (Reconcile r req).2.store.nads = r.store.nads ∧
    (∃ stored, (Reconcile r req).2.store.dcns.get req.Name = some stored ∧
      stored.GetFinalizers = dcn.GetFinalizers ∧
      (containsString dcn.GetFinalizers finalizerName = true →
        containsString stored.GetFinalizers finalizerName = true)) := by
  rw [Reconcile_deleting r req dcn hget hdcn hvalid hdel,
    reconcileTeardown_in_use (r.record (Call.getDCN req.Name)) dcn _ _ _ hvm hvmi hused]
  generalize blockedReason (usageReport (r.record (Call.getDCN req.Name)).store.vms
    (r.record (Call.getDCN req.Name)).store.vmis
    (specNadNamespace dcn ++ "/" ++ specNadName dcn) (specNadName dcn)) = reason
  obtain ⟨hlog, _, hnads, hds, _, _, hmeta⟩ :=
    updateStatus_effect (((r.record (Call.getDCN req.Name)).record Call.listVM).record
      Call.listVMI) dcn "DeletionBlocked" reason
  refine ⟨rfl, ⟨_, reason, ?_, rfl, ?_⟩, hds, hnads, ?_⟩
  · rw [hlog]; simp [Client.record]
  · intro c hc
    simp only [List.mem_cons, List.mem_singleton, List.not_mem_nil, or_false] at hc
    rcases hc with rfl | rfl | rfl | rfl <;> simp [Call.isDelete, Call.isUpdate, Call.isCreate]
  · have hk := hmeta req.Name
    simp only [Client.record] at hk
    rw [hdcn] at hk
    simp only [Client.record]
    cases hst : (updateStatus ⟨r.store, r.fail, r.log ++ [Call.getDCN req.Name] ++ [Call.listVM] ++
      [Call.listVMI]⟩ dcn "DeletionBlocked" reason).2.store.dcns.get req.Name with
    | none =>
      rw [hst] at hk
      exact absurd hk (by simp)
    | some stored =>
      rw [hst] at hk
      simp only [Option.map_some', Option.some.injEq] at hk
      refine ⟨stored, rfl, ?_, ?_⟩
      · simp only [Unstructured.GetFinalizers, hk]
      · simp only [Unstructured.GetFinalizers, hk]; exact id

theorem Reconcile_deletion_gate_witness :
    (clientOf scenarioBStore).fail (Call.getDCN "net") = none ∧
    (clientOf scenarioBStore).store.dcns.get "net" =
      some (scenarioDCN [finalizerName] (some 7)) ∧
    ValidSpec (scenarioDCN [finalizerName] (some 7)) ∧
    (scenarioDCN [finalizerName] (some 7)).DeletionTimestampIsZero = false ∧
    (objectUsesNetwork (annotatedWorkload "default" "x" "default/net1")
      "default/net1" "net1").1 = true ∧
    (Reconcile (clientOf scenarioBStore) ⟨"", "net"⟩).1 =
      ({ RequeueAfter := 30 * Second }, none) :=
  ⟨rfl, rfl, by decide, rfl, by decide,
    (Reconcile_deletion_gate (clientOf scenarioBStore) ⟨"", "net"⟩
      (scenarioDCN [finalizerName] (some 7)) rfl rfl (by decide) rfl rfl rfl
      ⟨annotatedWorkload "default" "x" "default/net1", List.Mem.head [], by decide⟩).1⟩

/-! ## The provisioning path -/

theorem Update_log (r : Client) (o : Unstructured) :
    (r.Update o).2.log = r.log ++ [Call.update o] := by
  unfold Client.Update
  split
  · rfl
  · split <;> rfl

theorem Update_error (r : Client) (o : Unstructured) (err : GoError)
    (h : (r.Update o).1 = some err) : r.Update o = (some err, r.record (Call.update o)) := by
  unfold Client.Update at h ⊢
  cases hf : r.fail (Call.update o) with
  | some e =>
    simp only [hf] at h ⊢
    rw [Option.some.inj h]
  | none =>
    cases hg : r.store.dcns.get o.GetName with
    | none =>
      simp only [hf, hg] at h ⊢
      rw [Option.some.inj h]
    | some old =>
      simp only [hf, hg] at h
      exact absurd h (by simp)

theorem Update_ok (r : Client) (o old : Unstructured)
    (hf : r.fail (Call.update o) = none) (hg : r.store.dcns.get o.GetName = some old) :
    r.Update o =
      (none, { store := { r.store with dcns := r.store.dcns.set o }, fail := r.fail,
               log := r.log ++ [Call.update o] }) := by
  simp only [Client.Update, hf, hg, Client.record]

theorem GetNAD_eq (r : Client) (ns n : String) :
    r.GetNAD ns n = ((r.GetNAD ns n).1, r.record (Call.getNAD ns n)) := by
  unfold Client.GetNAD
  cases r.fail (Call.getNAD ns n) with
  | some err => rfl
  | none => cases r.store.nads.get (ns, n) <;> rfl

theorem GetDaemonSet_eq (r : Client) (ns n : String) :
    r.GetDaemonSet ns n = ((r.GetDaemonSet ns n).1, r.record (Call.getDaemonSet ns n)) := by
  unfold Client.GetDaemonSet
  cases r.fail (Call.getDaemonSet ns n) with
  | some err => rfl
  | none => cases r.store.daemonSets.get (ns, n) <;> rfl

theorem CreateNAD_log (r : Client) (o : Unstructured) :
    (r.CreateNAD o).2.log = r.log ++ [Call.createNAD o] := by
  unfold Client.CreateNAD
  split
  · rfl
  · split <;> rfl

theorem CreateDaemonSet_log (r : Client) (ds : DaemonSet) :
    (r.CreateDaemonSet ds).2.log = r.log ++ [Call.createDaemonSet ds] := by
  unfold Client.CreateDaemonSet
  split
  · rfl
  · split <;> rfl

theorem ensureNAD_eq (r : Client) (ns n b : String) :
    ensureNetworkAttachmentDefinition r ns n b =
      match (r.GetNAD ns n).1 with
      | Except.ok _ => (none, r.record (Call.getNAD ns n))
      | Except.error err =>
        if IsNotFound err = true then (r.record (Call.getNAD ns n)).CreateNAD (nadBody ns n b)
        else (some err, r.record (Call.getNAD ns n)) := by
  unfold ensureNetworkAttachmentDefinition
  rw [GetNAD_eq]
  cases (r.GetNAD ns n).1 with
  | ok o => rfl
  | error err => cases h : IsNotFound err <;> simp [h]

theorem ensureDS_eq (r : Client) (b : String) :
    ensureBridgeDaemonSet r b =
      match (r.GetDaemonSet "kube-system" "dummy-bridge-ensure").1 with
      | Except.ok _ => (none, r.record (Call.getDaemonSet "kube-system" "dummy-bridge-ensure"))
      | Except.error err =>
        if IsNotFound err = true then
          (r.record (Call.getDaemonSet "kube-system" "dummy-bridge-ensure")).CreateDaemonSet
            (bridgeDaemonSet "dummy-bridge-ensure" b)
        else (some err, r.record (Call.getDaemonSet "kube-system" "dummy-bridge-ensure")) := by
  unfold ensureBridgeDaemonSet
  simp only []
  rw [GetDaemonSet_eq]
  cases (r.GetDaemonSet "kube-system" "dummy-bridge-ensure").1 with
  | ok o => rfl
  | error err => cases h : IsNotFound err <;> simp [h]

theorem ensureNAD_log (r : Client) (ns n b : String) :
    ∃ l, (ensureNetworkAttachmentDefinition r ns n b).2.log = r.log ++ l := by
  rw [ensureNAD_eq]
  cases (r.GetNAD ns n).1 with
  | ok o => exact ⟨_, rfl⟩
  | error err =>
    cases h : IsNotFound err with
    | false => exact ⟨[Call.getNAD ns n], by simp [h, Client.record]⟩
    | true =>
      refine ⟨[Call.getNAD ns n, Call.createNAD (nadBody ns n b)], ?_⟩
      simp [h, CreateNAD_log, Client.record]

theorem ensureDS_log (r : Client) (b : String) :
    ∃ l, (ensureBridgeDaemonSet r b).2.log = r.log ++ l := by
  rw [ensureDS_eq]
  cases (r.GetDaemonSet "kube-system" "dummy-bridge-ensure").1 with
  | ok o => exact ⟨_, rfl⟩
  | error err =>
    cases h : IsNotFound err with
    | false =>
      exact ⟨[Call.getDaemonSet "kube-system" "dummy-bridge-ensure"], by
        simp [h, Client.record]⟩
    | true =>
      refine ⟨[Call.getDaemonSet "kube-system" "dummy-bridge-ensure",
        Call.createDaemonSet (bridgeDaemonSet "dummy-bridge-ensure" b)], ?_⟩
      simp [h, CreateDaemonSet_log, Client.record]

theorem reconcileEnsure_log (r : Client) (dcn : Unstructured) (b n ns : String) :
    ∃ l, (reconcileEnsure r dcn b n ns).2.log = r.log ++ l := by
  unfold reconcileEnsure
  obtain ⟨l1, h1⟩ := ensureNAD_log r ns n b
  generalize ensureNetworkAttachmentDefinition r ns n b = res1 at h1 ⊢
  obtain ⟨e1, r1⟩ := res1
  cases e1 with
  | some err =>
    refine ⟨l1 ++ [Call.statusUpdate (setStatus dcn "ErrorEnsuringNAD" err.Error)], ?_⟩
    simp only [(updateStatus_effect r1 dcn "ErrorEnsuringNAD" err.Error).1]
    simp only at h1
    rw [h1, List.append_assoc]
  | none =>
    simp only at h1 ⊢
    obtain ⟨l2, h2⟩ := ensureDS_log r1 b
    generalize ensureBridgeDaemonSet r1 b = res2 at h2 ⊢
    obtain ⟨e2, r2⟩ := res2
    cases e2 with
    | some err =>
      refine ⟨l1 ++ l2 ++
        [Call.statusUpdate (setStatus dcn "ErrorEnsuringDaemonSet" err.Error)], ?_⟩
      simp only [(updateStatus_effect r2 dcn "ErrorEnsuringDaemonSet" err.Error).1]
      simp only at h2
      rw [h2, h1]
      simp only [List.append_assoc]
    | none =>
      refine ⟨l1 ++ l2 ++ [Call.statusUpdate (setStatus dcn "Ready" "Resources created")], ?_⟩
      simp only [(updateStatus_effect r2 dcn "Ready" "Resources created").1]
      simp only at h2
      rw [h2, h1]
      simp only [List.append_assoc]

theorem reconcileProvision_add (r : Client) (dcn : Unstructured) (b n ns : String)
    (hno : containsString dcn.GetFinalizers finalizerName = false) :
    reconcileProvision r dcn b n ns =
      match (r.Update (dcn.SetFinalizers (dcn.GetFinalizers ++ [finalizerName]))).1 with
      | some err =>
        (({}, some err), (r.Update (dcn.SetFinalizers (dcn.GetFinalizers ++ [finalizerName]))).2)
      | none =>
        reconcileEnsure (r.Update (dcn.SetFinalizers (dcn.GetFinalizers ++ [finalizerName]))).2
          (dcn.SetFinalizers (dcn.GetFinalizers ++ [finalizerName])) b n ns := by
  unfold reconcileProvision
  simp only [hno, Bool.not_false, if_true]
  generalize r.Update (dcn.SetFinalizers (dcn.GetFinalizers ++ [finalizerName])) = res
  obtain ⟨e, r1⟩ := res
  cases e <;> rfl

theorem reconcileProvision_keep (r : Client) (dcn : Unstructured) (b n ns : String)
    (hhas : containsString dcn.GetFinalizers finalizerName = true) :
    reconcileProvision r dcn b n ns = reconcileEnsure r dcn b n ns := by
  unfold reconcileProvision
  simp only [hhas, Bool.not_true, Bool.false_eq_true, if_false]

/-- C8. For a live DummyClusterNetwork with a valid spec and without the sentinel finalizer,
the calls of `Reconcile` start with the fetch followed by the Update of the resource with the
sentinel appended to its finalizer list: no write and no call on a dependent comes before that
Update. If the Update fails, `Reconcile` returns its error with the empty result, has issued
nothing but the fetch and the Update (no call on a dependent, no status write), and the store
is unchanged. -/
theorem Reconcile_finalizer_first (r : Client) (req : Request) (dcn : Unstructured)
    (hget : r.fail (Call.getDCN req.Name) = none)
    (hdcn : r.store.dcns.get req.Name = some dcn)
    (hvalid : ValidSpec dcn) (hlive : dcn.DeletionTimestampIsZero = true)
    (hno : containsString dcn.GetFinalizers finalizerName = false) :
    (dcn.SetFinalizers (dcn.GetFinalizers ++ [finalizerName])).GetFinalizers =
      dcn.GetFinalizers ++ [finalizerName] ∧
    (∃ pre rest, (Reconcile r req).2.log =
        r.log ++ pre ++
          [Call.update (dcn.SetFinalizers (dcn.GetFinalizers ++ [finalizerName]))] ++ rest ∧
      pre = [Call.getDCN req.Name] ∧
      ∀ c ∈ pre, c.isWrite = false ∧ c.isDependent = false) ∧
    (∀ err,
      ((r.record (Call.getDCN req.Name)).Update
        (dcn.SetFinalizers (dcn.GetFinalizers ++ [finalizerName]))).1 = some err →
      (Reconcile r req).1 = ({}, some err) ∧
      (∃ calls, (Reconcile r req).2.log = r.log ++ calls ∧
        calls = [Call.getDCN req.Name,
          Call.update (dcn.SetFinalizers (dcn.GetFinalizers ++ [finalizerName]))] ∧
        ∀ c ∈ calls, c.isDependent = false ∧ c.isStatusUpdate = false) ∧
      (Reconcile r req).2.store = r.store) := by
  rw [Reconcile_live r req dcn hget hdcn hvalid hlive, reconcileProvision_add _ _ _ _ _ hno]
  refine ⟨rfl, ?_, ?_⟩
  · refine ⟨[Call.getDCN req.Name], ?_⟩
    have hlog := Update_log (r.record (Call.getDCN req.Name))
      (dcn.SetFinalizers (dcn.GetFinalizers ++ [finalizerName]))
    cases hu : ((r.record (Call.getDCN req.Name)).Update
        (dcn.SetFinalizers (dcn.GetFinalizers ++ [finalizerName]))).1 with
    | some err =>
      refine ⟨[], ?_, rfl, ?_⟩
      · simp only [List.append_nil]
        rw [hlog]
        rfl
      · intro c hc
        rw [List.mem_singleton.mp hc]
        exact ⟨rfl, rfl⟩
    | none =>
      obtain ⟨l, hl⟩ := reconcileEnsure_log ((r.record (Call.getDCN req.Name)).Update
        (dcn.SetFinalizers (dcn.GetFinalizers ++ [finalizerName]))).2
        (dcn.SetFinalizers (dcn.GetFinalizers ++ [finalizerName]))
        (specBridgeName dcn) (specNadName dcn) (specNadNamespace dcn)
      refine ⟨l, ?_, rfl, ?_⟩
      · simp only []
        rw [hl, hlog]
        rfl
      · intro c hc
        rw [List.mem_singleton.mp hc]
        exact ⟨rfl, rfl⟩
  · intro err herr
    rw [Update_error _ _ err herr]
    refine ⟨rfl, ⟨_, ?_, rfl, ?_⟩, rfl⟩
    · simp [Client.record]
    · intro c hc
      simp only [List.mem_cons, List.mem_singleton, List.not_mem_nil, or_false] at hc
      rcases hc with rfl | rfl <;> simp [Call.isDependent, Call.isStatusUpdate]

theorem Reconcile_finalizer_first_witness :
    updateFailingClient.fail (Call.getDCN "net") = none ∧
    updateFailingClient.store.dcns.get "net" = some (scenarioDCN [] none) ∧
    ValidSpec (scenarioDCN [] none) ∧
    (scenarioDCN [] none).DeletionTimestampIsZero = true ∧
    containsString (scenarioDCN [] none).GetFinalizers finalizerName = false ∧
    (Reconcile updateFailingClient ⟨"", "net"⟩).1 =
      ({}, some ⟨StatusReason.Conflict, "conflict"⟩) :=
  ⟨rfl, rfl, by decide, rfl, rfl,
    ((Reconcile_finalizer_first updateFailingClient ⟨"", "net"⟩ (scenarioDCN [] none) rfl rfl
      (by decide) rfl rfl).2.2 ⟨StatusReason.Conflict, "conflict"⟩ rfl).1⟩

/-! ## Steps on a store that refuses no call -/

theorem ensureNAD_absent (r : Client) (ns n b : String) (hfail : ∀ c, r.fail c = none)
    (habs : r.store.nads.get (ns, n) = none) :
    ensureNetworkAttachmentDefinition r ns n b =
      (none, { store := { r.store with nads := r.store.nads.set (nadBody ns n b) },
               fail := r.fail,
               log := r.log ++ [Call.getNAD ns n, Call.createNAD (nadBody ns n b)] }) := by
  have hkey : (nadBody ns n b).key = (ns, n) := rfl
  simp [ensureNetworkAttachmentDefinition, Client.GetNAD, Client.CreateNAD, Client.record,
    hfail, habs, hkey, notFound, IsNotFound]

theorem ensureNAD_present (r : Client) (ns n b : String) (o : Unstructured)
    (hfail : ∀ c, r.fail c = none) (hpres : r.store.nads.get (ns, n) = some o) :
    ensureNetworkAttachmentDefinition r ns n b = (none, r.record (Call.getNAD ns n)) := by
  simp [ensureNetworkAttachmentDefinition, Client.GetNAD, Client.record, hfail, hpres]

theorem ensureDS_absent (r : Client) (b : String) (hfail : ∀ c, r.fail c = none)
    (habs : r.store.daemonSets.get ("kube-system", "dummy-bridge-ensure") = none) :
    ensureBridgeDaemonSet r b =
      (none, { store := { r.store with
                 daemonSets := r.store.daemonSets.set (bridgeDaemonSet "dummy-bridge-ensure" b) },
               fail := r.fail,
               log := r.log ++ [Call.getDaemonSet "kube-system" "dummy-bridge-ensure",
                 Call.createDaemonSet (bridgeDaemonSet "dummy-bridge-ensure" b)] }) := by
  have hkey : (bridgeDaemonSet "dummy-bridge-ensure" b).key =
      ("kube-system", "dummy-bridge-ensure") := rfl
  simp [ensureBridgeDaemonSet, Client.GetDaemonSet, Client.CreateDaemonSet, Client.record,
    hfail, habs, hkey, notFound, IsNotFound]

theorem ensureDS_present (r : Client) (b : String) (ds : DaemonSet)
    (hfail : ∀ c, r.fail c = none)
    (hpres : r.store.daemonSets.get ("kube-system", "dummy-bridge-ensure") = some ds) :
    ensureBridgeDaemonSet r b =
      (none, r.record (Call.getDaemonSet "kube-system" "dummy-bridge-ensure")) := by
  simp [ensureBridgeDaemonSet, Client.GetDaemonSet, Client.record, hfail, hpres]

theorem updateStatus_ok (old : Unstructured) (r : Client) (o : Unstructured)
    (phase reason : String)
    (hfail : ∀ c, r.fail c = none) (hold : r.store.dcns.get o.GetName = some old) :
    updateStatus r o phase reason =
      (none, { store := { r.store with dcns := r.store.dcns.set (setStatus old phase reason) },
               fail := r.fail,
               log := r.log ++ [Call.statusUpdate (setStatus o phase reason)] }) := by
  have hname : (setStatus o phase reason).GetName = o.GetName := rfl
  have hlook : (setStatus o phase reason).Object.lookup "status" =
      some (Val.obj [("phase", Val.str phase), ("reason", Val.str reason)]) := by
    simp [setStatus, lookup_setField]
  simp only [updateStatus, Client.StatusUpdate, Client.record, hfail, hname, hold, hlook,
    Option.getD_some]
  rfl

theorem reconcileEnsure_fresh (r : Client) (dcn old : Unstructured) (b n ns : String)
    (hfail : ∀ c, r.fail c = none)
    (hold : r.store.dcns.get dcn.GetName = some old)
    (hnad : r.store.nads.get (ns, n) = none)
    (hds : r.store.daemonSets.get ("kube-system", "dummy-bridge-ensure") = none) :
    reconcileEnsure r dcn b n ns =
      (({}, none),
        { store :=
            { r.store with
              dcns := r.store.dcns.set (setStatus old "Ready" "Resources created")
              nads := r.store.nads.set (nadBody ns n b)
              daemonSets := r.store.daemonSets.set (bridgeDaemonSet "dummy-bridge-ensure" b) }
          fail := r.fail
          log := r.log ++ [Call.getNAD ns n, Call.createNAD (nadBody ns n b),
            Call.getDaemonSet "kube-system" "dummy-bridge-ensure",
            Call.createDaemonSet (bridgeDaemonSet "dummy-bridge-ensure" b),
            Call.statusUpdate (setStatus dcn "Ready" "Resources created")] }) := by
  unfold reconcileEnsure
  rw [ensureNAD_absent r ns n b hfail hnad]
  simp only [ensureDS_absent, updateStatus_ok old, hfail, hds, hold, implies_true,
    List.append_assoc, List.cons_append, List.nil_append]

theorem Reconcile_fresh_eq (r : Client) (req : Request) (dcn : Unstructured)
    (hfail : ∀ c, r.fail c = none)
    (hdcn : r.store.dcns.get req.Name = some dcn)
    (hvalid : ValidSpec dcn) (hlive : dcn.DeletionTimestampIsZero = true)
    (hno : containsString dcn.GetFinalizers finalizerName = false)
    (hnad : r.store.nads.get (specNadNamespace dcn, specNadName dcn) = none)
    (hds : r.store.daemonSets.get ("kube-system", "dummy-bridge-ensure") = none) :
    Reconcile r req =
      (({}, none),
        { store :=
            { r.store with
              dcns := (r.store.dcns.set
                (dcn.SetFinalizers (dcn.GetFinalizers ++ [finalizerName]))).set
                (setStatus (dcn.SetFinalizers (dcn.GetFinalizers ++ [finalizerName]))
                  "Ready" "Resources created")
              nads := r.store.nads.set
                (nadBody (specNadNamespace dcn) (specNadName dcn) (specBridgeName dcn))
              daemonSets := r.store.daemonSets.set
                (bridgeDaemonSet "dummy-bridge-ensure" (specBridgeName dcn)) }
          fail := r.fail
          log := r.log ++ [Call.getDCN req.Name,
            Call.update (dcn.SetFinalizers (dcn.GetFinalizers ++ [finalizerName])),
            Call.getNAD (specNadNamespace dcn) (specNadName dcn),
            Call.createNAD
              (nadBody (specNadNamespace dcn) (specNadName dcn) (specBridgeName dcn)),
            Call.getDaemonSet "kube-system" "dummy-bridge-ensure",
            Call.createDaemonSet (bridgeDaemonSet "dummy-bridge-ensure" (specBridgeName dcn)),
            Call.statusUpdate
              (setStatus (dcn.SetFinalizers (dcn.GetFinalizers ++ [finalizerName]))
                "Ready" "Resources created")] }) := by
  have hname : dcn.GetName = req.Name := r.store.dcns.sound _ _ hdcn
  have hname1 : (dcn.SetFinalizers (dcn.GetFinalizers ++ [finalizerName])).GetName =
      req.Name := hname
  rw [Reconcile_live r req dcn (hfail _) hdcn hvalid hlive, reconcileProvision_add _ _ _ _ _ hno]
  have hup := Update_ok (r.record (Call.getDCN req.Name))
    (dcn.SetFinalizers (dcn.GetFinalizers ++ [finalizerName])) dcn (hfail _)
    (by rw [hname1]; exact hdcn)
  rw [hup]
  simp only []
  rw [reconcileEnsure_fresh _ _ (dcn.SetFinalizers (dcn.GetFinalizers ++ [finalizerName]))]
  · simp [Client.record]
  · exact hfail
  · simp [Client.record, Keyed.get_set]
  · exact hnad
  · exact hds

/-- C7. For a live DummyClusterNetwork with non-empty `bridgeName` b, `nadName` n and
`nadNamespace` ns and without the sentinel finalizer, on a store that holds neither dependent
and refuses no call, one `Reconcile` returns the empty result with a nil error and leaves: the
resource stored with its previous finalizer list followed by the sentinel and with status phase
`Ready`, reason `Resources created`; a NetworkAttachmentDefinition at (ns, n) whose
`spec.config` is `nadConfig b`, a text that depends on b only and contains `"bridge":"<b>"`;
and a DaemonSet at `kube-system/dummy-bridge-ensure`. -/
theorem Reconcile_provisioning_postcondition (r : Client) (req : Request) (dcn : Unstructured)
    (hfail : ∀ c, r.fail c = none)
    (hdcn : r.store.dcns.get req.Name = some dcn)
    (hvalid : ValidSpec dcn) (hlive : dcn.DeletionTimestampIsZero = true)
    (hno : containsString dcn.GetFinalizers finalizerName = false)
    (hnad : r.store.nads.get (specNadNamespace dcn, specNadName dcn) = none)
    (hds : r.store.daemonSets.get ("kube-system", "dummy-bridge-ensure") = none) :
    (Reconcile r req).1 = ({}, none) ∧
    (∃ stored, (Reconcile r req).2.store.dcns.get req.Name = some stored ∧
      stored.GetFinalizers = dcn.GetFinalizers ++ [finalizerName] ∧
      fieldAt (Val.obj stored.Object) ["status", "phase"] = some (Val.str "Ready") ∧
      fieldAt (Val.obj stored.Object) ["status", "reason"] =
        some (Val.str "Resources created")) ∧
    (∃ nad, (Reconcile r req).2.store.nads.get (specNadNamespace dcn, specNadName dcn) =
        some nad ∧
      fieldAt (Val.obj nad.Object) ["spec", "config"] =
        some (Val.str (nadConfig (specBridgeName dcn))) ∧
      ∃ pre post, nadConfig (specBridgeName dcn) =
        pre ++ ("\"bridge\":\"" ++ specBridgeName dcn ++ "\"") ++ post) ∧
    (∃ ds, (Reconcile r req).2.store.daemonSets.get ("kube-system", "dummy-bridge-ensure") =
      some ds) := by
  have hname : dcn.GetName = req.Name := r.store.dcns.sound _ _ hdcn
  rw [Reconcile_fresh_eq r req dcn hfail hdcn hvalid hlive hno hnad hds]
  refine ⟨rfl, ⟨setStatus (dcn.SetFinalizers (dcn.GetFinalizers ++ [finalizerName]))
      "Ready" "Resources created", ?_, rfl, setStatus_phase _ _ _, setStatus_reason _ _ _⟩,
    ⟨nadBody (specNadNamespace dcn) (specNadName dcn) (specBridgeName dcn), ?_, rfl, ?_⟩,
    ⟨bridgeDaemonSet "dummy-bridge-ensure" (specBridgeName dcn), ?_⟩⟩
  · simp only [Keyed.get_set]
    rw [if_pos]
    exact hname.symm
  · simp only [Keyed.get_set]
    rw [if_pos]
    rfl
  · refine ⟨"\x7b\n  \"cniVersion\":\"0.3.1\",\n  \"type\":\"bridge\",\n  ",
      ",\n  \"isGateway\": true,\n  \"ipMasq\": true,\n  \"ipam\": \x7b\n    \"type\":\"host-local\",\n    \"subnet\":\"10.10.0.0/24\"\n  \x7d\n\x7d", ?_⟩
    apply String.ext
    simp [nadConfig, String.data_append]
  · simp only [Keyed.get_set]
    rw [if_pos]
    rfl

theorem Reconcile_provisioning_postcondition_witness :
    (∀ c, (clientOf scenarioAStore).fail c = none) ∧
    (clientOf scenarioAStore).store.dcns.get "net" = some (scenarioDCN [] none) ∧
    ValidSpec (scenarioDCN [] none) ∧
    (scenarioDCN [] none).DeletionTimestampIsZero = true ∧
    containsString (scenarioDCN [] none).GetFinalizers finalizerName = false ∧
    (clientOf scenarioAStore).store.nads.get ("default", "net1") = none ∧
    (clientOf scenarioAStore).store.daemonSets.get ("kube-system", "dummy-bridge-ensure") =
      none ∧
    (Reconcile (clientOf scenarioAStore) ⟨"", "net"⟩).1 = ({}, none) ∧
    ((Reconcile (clientOf scenarioAStore) ⟨"", "net"⟩).2.store.dcns.get "net").map
      Unstructured.GetFinalizers = some [finalizerName] :=
  ⟨fun _ => rfl, rfl, by decide, rfl, rfl, rfl, rfl,
    (Reconcile_provisioning_postcondition (clientOf scenarioAStore) ⟨"", "net"⟩
      (scenarioDCN [] none) (fun _ => rfl) rfl (by decide) rfl rfl rfl rfl).1,
    rfl⟩

/-! ## The finalizer list -/

theorem containsString_iff (l : List String) (s : String) :
    containsString l s = true ↔ s ∈ l := by
  induction l with
  | nil => simp [containsString]
  | cons item rest ih =>
    unfold containsString
    by_cases h : item = s
    · simp [h]
    · have h2 : ¬ s = item := fun e => h e.symm
      simp [h, h2, ih]

theorem removeString_foldl (s : String) (l : List String) :
    ∀ init : List String,
      l.foldl (fun out item => if item = s then out else out ++ [item]) init =
        init ++ l.filter (fun item => decide (item ≠ s)) := by
  induction l with
  | nil => intro init; simp
  | cons item rest ih =>
    intro init
    rw [List.foldl_cons, ih]
    by_cases h : item = s
    · simp [h]
    · simp [h]

theorem removeString_eq_filter (l : List String) (s : String) :
    removeString l s = l.filter (fun item => decide (item ≠ s)) := by
  unfold removeString
  rw [removeString_foldl]
  rfl

theorem containsString_removeString (l : List String) (s : String) :
    containsString (removeString l s) s = false := by
  rw [← Bool.not_eq_true, containsString_iff, removeString_eq_filter]
  simp

/-! ## Deleting the dependents -/

theorem deleteDS_post (r : Client) (b : String) (hfail : ∀ c, r.fail c = none) :
    (deleteBridgeDaemonSet r b).1 = none ∧
    (deleteBridgeDaemonSet r b).2.fail = r.fail ∧
    (deleteBridgeDaemonSet r b).2.store.dcns = r.store.dcns ∧
    (deleteBridgeDaemonSet r b).2.store.nads = r.store.nads ∧
    (deleteBridgeDaemonSet r b).2.store.vms = r.store.vms ∧
    (deleteBridgeDaemonSet r b).2.store.vmis = r.store.vmis ∧
    (deleteBridgeDaemonSet r b).2.store.daemonSets.get ("kube-system", "dummy-bridge-ensure") =
      none ∧
    (∃ l, (deleteBridgeDaemonSet r b).2.log = r.log ++ l ∧
      ∀ c ∈ l, c.isUpdate = false ∧ c.isCreate = false) := by
  cases hds : r.store.daemonSets.get ("kube-system", "dummy-bridge-ensure") with
  | none =>
    have h : deleteBridgeDaemonSet r b =
        (none, r.record (Call.getDaemonSet "kube-system" "dummy-bridge-ensure")) := by
      simp [deleteBridgeDaemonSet, Client.GetDaemonSet, Client.record, hfail, hds, notFound,
        IsNotFound]
    rw [h]
    refine ⟨rfl, rfl, rfl, rfl, rfl, rfl, hds, ⟨_, rfl, ?_⟩⟩
    intro c hc
    rw [List.mem_singleton.mp hc]
    exact ⟨rfl, rfl⟩
  | some ds =>
    have hkey : ds.key = ("kube-system", "dummy-bridge-ensure") :=
      r.store.daemonSets.sound _ _ hds
    have h : deleteBridgeDaemonSet r b =
        (none, { store := { r.store with
                   daemonSets := r.store.daemonSets.erase
                     ("kube-system", "dummy-bridge-ensure") },
                 fail := r.fail,
                 log := r.log ++ [Call.getDaemonSet "kube-system" "dummy-bridge-ensure",
                   Call.deleteDaemonSet ds] }) := by
      simp [deleteBridgeDaemonSet, Client.GetDaemonSet, Client.DeleteDaemonSet, Client.record,
        hfail, hds, hkey]
    rw [h]
    refine ⟨rfl, rfl, rfl, rfl, rfl, rfl, ?_, ⟨_, rfl, ?_⟩⟩
    · simp [Keyed.get_erase]
    · intro c hc
      simp only [List.mem_cons, List.mem_singleton, List.not_mem_nil, or_false] at hc
      rcases hc with rfl | rfl <;> exact ⟨rfl, rfl⟩

theorem deleteNAD_post (r : Client) (ns n : String) (hfail : ∀ c, r.fail c = none) :
    (deleteNAD r ns n).1 = none ∧
    (deleteNAD r ns n).2.fail = r.fail ∧
    (deleteNAD r ns n).2.store.dcns = r.store.dcns ∧
    (deleteNAD r ns n).2.store.daemonSets = r.store.daemonSets ∧
    (deleteNAD r ns n).2.store.vms = r.store.vms ∧
    (deleteNAD r ns n).2.store.vmis = r.store.vmis ∧
    (deleteNAD r ns n).2.store.nads.get (ns, n) = none ∧
    (∃ l, (deleteNAD r ns n).2.log = r.log ++ l ∧
      ∀ c ∈ l, c.isUpdate = false ∧ c.isCreate = false) := by
  cases hnad : r.store.nads.get (ns, n) with
  | none =>
    have h : deleteNAD r ns n = (none, r.record (Call.getNAD ns n)) := by
      simp [deleteNAD, Client.GetNAD, Client.record, hfail, hnad, notFound, IsNotFound]
    rw [h]
    refine ⟨rfl, rfl, rfl, rfl, rfl, rfl, hnad, ⟨_, rfl, ?_⟩⟩
    intro c hc
    rw [List.mem_singleton.mp hc]
    exact ⟨rfl, rfl⟩
  | some nad =>
    have hkey : nad.key = (ns, n) := r.store.nads.sound _ _ hnad
    have h : deleteNAD r ns n =
        (none, { store := { r.store with nads := r.store.nads.erase (ns, n) },
                 fail := r.fail,
                 log := r.log ++ [Call.getNAD ns n, Call.deleteNAD nad] }) := by
      simp [deleteNAD, Client.GetNAD, Client.DeleteNAD, Client.record, hfail, hnad, hkey]
    rw [h]
    refine ⟨rfl, rfl, rfl, rfl, rfl, rfl, ?_, ⟨_, rfl, ?_⟩⟩
    · simp [Keyed.get_erase]
    · intro c hc
      simp only [List.mem_cons, List.mem_singleton, List.not_mem_nil, or_false] at hc
      rcases hc with rfl | rfl <;> exact ⟨rfl, rfl⟩

theorem reconcileTeardown_clean (r : Client) (dcn : Unstructured) (b n ns : String)
    (hfail : ∀ c, r.fail c = none)
    (hold : r.store.dcns.get dcn.GetName = some dcn)
    (hfree : ∀ w ∈ r.store.vms ++ r.store.vmis,
      (objectUsesNetwork w (ns ++ "/" ++ n) n).1 = false) :
    (reconcileTeardown r dcn b n ns).1 = ({}, none) ∧
    (reconcileTeardown r dcn b n ns).2.store.daemonSets.get
      ("kube-system", "dummy-bridge-ensure") = none ∧
    (reconcileTeardown r dcn b n ns).2.store.nads.get (ns, n) = none ∧
    (reconcileTeardown r dcn b n ns).2.store.dcns.get dcn.GetName =
      some (setStatus (dcn.SetFinalizers (removeString dcn.GetFinalizers finalizerName))
        "Deleted" "Cleaned up resources") ∧
    (∃ l, (reconcileTeardown r dcn b n ns).2.log = r.log ++ l ∧
      Call.update (dcn.SetFinalizers (removeString dcn.GetFinalizers finalizerName)) ∈ l ∧
      ∀ c ∈ l, c.isCreate = false) := by
  have hrep : usageReport r.store.vms r.store.vmis (ns ++ "/" ++ n) n = [] := by
    by_contra hne
    obtain ⟨w, hw, hu⟩ := (usageReport_ne_nil_iff _ _ _ _).mp hne
    rw [hfree w hw] at hu
    exact absurd hu (by decide)
  unfold reconcileTeardown
  simp only [isNetworkInUse_ok r _ _ (hfail _) (hfail _), hrep, List.length_nil, gt_iff_lt,
    lt_self_iff_false, decide_False, Bool.false_eq_true, if_false]
  obtain ⟨h1, hf1, hd1, hn1, _, _, hds1, l1, hl1, hc1⟩ :=
    deleteDS_post ((r.record Call.listVM).record Call.listVMI) b hfail
  have e1 : deleteBridgeDaemonSet ((r.record Call.listVM).record Call.listVMI) b =
      (none, (deleteBridgeDaemonSet ((r.record Call.listVM).record Call.listVMI) b).2) :=
    Prod.ext h1 rfl
  rw [e1]
  simp only []
  generalize (deleteBridgeDaemonSet ((r.record Call.listVM).record Call.listVMI) b).2 = r1
    at hf1 hd1 hn1 hds1 hl1 ⊢
  have hfail1 : ∀ c, r1.fail c = none := by rw [hf1]; exact hfail
  obtain ⟨h2, hf2, hd2, hds2, _, _, hn2, l2, hl2, hc2⟩ := deleteNAD_post r1 ns n hfail1
  have e2 : deleteNAD r1 ns n = (none, (deleteNAD r1 ns n).2) := Prod.ext h2 rfl
  rw [e2]
  simp only []
  generalize (deleteNAD r1 ns n).2 = r2 at hf2 hd2 hds2 hn2 hl2 ⊢
  have hfail2 : ∀ c, r2.fail c = none := by rw [hf2]; exact hfail1
  have hold2 : r2.store.dcns.get
      (dcn.SetFinalizers (removeString dcn.GetFinalizers finalizerName)).GetName =
      some dcn := by
    rw [hd2, hd1]; exact hold
  simp only [Update_ok r2 _ dcn (hfail2 _) hold2]
  rw [updateStatus_ok (dcn.SetFinalizers (removeString dcn.GetFinalizers finalizerName))]
  · refine ⟨?_, ?_, ?_, ?_, ?_⟩
    · trivial
    · simp only [hds2]; exact hds1
    · exact hn2
    · simp only [Keyed.get_set]
      rw [if_pos]
      rfl
    · refine ⟨[Call.listVM, Call.listVMI] ++ l1 ++ l2 ++
        [Call.update (dcn.SetFinalizers (removeString dcn.GetFinalizers finalizerName)),
         Call.statusUpdate (setStatus
          (dcn.SetFinalizers (removeString dcn.GetFinalizers finalizerName))
          "Deleted" "Cleaned up resources")], ?_, ?_, ?_⟩
      · simp only [hl2, hl1, Client.record, List.append_assoc, List.cons_append,
          List.nil_append]
      · simp
      · intro c hc
        simp only [List.mem_append, List.mem_cons, List.mem_singleton, List.not_mem_nil,
          or_false] at hc
        rcases hc with (((rfl | rfl) | hc) | hc) | rfl | rfl
        · rfl
        · rfl
        · exact (hc1 c hc).2
        · exact (hc2 c hc).2
        · rfl
        · rfl
  · exact hfail2
  · simp [Keyed.get_set]

/-- C6. For a DummyClusterNetwork with a valid spec that is being deleted, on a store that
refuses no call and lists no VirtualMachine or VirtualMachineInstance using its network, one
`Reconcile` returns the empty result with a nil error and leaves the store without DaemonSet
`kube-system/dummy-bridge-ensure` and without NetworkAttachmentDefinition at
(`nadNamespace`, `nadName`); it issues the Update that persists the finalizer list without the
sentinel, and the stored resource has that list. No assumption is made on the dependents being
present before: absence counts as success. -/
theorem Reconcile_deletion_liveness (r : Client) (req : Request) (dcn : Unstructured)
    (hfail : ∀ c, r.fail c = none)
    (hdcn : r.store.dcns.get req.Name = some dcn)
    (hvalid : ValidSpec dcn) (hdel : dcn.DeletionTimestampIsZero = false)
    (hfree : ∀ w ∈ r.store.vms ++ r.store.vmis,
      (objectUsesNetwork w (specNadNamespace dcn ++ "/" ++ specNadName dcn)
        (specNadName dcn)).1 = false) :
    (Reconcile r req).1 = ({}, none) ∧
    (Reconcile r req).2.store.daemonSets.get ("kube-system", "dummy-bridge-ensure") = none ∧
    (Reconcile r req).2.store.nads.get (specNadNamespace dcn, specNadName dcn) = none ∧
    (∃ stored, (Reconcile r req).2.store.dcns.get req.Name = some stored ∧
      stored.GetFinalizers = removeString dcn.GetFinalizers finalizerName ∧
      containsString stored.GetFinalizers finalizerName = false) ∧
    (∃ calls, (Reconcile r req).2.log = r.log ++ calls ∧
      Call.update (dcn.SetFinalizers (removeString dcn.GetFinalizers finalizerName)) ∈
        calls) := by
  have hname : dcn.GetName = req.Name := r.store.dcns.sound _ _ hdcn
  rw [Reconcile_deleting r req dcn (hfail _) hdcn hvalid hdel]
  obtain ⟨hres, hds, hnad, hst, l, hl, hmem, _⟩ :=
    reconcileTeardown_clean (r.record (Call.getDCN req.Name)) dcn (specBridgeName dcn)
      (specNadName dcn) (specNadNamespace dcn) hfail (by rw [hname]; exact hdcn) hfree
  refine ⟨hres, hds, hnad,
    ⟨setStatus (dcn.SetFinalizers (removeString dcn.GetFinalizers finalizerName))
      "Deleted" "Cleaned up resources", ?_, rfl, ?_⟩,
    ⟨Call.getDCN req.Name :: l, ?_, List.mem_cons_of_mem _ hmem⟩⟩
  · rw [hname] at hst; exact hst
  · exact containsString_removeString _ _
  · rw [hl]; simp [Client.record]

theorem Reconcile_deletion_liveness_witness :
    (∀ c, (clientOf scenarioCStore).fail c = none) ∧
    (clientOf scenarioCStore).store.dcns.get "net" =
      some (scenarioDCN [finalizerName] (some 7)) ∧
    ValidSpec (scenarioDCN [finalizerName] (some 7)) ∧
    (scenarioDCN [finalizerName] (some 7)).DeletionTimestampIsZero = false ∧
    (clientOf scenarioCStore).store.vms ++ (clientOf scenarioCStore).store.vmis = [] ∧
    (Reconcile (clientOf scenarioCStore) ⟨"", "net"⟩).1 = ({}, none) ∧
    ((Reconcile (clientOf scenarioCStore) ⟨"", "net"⟩).2.store.dcns.get "net").map
      Unstructured.GetFinalizers = some [] :=
  ⟨fun _ => rfl, rfl, by decide, rfl, rfl,
    (Reconcile_deletion_liveness (clientOf scenarioCStore) ⟨"", "net"⟩
      (scenarioDCN [finalizerName] (some 7)) (fun _ => rfl) rfl (by decide) rfl
      (fun w hw => by simp [clientOf, scenarioCStore, emptyStore] at hw)).1,
    rfl⟩

/-! ## Provisioning twice -/

theorem lookup_setField_ne (m : Fields) (k k1 : String) (v : Val) (hne : k1 ≠ k) :
    (setField m k v).lookup k1 = m.lookup k1 := by
  induction m with
  | nil =>
    have h : (k1 == k) = false := by rw [beq_eq_false_iff_ne]; exact hne
    simp [setField, List.lookup, h]
  | cons e rest ih =>
    obtain ⟨k2, w⟩ := e
    unfold setField
    by_cases hk : k2 = k
    · have h : (k1 == k) = false := by rw [beq_eq_false_iff_ne]; exact hne
      have h2 : (k1 == k2) = false := by rw [hk]; exact h
      simp [hk, List.lookup, h]
    · simp only [hk, if_false, List.lookup]
      rw [ih]

theorem NestedString_setStatus (o : Unstructured) (phase reason key : String) :
    NestedString (setStatus o phase reason).Object ["spec", key] =
      NestedString o.Object ["spec", key] := by
  have h : (setStatus o phase reason).Object.lookup "spec" = o.Object.lookup "spec" :=
    lookup_setField_ne _ _ _ _ (by decide)
  simp only [NestedString, NestedFieldNoCopy, h]

theorem validSpec_setStatus (o : Unstructured) (phase reason : String) (h : ValidSpec o) :
    ValidSpec (setStatus o phase reason) := by
  unfold ValidSpec specBridgeName specNadName specNadNamespace at *
  simp only [NestedString_setStatus]
  exact h

theorem ensureNAD_post (r : Client) (ns n b : String) (hfail : ∀ c, r.fail c = none) :
    (ensureNetworkAttachmentDefinition r ns n b).1 = none ∧
    (ensureNetworkAttachmentDefinition r ns n b).2.fail = r.fail ∧
    (ensureNetworkAttachmentDefinition r ns n b).2.store.dcns = r.store.dcns ∧
    (ensureNetworkAttachmentDefinition r ns n b).2.store.daemonSets = r.store.daemonSets ∧
    (∃ nad, (ensureNetworkAttachmentDefinition r ns n b).2.store.nads.get (ns, n) =
      some nad) := by
  cases hnad : r.store.nads.get (ns, n) with
  | none =>
    rw [ensureNAD_absent r ns n b hfail hnad]
    refine ⟨rfl, rfl, rfl, rfl, nadBody ns n b, ?_⟩
    simp only [Keyed.get_set]
    rw [if_pos]
    rfl
  | some nad =>
    rw [ensureNAD_present r ns n b nad hfail hnad]
    exact ⟨rfl, rfl, rfl, rfl, nad, hnad⟩

theorem ensureDS_post (r : Client) (b : String) (hfail : ∀ c, r.fail c = none) :
    (ensureBridgeDaemonSet r b).1 = none ∧
    (ensureBridgeDaemonSet r b).2.fail = r.fail ∧
    (ensureBridgeDaemonSet r b).2.store.dcns = r.store.dcns ∧
    (ensureBridgeDaemonSet r b).2.store.nads = r.store.nads ∧
    (∃ ds, (ensureBridgeDaemonSet r b).2.store.daemonSets.get
      ("kube-system", "dummy-bridge-ensure") = some ds) := by
  cases hds : r.store.daemonSets.get ("kube-system", "dummy-bridge-ensure") with
  | none =>
    rw [ensureDS_absent r b hfail hds]
    refine ⟨rfl, rfl, rfl, rfl, bridgeDaemonSet "dummy-bridge-ensure" b, ?_⟩
    simp only [Keyed.get_set]
    rw [if_pos]
    rfl
  | some ds =>
    rw [ensureDS_present r b ds hfail hds]
    exact ⟨rfl, rfl, rfl, rfl, ds, hds⟩

theorem reconcileEnsure_post (r : Client) (dcn old : Unstructured) (b n ns : String)
    (hfail : ∀ c, r.fail c = none)
    (hold : r.store.dcns.get dcn.GetName = some old) :
    (reconcileEnsure r dcn b n ns).1 = ({}, none) ∧
    (reconcileEnsure r dcn b n ns).2.fail = r.fail ∧
    (reconcileEnsure r dcn b n ns).2.store.dcns.get dcn.GetName =
      some (setStatus old "Ready" "Resources created") ∧
    (∃ nad, (reconcileEnsure r dcn b n ns).2.store.nads.get (ns, n) = some nad) ∧
    (∃ ds, (reconcileEnsure r dcn b n ns).2.store.daemonSets.get
      ("kube-system", "dummy-bridge-ensure") = some ds) := by
  unfold reconcileEnsure
  obtain ⟨h1, hf1, hd1, _, nad, hnad⟩ := ensureNAD_post r ns n b hfail
  have e1 : ensureNetworkAttachmentDefinition r ns n b =
      (none, (ensureNetworkAttachmentDefinition r ns n b).2) := Prod.ext h1 rfl
  rw [e1]
  simp only []
  generalize (ensureNetworkAttachmentDefinition r ns n b).2 = r1 at hf1 hd1 hnad ⊢
  have hfail1 : ∀ c, r1.fail c = none := by rw [hf1]; exact hfail
  obtain ⟨h2, hf2, hd2, hn2, ds, hds⟩ := ensureDS_post r1 b hfail1
  have e2 : ensureBridgeDaemonSet r1 b = (none, (ensureBridgeDaemonSet r1 b).2) :=
    Prod.ext h2 rfl
  rw [e2]
  simp only []
  generalize (ensureBridgeDaemonSet r1 b).2 = r2 at hf2 hd2 hn2 hds ⊢
  have hfail2 : ∀ c, r2.fail c = none := by rw [hf2]; exact hfail1
  have hold2 : r2.store.dcns.get dcn.GetName = some old := by rw [hd2, hd1]; exact hold
  rw [updateStatus_ok old r2 dcn "Ready" "Resources created" hfail2 hold2]
  refine ⟨trivial, ?_, ?_, ⟨nad, ?_⟩, ⟨ds, hds⟩⟩
  · show r2.fail = r.fail
    rw [hf2, hf1]
  · have hname : old.GetName = dcn.GetName := r2.store.dcns.sound _ _ hold2
    simp only [Keyed.get_set]
    rw [if_pos]
    exact hname.symm
  · show r2.store.nads.get (ns, n) = some nad
    rw [hn2]; exact hnad

/-- What a successful provisioning run leaves behind, whatever was there before. -/
theorem Reconcile_live_post (r : Client) (req : Request) (dcn : Unstructured)
    (hfail : ∀ c, r.fail c = none)
    (hdcn : r.store.dcns.get req.Name = some dcn)
    (hvalid : ValidSpec dcn) (hlive : dcn.DeletionTimestampIsZero = true) :
    (Reconcile r req).1 = ({}, none) ∧
    (Reconcile r req).2.fail = r.fail ∧
    (∃ dcn1, (Reconcile r req).2.store.dcns.get req.Name = some dcn1 ∧
      ValidSpec dcn1 ∧ dcn1.DeletionTimestampIsZero = true ∧
      specBridgeName dcn1 = specBridgeName dcn ∧ specNadName dcn1 = specNadName dcn ∧
      specNadNamespace dcn1 = specNadNamespace dcn ∧
      containsString dcn1.GetFinalizers finalizerName = true) ∧
    (∃ nad, (Reconcile r req).2.store.nads.get (specNadNamespace dcn, specNadName dcn) =
      some nad) ∧
    (∃ ds, (Reconcile r req).2.store.daemonSets.get ("kube-system", "dummy-bridge-ensure") =
      some ds) := by
  have hname : dcn.GetName = req.Name := r.store.dcns.sound _ _ hdcn
  rw [Reconcile_live r req dcn (hfail _) hdcn hvalid hlive]
  cases hhas : containsString dcn.GetFinalizers finalizerName with
  | true =>
    rw [reconcileProvision_keep _ _ _ _ _ hhas]
    obtain ⟨hres, hf, hst, hnad, hds⟩ :=
      reconcileEnsure_post (r.record (Call.getDCN req.Name)) dcn dcn (specBridgeName dcn)
        (specNadName dcn) (specNadNamespace dcn) hfail (by rw [hname]; exact hdcn)
    rw [hname] at hst
    refine ⟨hres, hf, ⟨_, hst, validSpec_setStatus _ _ _ hvalid, hlive, ?_, ?_, ?_, hhas⟩,
      hnad, hds⟩
    · exact congrArg Prod.fst (NestedString_setStatus dcn _ _ "bridgeName")
    · exact congrArg Prod.fst (NestedString_setStatus dcn _ _ "nadName")
    · exact congrArg Prod.fst (NestedString_setStatus dcn _ _ "nadNamespace")
  | false =>
    rw [reconcileProvision_add _ _ _ _ _ hhas]
    have hup := Update_ok (r.record (Call.getDCN req.Name))
      (dcn.SetFinalizers (dcn.GetFinalizers ++ [finalizerName])) dcn (hfail _)
      (by
        show r.store.dcns.get dcn.GetName = some dcn
        rw [hname]; exact hdcn)
    rw [hup]
    simp only []
    obtain ⟨hres, hf, hst, hnad, hds⟩ :=
      reconcileEnsure_post
        { store := { (r.record (Call.getDCN req.Name)).store with
            dcns := (r.record (Call.getDCN req.Name)).store.dcns.set
              (dcn.SetFinalizers (dcn.GetFinalizers ++ [finalizerName])) },
          fail := (r.record (Call.getDCN req.Name)).fail,
          log := (r.record (Call.getDCN req.Name)).log ++
            [Call.update (dcn.SetFinalizers (dcn.GetFinalizers ++ [finalizerName]))] }
        (dcn.SetFinalizers (dcn.GetFinalizers ++ [finalizerName]))
        (dcn.SetFinalizers (dcn.GetFinalizers ++ [finalizerName]))
        (specBridgeName dcn) (specNadName dcn) (specNadNamespace dcn) hfail
        (by simp [Client.record, Keyed.get_set])
    have hname1 : (dcn.SetFinalizers (dcn.GetFinalizers ++ [finalizerName])).GetName =
        req.Name := hname
    rw [hname1] at hst
    have hvalid1 : ValidSpec (dcn.SetFinalizers (dcn.GetFinalizers ++ [finalizerName])) :=
      hvalid
    refine ⟨hres, hf, ⟨_, hst, validSpec_setStatus _ _ _ hvalid1, hlive, ?_, ?_, ?_, ?_⟩,
      hnad, hds⟩
    · exact congrArg Prod.fst (NestedString_setStatus _ _ _ "bridgeName")
    · exact congrArg Prod.fst (NestedString_setStatus _ _ _ "nadName")
    · exact congrArg Prod.fst (NestedString_setStatus _ _ _ "nadNamespace")
    · rw [containsString_iff]
      show finalizerName ∈ dcn.GetFinalizers ++ [finalizerName]
      simp

/-- A provisioning run on a store that already holds the finalizer and both dependents: the
fetch, one Get per dependent and the status update. -/
theorem Reconcile_steady (r : Client) (req : Request) (dcn nad : Unstructured)
    (ds : DaemonSet) (hfail : ∀ c, r.fail c = none)
    (hdcn : r.store.dcns.get req.Name = some dcn)
    (hvalid : ValidSpec dcn) (hlive : dcn.DeletionTimestampIsZero = true)
    (hhas : containsString dcn.GetFinalizers finalizerName = true)
    (hnad : r.store.nads.get (specNadNamespace dcn, specNadName dcn) = some nad)
    (hds : r.store.daemonSets.get ("kube-system", "dummy-bridge-ensure") = some ds) :
    Reconcile r req =
      (({}, none),
        { store := { r.store with
            dcns := r.store.dcns.set (setStatus dcn "Ready" "Resources created") }
          fail := r.fail
          log := r.log ++ [Call.getDCN req.Name,
            Call.getNAD (specNadNamespace dcn) (specNadName dcn),
            Call.getDaemonSet "kube-system" "dummy-bridge-ensure",
            Call.statusUpdate (setStatus dcn "Ready" "Resources created")] }) := by
  have hname : dcn.GetName = req.Name := r.store.dcns.sound _ _ hdcn
  rw [Reconcile_live r req dcn (hfail _) hdcn hvalid hlive,
    reconcileProvision_keep _ _ _ _ _ hhas]
  unfold reconcileEnsure
  rw [ensureNAD_present _ _ _ _ nad]
  · simp only []
    rw [ensureDS_present _ _ ds]
    · simp only []
      rw [updateStatus_ok dcn]
      · simp [Client.record]
      · exact hfail
      · show r.store.dcns.get dcn.GetName = some dcn
        rw [hname]; exact hdcn
    · exact hfail
    · exact hds
  · exact hfail
  · exact hnad

/-- C5. For a live DummyClusterNetwork with a valid spec, on any store that refuses no call, a
first `Reconcile` succeeds and a second `Reconcile` on the store it leaves returns the empty
result with a nil error, issues no Create and no Update of the finalizer list, and leaves the
NetworkAttachmentDefinitions and DaemonSets as the first run left them: the store holds at
(`nadNamespace`, `nadName`) and at `kube-system/dummy-bridge-ensure` the one object that the
first run left there. -/
theorem Reconcile_idempotent_provisioning (r : Client) (req : Request) (dcn : Unstructured)
    (hfail : ∀ c, r.fail c = none)
    (hdcn : r.store.dcns.get req.Name = some dcn)
    (hvalid : ValidSpec dcn) (hlive : dcn.DeletionTimestampIsZero = true) :
    (Reconcile r req).1 = ({}, none) ∧
    (Reconcile (Reconcile r req).2 req).1 = ({}, none) ∧
    (∃ calls, (Reconcile (Reconcile r req).2 req).2.log = (Reconcile r req).2.log ++ calls ∧
      ∀ c ∈ calls, c.isCreate = false ∧ c.isUpdate = false) ∧
    (Reconcile (Reconcile r req).2 req).2.store.nads = (Reconcile r req).2.store.nads ∧
    (Reconcile (Reconcile r req).2 req).2.store.daemonSets =
      (Reconcile r req).2.store.daemonSets ∧
    (∃ nad,
      (Reconcile r req).2.store.nads.get (specNadNamespace dcn, specNadName dcn) = some nad ∧
      (Reconcile (Reconcile r req).2 req).2.store.nads.get
        (specNadNamespace dcn, specNadName dcn) = some nad) ∧
    (∃ ds,
      (Reconcile r req).2.store.daemonSets.get ("kube-system", "dummy-bridge-ensure") =
        some ds ∧
      (Reconcile (Reconcile r req).2 req).2.store.daemonSets.get
        ("kube-system", "dummy-bridge-ensure") = some ds) := by
  obtain ⟨hres, hf, ⟨dcn1, hst, hv1, hl1, _, hn, hns, hhas⟩, ⟨nad, hnad⟩, ⟨ds, hds⟩⟩ :=
    Reconcile_live_post r req dcn hfail hdcn hvalid hlive
  refine ⟨hres, ?_⟩
  generalize (Reconcile r req).2 = r1 at hf hst hnad hds ⊢
  have hfail1 : ∀ c, r1.fail c = none := by rw [hf]; exact hfail
  rw [← hn, ← hns] at hnad ⊢
  rw [Reconcile_steady r1 req dcn1 nad ds hfail1 hst hv1 hl1 hhas hnad hds]
  refine ⟨rfl, ⟨_, rfl, ?_⟩, rfl, rfl, ⟨nad, hnad, hnad⟩, ⟨ds, hds, hds⟩⟩
  intro c hc
  simp only [List.mem_cons, List.mem_singleton, List.not_mem_nil, or_false] at hc
  rcases hc with rfl | rfl | rfl | rfl <;> exact ⟨rfl, rfl⟩

theorem Reconcile_idempotent_provisioning_witness :
    (∀ c, (clientOf scenarioAStore).fail c = none) ∧
    (clientOf scenarioAStore).store.dcns.get "net" = some (scenarioDCN [] none) ∧
    ValidSpec (scenarioDCN [] none) ∧
    (scenarioDCN [] none).DeletionTimestampIsZero = true ∧
    (Reconcile (Reconcile (clientOf scenarioAStore) ⟨"", "net"⟩).2 ⟨"", "net"⟩).1 =
      ({}, none) ∧
    (Reconcile (Reconcile (clientOf scenarioAStore) ⟨"", "net"⟩).2 ⟨"", "net"⟩).2.log.length =
      11 :=
  ⟨fun _ => rfl, rfl, by decide, rfl,
    (Reconcile_idempotent_provisioning (clientOf scenarioAStore) ⟨"", "net"⟩
      (scenarioDCN [] none) (fun _ => rfl) rfl (by decide) rfl).2.1,
    rfl⟩

/-! ## The finalizer helpers, the pod template and the blocked report -/

theorem removeString_of_not_mem (l : List String) (s : String) (h : s ∉ l) :
    removeString l s = l := by
  rw [removeString_eq_filter, List.filter_eq_self]
  intro a ha
  rw [decide_eq_true_iff]
  intro hs
  exact h (hs ▸ ha)

theorem containsString_eq_of_iff (l1 l2 : List String) (t : String) (h : t ∈ l1 ↔ t ∈ l2) :
    containsString l1 t = containsString l2 t := by
  cases h1 : containsString l1 t with
  | true => exact ((containsString_iff l2 t).mpr (h.mp ((containsString_iff l1 t).mp h1))).symm
  | false =>
    cases h2 : containsString l2 t with
    | false => rfl
    | true =>
      have := (containsString_iff l1 t).mpr (h.mpr ((containsString_iff l2 t).mp h2))
      rw [h1] at this
      exact this

/-- C19. `containsString l s` is true exactly when `s` is an element of `l`; `removeString l s`
is `l` filtered of the elements equal to `s`, the others kept in their order; hence the result
no longer contains `s`, contains any other `t` exactly when `l` does, is left unchanged by a
second removal, and is `l` itself when `s` does not occur in `l` (Go's nil and empty slices are
both the empty list here). -/
theorem finalizer_helpers (l : List String) (s : String) :
    (containsString l s = true ↔ s ∈ l) ∧
    removeString l s = l.filter (fun item => decide (item ≠ s)) ∧
    containsString (removeString l s) s = false ∧
    (∀ t, t ≠ s → containsString (removeString l s) t = containsString l t) ∧
    removeString (removeString l s) s = removeString l s ∧
    (s ∉ l → removeString l s = l) := by
  refine ⟨containsString_iff l s, removeString_eq_filter l s, containsString_removeString l s,
    ?_, ?_, removeString_of_not_mem l s⟩
  · intro t ht
    apply containsString_eq_of_iff
    rw [removeString_eq_filter, List.mem_filter, decide_eq_true_iff]
    exact ⟨fun h => h.1, fun h => ⟨h, ht⟩⟩
  · apply removeString_of_not_mem
    rw [← containsString_iff, containsString_removeString]
    exact Bool.false_ne_true

theorem finalizer_helpers_witness :
    removeString ["a", finalizerName, "b", finalizerName] finalizerName = ["a", "b"] ∧
    ("c" ∉ ["a", "b"] → removeString ["a", "b"] "c" = ["a", "b"]) ∧
    containsString (removeString ["a", finalizerName, "b"] finalizerName) "b" =
      containsString ["a", finalizerName, "b"] "b" :=
  ⟨by decide, (finalizer_helpers ["a", "b"] "c").2.2.2.2.2,
    (finalizer_helpers ["a", finalizerName, "b"] finalizerName).2.2.2.1 "b" (by decide)⟩

theorem fieldAt_prefix_none (path rest : List String) :
    ∀ v : Val, fieldAt v path = none → fieldAt v (path ++ rest) = none := by
  induction path with
  | nil => intro v h; exact absurd h (by simp [fieldAt])
  | cons k tail ih =>
    intro v h
    cases v with
    | obj m =>
      simp only [fieldAt, List.cons_append] at h ⊢
      cases hl : m.lookup k with
      | none => rfl
      | some w =>
        rw [hl] at h
        exact ih w h
    | null => rfl
    | bool b => rfl
    | num n => rfl
    | str s => rfl
    | arr items => rfl

/-- C18. An object without `spec.template` field is never a user: `objectUsesNetwork` returns
false for every full and short name, whatever else the object holds, a top-level
`spec.networks` list or an annotation of its own metadata naming the network included. -/
theorem objectUsesNetwork_without_template (o : Unstructured)
    (h : fieldAt (Val.obj o.Object) ["spec", "template"] = none) (f s : String) :
    objectUsesNetwork o f s = (false, none) := by
  have hnet : fieldAt (Val.obj o.Object) networksPath = none :=
    fieldAt_prefix_none ["spec", "template"] ["spec", "networks"] _ h
  have hann : fieldAt (Val.obj o.Object) annotationPath = none :=
    fieldAt_prefix_none ["spec", "template"]
      ["metadata", "annotations", "k8s.v1.cni.cncf.io/networks"] _ h
  have hfalse : (objectUsesNetwork o f s).1 = false := by
    rw [← Bool.not_eq_true, objectUsesNetwork_true_iff]
    rintro (⟨nets, hn, _⟩ | ⟨ann, ha, _⟩)
    · rw [hnet] at hn; exact absurd hn (by simp)
    · rw [hann] at ha; exact absurd ha (by simp)
  exact Prod.ext hfalse (objectUsesNetwork_err o f s)

theorem objectUsesNetwork_without_template_witness :
    fieldAt (Val.obj templatelessWorkload.Object) ["spec", "template"] = none ∧
    fieldAt (Val.obj templatelessWorkload.Object) ["spec", "networks"] =
      some (Val.arr [Val.obj [("multus",
        Val.obj [("networkName", Val.str "default/net1")])]]) ∧
    objectUsesNetwork templatelessWorkload "default/net1" "net1" = (false, none) :=
  ⟨rfl, rfl, objectUsesNetwork_without_template templatelessWorkload rfl "default/net1" "net1"⟩

/-- C14. When `Reconcile` takes the in-use branch (valid spec, deletion requested, both list
calls succeed, a listed workload uses the network), `isNetworkInUse` returns true with the
users of the usage report, there is at least one, and the status update carries the phase
`DeletionBlocked` and the reason `Network in use by N objects: ` followed by the users joined
with `,`, where N is the number of users in decimal. -/
theorem Reconcile_blocked_report (r : Client) (req : Request) (dcn : Unstructured)
    (hget : r.fail (Call.getDCN req.Name) = none)
    (hdcn : r.store.dcns.get req.Name = some dcn)
    (hvalid : ValidSpec dcn) (hdel : dcn.DeletionTimestampIsZero = false)
    (hvm : r.fail Call.listVM = none) (hvmi : r.fail Call.listVMI = none)
    (hused : ∃ w ∈ r.store.vms ++ r.store.vmis,
      (objectUsesNetwork w (specNadNamespace dcn ++ "/" ++ specNadName dcn)
        (specNadName dcn)).1 = true) :
    ∃ users,
      (isNetworkInUse (r.record (Call.getDCN req.Name))
        (specNadNamespace dcn ++ "/" ++ specNadName dcn) (specNadName dcn)).1 =
        (true, users, none) ∧
      1 ≤ users.length ∧
      (Reconcile r req).2.log = r.log ++ [Call.getDCN req.Name, Call.listVM, Call.listVMI,
        Call.statusUpdate (setStatus dcn "DeletionBlocked"
          ("Network in use by " ++ toString users.length ++ " objects: " ++
            Join users ","))] ∧
      fieldAt (Val.obj (setStatus dcn "DeletionBlocked"
          ("Network in use by " ++ toString users.length ++ " objects: " ++
            Join users ",")).Object) ["status", "phase"] = some (Val.str "DeletionBlocked") ∧
      fieldAt (Val.obj (setStatus dcn "DeletionBlocked"
          ("Network in use by " ++ toString users.length ++ " objects: " ++
            Join users ",")).Object) ["status", "reason"] =
        some (Val.str ("Network in use by " ++ toString users.length ++ " objects: " ++
          Join users ",")) := by
  have hne := (usageReport_ne_nil_iff _ _ _ _).mpr hused
  have hpos := List.length_pos.mpr hne
  refine ⟨usageReport r.store.vms r.store.vmis
    (specNadNamespace dcn ++ "/" ++ specNadName dcn) (specNadName dcn), ?_, hpos, ?_,
    setStatus_phase _ _ _, setStatus_reason _ _ _⟩
  · rw [isNetworkInUse_ok (r.record (Call.getDCN req.Name)) _ _ hvm hvmi]
    simp only [Client.record, gt_iff_lt, hpos, decide_True]
  · rw [Reconcile_deleting r req dcn hget hdcn hvalid hdel,
      reconcileTeardown_in_use (r.record (Call.getDCN req.Name)) dcn _ _ _ hvm hvmi hused,
      (updateStatus_effect _ _ _ _).1]
    simp [Client.record, blockedReason]

theorem Reconcile_blocked_report_witness :
    (clientOf scenarioBStore).store.dcns.get "net" =
      some (scenarioDCN [finalizerName] (some 7)) ∧
    ValidSpec (scenarioDCN [finalizerName] (some 7)) ∧
    (scenarioDCN [finalizerName] (some 7)).DeletionTimestampIsZero = false ∧
    (∃ users,
      (isNetworkInUse ((clientOf scenarioBStore).record (Call.getDCN "net"))
        "default/net1" "net1").1 = (true, users, none) ∧ 1 ≤ users.length) ∧
    (Reconcile (clientOf scenarioBStore) ⟨"", "net"⟩).2.log =
      [Call.getDCN "net", Call.listVM, Call.listVMI,
        Call.statusUpdate (setStatus (scenarioDCN [finalizerName] (some 7)) "DeletionBlocked"
          "Network in use by 1 objects: VMI/default/x")] ∧
    ((Reconcile (clientOf scenarioBStore) ⟨"", "net"⟩).2.store.dcns.get "net").map
      Unstructured.GetFinalizers = some [finalizerName] :=
  ⟨rfl, by decide, rfl,
    (Reconcile_blocked_report (clientOf scenarioBStore) ⟨"", "net"⟩
      (scenarioDCN [finalizerName] (some 7)) rfl rfl (by decide) rfl rfl rfl
      ⟨annotatedWorkload "default" "x" "default/net1", List.Mem.head [], by decide⟩).elim
      (fun users h => ⟨users, h.1, h.2.1⟩),
    rfl, rfl⟩

/-! ## The ensurers -/

/-- C15. Both ensurers are create-once. When the Get finds an object, whatever its content,
the ensurer returns nil having issued only the Get, and the store is unchanged. When the Get
reports not-found, it issues one Create of the templated body at the fixed identity and returns
what the Create returns. When the Get fails otherwise, it returns that error and issues no
Create. -/
theorem ensure_create_once (r : Client) (ns n b : String) :
    ((∀ o, (r.GetNAD ns n).1 = Except.ok o →
        ensureNetworkAttachmentDefinition r ns n b = (none, r.record (Call.getNAD ns n)) ∧
        (ensureNetworkAttachmentDefinition r ns n b).2.store = r.store) ∧
      (∀ err, (r.GetNAD ns n).1 = Except.error err → IsNotFound err = true →
        ensureNetworkAttachmentDefinition r ns n b =
          (r.record (Call.getNAD ns n)).CreateNAD (nadBody ns n b) ∧
        (ensureNetworkAttachmentDefinition r ns n b).2.log =
          r.log ++ [Call.getNAD ns n, Call.createNAD (nadBody ns n b)] ∧
        (nadBody ns n b).key = (ns, n)) ∧
      (∀ err, (r.GetNAD ns n).1 = Except.error err → IsNotFound err = false →
        ensureNetworkAttachmentDefinition r ns n b = (some err, r.record (Call.getNAD ns n)) ∧
        (ensureNetworkAttachmentDefinition r ns n b).2.store = r.store)) ∧
    ((∀ ds, (r.GetDaemonSet "kube-system" "dummy-bridge-ensure").1 = Except.ok ds →
        ensureBridgeDaemonSet r b =
          (none, r.record (Call.getDaemonSet "kube-system" "dummy-bridge-ensure")) ∧
        (ensureBridgeDaemonSet r b).2.store = r.store) ∧
      (∀ err, (r.GetDaemonSet "kube-system" "dummy-bridge-ensure").1 = Except.error err →
        IsNotFound err = true →
        ensureBridgeDaemonSet r b =
          (r.record (Call.getDaemonSet "kube-system" "dummy-bridge-ensure")).CreateDaemonSet
            (bridgeDaemonSet "dummy-bridge-ensure" b) ∧
        (ensureBridgeDaemonSet r b).2.log =
          r.log ++ [Call.getDaemonSet "kube-system" "dummy-bridge-ensure",
            Call.createDaemonSet (bridgeDaemonSet "dummy-bridge-ensure" b)] ∧
        (bridgeDaemonSet "dummy-bridge-ensure" b).key =
          ("kube-system", "dummy-bridge-ensure")) ∧
      (∀ err, (r.GetDaemonSet "kube-system" "dummy-bridge-ensure").1 = Except.error err →
        IsNotFound err = false →
        ensureBridgeDaemonSet r b =
          (some err, r.record (Call.getDaemonSet "kube-system" "dummy-bridge-ensure")) ∧
        (ensureBridgeDaemonSet r b).2.store = r.store)) := by
  refine ⟨⟨?_, ?_, ?_⟩, ⟨?_, ?_, ?_⟩⟩
  · intro o h
    rw [ensureNAD_eq, h]
    exact ⟨rfl, rfl⟩
  · intro err h hnf
    rw [ensureNAD_eq, h]
    simp only [hnf, if_true]
    refine ⟨trivial, ?_, rfl⟩
    rw [CreateNAD_log]
    simp [Client.record]
  · intro err h hnf
    rw [ensureNAD_eq, h]
    simp only [hnf, Bool.false_eq_true, if_false]
    exact ⟨trivial, rfl⟩
  · intro ds h
    rw [ensureDS_eq, h]
    exact ⟨rfl, rfl⟩
  · intro err h hnf
    rw [ensureDS_eq, h]
    simp only [hnf, if_true]
    refine ⟨trivial, ?_, rfl⟩
    rw [CreateDaemonSet_log]
    simp [Client.record]
  · intro err h hnf
    rw [ensureDS_eq, h]
    simp only [hnf, Bool.false_eq_true, if_false]
    exact ⟨trivial, rfl⟩

theorem ensure_create_once_witness :
    ((clientOf driftedStore).GetNAD "default" "net1").1 =
      Except.ok (nadBody "default" "net1" "br9") ∧
    nadConfig "br9" ≠ nadConfig "br0" ∧
    ensureNetworkAttachmentDefinition (clientOf driftedStore) "default" "net1" "br0" =
      (none, (clientOf driftedStore).record (Call.getNAD "default" "net1")) ∧
    ((clientOf emptyStore).GetNAD "default" "net1").1 = Except.error notFound ∧
    (ensureNetworkAttachmentDefinition (clientOf emptyStore) "default" "net1" "br0").2.log =
      [Call.getNAD "default" "net1", Call.createNAD (nadBody "default" "net1" "br0")] :=
  ⟨rfl, by decide,
    ((ensure_create_once (clientOf driftedStore) "default" "net1" "br0").1.1
      (nadBody "default" "net1" "br9") rfl).1,
    rfl,
    ((ensure_create_once (clientOf emptyStore) "default" "net1" "br0").1.2.1
      notFound rfl rfl).2.1⟩

/-! ## Calls issued, whatever the store refuses -/

theorem Issued.refl (P : Call → Prop) (r : Client) : Issued P r r :=
  ⟨[], by simp, fun _ h => absurd h (List.not_mem_nil _)⟩

theorem Issued.trans {P : Call → Prop} {r r1 r2 : Client}
    (h1 : Issued P r r1) (h2 : Issued P r1 r2) : Issued P r r2 := by
  obtain ⟨l1, hl1, hp1⟩ := h1
  obtain ⟨l2, hl2, hp2⟩ := h2
  refine ⟨l1 ++ l2, by rw [hl2, hl1, List.append_assoc], ?_⟩
  intro c hc
  rcases List.mem_append.mp hc with h | h
  · exact hp1 c h
  · exact hp2 c h

theorem Issued.mono {P Q : Call → Prop} {r r1 : Client} (h : Issued P r r1)
    (hpq : ∀ c, P c → Q c) : Issued Q r r1 := by
  obtain ⟨l, hl, hp⟩ := h
  exact ⟨l, hl, fun c hc => hpq c (hp c hc)⟩

theorem Issued.record (P : Call → Prop) (r : Client) (c : Call) (h : P c) :
    Issued P r (r.record c) :=
  ⟨[c], rfl, fun c1 hc1 => by rw [List.mem_singleton.mp hc1]; exact h⟩

theorem Issued.of_log {P : Call → Prop} {r r1 : Client} (c : Call) (h : P c)
    (hlog : r1.log = r.log ++ [c]) : Issued P r r1 :=
  ⟨[c], hlog, fun c1 hc1 => by rw [List.mem_singleton.mp hc1]; exact h⟩

theorem GetDCN_ok_inv (r : Client) (name : String) (dcn : Unstructured)
    (h : (r.GetDCN name).1 = Except.ok dcn) :
    r.fail (Call.getDCN name) = none ∧ r.store.dcns.get name = some dcn := by
  unfold Client.GetDCN at h
  cases hf : r.fail (Call.getDCN name) with
  | some err => simp [hf] at h
  | none =>
    cases hg : r.store.dcns.get name with
    | none => simp [hf, hg] at h
    | some o =>
      simp only [hf, hg, Except.ok.injEq] at h
      exact ⟨rfl, by rw [h]⟩

theorem DeleteNAD_log (r : Client) (o : Unstructured) :
    (r.DeleteNAD o).2.log = r.log ++ [Call.deleteNAD o] := by
  unfold Client.DeleteNAD
  split
  · rfl
  · split <;> rfl

theorem DeleteDaemonSet_log (r : Client) (ds : DaemonSet) :
    (r.DeleteDaemonSet ds).2.log = r.log ++ [Call.deleteDaemonSet ds] := by
  unfold Client.DeleteDaemonSet
  split
  · rfl
  · split <;> rfl

theorem Update_frame (r : Client) (o : Unstructured) :
    (r.Update o).2.fail = r.fail ∧ (r.Update o).2.store.nads = r.store.nads ∧
    (r.Update o).2.store.daemonSets = r.store.daemonSets ∧
    (r.Update o).2.store.vms = r.store.vms ∧ (r.Update o).2.store.vmis = r.store.vmis := by
  unfold Client.Update
  split
  · exact ⟨rfl, rfl, rfl, rfl, rfl⟩
  · split <;> exact ⟨rfl, rfl, rfl, rfl, rfl⟩

theorem CreateNAD_frame (r : Client) (o : Unstructured) :
    (r.CreateNAD o).2.fail = r.fail ∧ (r.CreateNAD o).2.store.dcns = r.store.dcns ∧
    (r.CreateNAD o).2.store.daemonSets = r.store.daemonSets ∧
    (r.CreateNAD o).2.store.vms = r.store.vms ∧
    (r.CreateNAD o).2.store.vmis = r.store.vmis := by
  unfold Client.CreateNAD
  split
  · exact ⟨rfl, rfl, rfl, rfl, rfl⟩
  · split <;> exact ⟨rfl, rfl, rfl, rfl, rfl⟩

theorem DeleteNAD_frame (r : Client) (o : Unstructured) :
    (r.DeleteNAD o).2.fail = r.fail ∧ (r.DeleteNAD o).2.store.dcns = r.store.dcns ∧
    (r.DeleteNAD o).2.store.daemonSets = r.store.daemonSets ∧
    (r.DeleteNAD o).2.store.vms = r.store.vms ∧
    (r.DeleteNAD o).2.store.vmis = r.store.vmis := by
  unfold Client.DeleteNAD
  split
  · exact ⟨rfl, rfl, rfl, rfl, rfl⟩
  · split <;> exact ⟨rfl, rfl, rfl, rfl, rfl⟩

theorem CreateDaemonSet_frame (r : Client) (ds : DaemonSet) :
    (r.CreateDaemonSet ds).2.fail = r.fail ∧
    (r.CreateDaemonSet ds).2.store.dcns = r.store.dcns ∧
    (r.CreateDaemonSet ds).2.store.nads = r.store.nads ∧
    (r.CreateDaemonSet ds).2.store.vms = r.store.vms ∧
    (r.CreateDaemonSet ds).2.store.vmis = r.store.vmis := by
  unfold Client.CreateDaemonSet
  split
  · exact ⟨rfl, rfl, rfl, rfl, rfl⟩
  · split <;> exact ⟨rfl, rfl, rfl, rfl, rfl⟩

theorem DeleteDaemonSet_frame (r : Client) (ds : DaemonSet) :
    (r.DeleteDaemonSet ds).2.fail = r.fail ∧
    (r.DeleteDaemonSet ds).2.store.dcns = r.store.dcns ∧
    (r.DeleteDaemonSet ds).2.store.nads = r.store.nads ∧
    (r.DeleteDaemonSet ds).2.store.vms = r.store.vms ∧
    (r.DeleteDaemonSet ds).2.store.vmis = r.store.vmis := by
  unfold Client.DeleteDaemonSet
  split
  · exact ⟨rfl, rfl, rfl, rfl, rfl⟩
  · split <;> exact ⟨rfl, rfl, rfl, rfl, rfl⟩

theorem deleteDS_eq (r : Client) (b : String) :
    deleteBridgeDaemonSet r b =
      match (r.GetDaemonSet "kube-system" "dummy-bridge-ensure").1 with
      | Except.error err =>
        if IsNotFound err = true then
          (none, r.record (Call.getDaemonSet "kube-system" "dummy-bridge-ensure"))
        else (some err, r.record (Call.getDaemonSet "kube-system" "dummy-bridge-ensure"))
      | Except.ok ds =>
        (r.record (Call.getDaemonSet "kube-system" "dummy-bridge-ensure")).DeleteDaemonSet
          ds := by
  unfold deleteBridgeDaemonSet
  simp only []
  rw [GetDaemonSet_eq]
  cases (r.GetDaemonSet "kube-system" "dummy-bridge-ensure").1 with
  | ok o => rfl
  | error err => rfl

theorem deleteNAD_eq (r : Client) (ns n : String) :
    deleteNAD r ns n =
      match (r.GetNAD ns n).1 with
      | Except.error err =>
        if IsNotFound err = true then (none, r.record (Call.getNAD ns n))
        else (some err, r.record (Call.getNAD ns n))
      | Except.ok nad => (r.record (Call.getNAD ns n)).DeleteNAD nad := by
  unfold deleteNAD
  rw [GetNAD_eq]
  cases (r.GetNAD ns n).1 with
  | ok o => rfl
  | error err => rfl

theorem ensureNAD_issued (r : Client) (ns n b : String) :
    Issued (fun c => c = Call.getNAD ns n ∨ c = Call.createNAD (nadBody ns n b)) r
      (ensureNetworkAttachmentDefinition r ns n b).2 ∧
    (ensureNetworkAttachmentDefinition r ns n b).2.fail = r.fail ∧
    (ensureNetworkAttachmentDefinition r ns n b).2.store.dcns = r.store.dcns := by
  rw [ensureNAD_eq]
  cases (r.GetNAD ns n).1 with
  | ok o => exact ⟨Issued.record _ r _ (Or.inl rfl), rfl, rfl⟩
  | error err =>
    cases h : IsNotFound err with
    | false =>
      simp only [h, Bool.false_eq_true, if_false]
      exact ⟨Issued.record _ r _ (Or.inl rfl), rfl, rfl⟩
    | true =>
      simp only [h, if_true]
      obtain ⟨hf, hd, _⟩ := CreateNAD_frame (r.record (Call.getNAD ns n)) (nadBody ns n b)
      exact ⟨(Issued.record _ r _ (Or.inl rfl)).trans
        (Issued.of_log _ (Or.inr rfl) (CreateNAD_log _ _)), hf, hd⟩

theorem ensureDS_issued (r : Client) (b : String) :
    Issued (fun c => c = Call.getDaemonSet "kube-system" "dummy-bridge-ensure" ∨
        c = Call.createDaemonSet (bridgeDaemonSet "dummy-bridge-ensure" b)) r
      (ensureBridgeDaemonSet r b).2 ∧
    (ensureBridgeDaemonSet r b).2.fail = r.fail ∧
    (ensureBridgeDaemonSet r b).2.store.dcns = r.store.dcns := by
  rw [ensureDS_eq]
  cases (r.GetDaemonSet "kube-system" "dummy-bridge-ensure").1 with
  | ok o => exact ⟨Issued.record _ r _ (Or.inl rfl), rfl, rfl⟩
  | error err =>
    cases h : IsNotFound err with
    | false =>
      simp only [h, Bool.false_eq_true, if_false]
      exact ⟨Issued.record _ r _ (Or.inl rfl), rfl, rfl⟩
    | true =>
      simp only [h, if_true]
      obtain ⟨hf, hd, _⟩ := CreateDaemonSet_frame
        (r.record (Call.getDaemonSet "kube-system" "dummy-bridge-ensure"))
        (bridgeDaemonSet "dummy-bridge-ensure" b)
      exact ⟨(Issued.record _ r _ (Or.inl rfl)).trans
        (Issued.of_log _ (Or.inr rfl) (CreateDaemonSet_log _ _)), hf, hd⟩

theorem deleteDS_issued (r : Client) (b : String) :
    Issued (fun c => c = Call.getDaemonSet "kube-system" "dummy-bridge-ensure" ∨
        ∃ ds, c = Call.deleteDaemonSet ds) r (deleteBridgeDaemonSet r b).2 ∧
    (deleteBridgeDaemonSet r b).2.fail = r.fail ∧
    (deleteBridgeDaemonSet r b).2.store.dcns = r.store.dcns ∧
    (deleteBridgeDaemonSet r b).2.store.nads = r.store.nads ∧
    (deleteBridgeDaemonSet r b).2.store.vms = r.store.vms ∧
    (deleteBridgeDaemonSet r b).2.store.vmis = r.store.vmis := by
  rw [deleteDS_eq]
  cases (r.GetDaemonSet "kube-system" "dummy-bridge-ensure").1 with
  | ok ds =>
    obtain ⟨hf, hd, hn, hv, hvi⟩ := DeleteDaemonSet_frame
      (r.record (Call.getDaemonSet "kube-system" "dummy-bridge-ensure")) ds
    exact ⟨(Issued.record _ r _ (Or.inl rfl)).trans
      (Issued.of_log _ (Or.inr ⟨ds, rfl⟩) (DeleteDaemonSet_log _ _)), hf, hd, hn, hv, hvi⟩
  | error err =>
    cases h : IsNotFound err with
    | false =>
      simp only [h, Bool.false_eq_true, if_false]
      exact ⟨Issued.record _ r _ (Or.inl rfl), rfl, rfl, rfl, rfl, rfl⟩
    | true =>
      simp only [h, if_true]
      exact ⟨Issued.record _ r _ (Or.inl rfl), rfl, rfl, rfl, rfl, rfl⟩

theorem deleteNAD_issued (r : Client) (ns n : String) :
    Issued (fun c => c = Call.getNAD ns n ∨ ∃ o, c = Call.deleteNAD o) r
      (deleteNAD r ns n).2 ∧
    (deleteNAD r ns n).2.fail = r.fail ∧
    (deleteNAD r ns n).2.store.dcns = r.store.dcns ∧
    (deleteNAD r ns n).2.store.daemonSets = r.store.daemonSets ∧
    (deleteNAD r ns n).2.store.vms = r.store.vms ∧
    (deleteNAD r ns n).2.store.vmis = r.store.vmis := by
  rw [deleteNAD_eq]
  cases (r.GetNAD ns n).1 with
  | ok o =>
    obtain ⟨hf, hd, hds, hv, hvi⟩ := DeleteNAD_frame (r.record (Call.getNAD ns n)) o
    exact ⟨(Issued.record _ r _ (Or.inl rfl)).trans
      (Issued.of_log _ (Or.inr ⟨o, rfl⟩) (DeleteNAD_log _ _)), hf, hd, hds, hv, hvi⟩
  | error err =>
    cases h : IsNotFound err with
    | false =>
      simp only [h, Bool.false_eq_true, if_false]
      exact ⟨Issued.record _ r _ (Or.inl rfl), rfl, rfl, rfl, rfl, rfl⟩
    | true =>
      simp only [h, if_true]
      exact ⟨Issued.record _ r _ (Or.inl rfl), rfl, rfl, rfl, rfl, rfl⟩

theorem updateStatus_issued (r : Client) (o : Unstructured) (phase reason : String) :
    Issued (fun c => c = Call.statusUpdate (setStatus o phase reason)) r
      (updateStatus r o phase reason).2 :=
  Issued.of_log _ rfl (updateStatus_effect r o phase reason).1

/-- The three ways `isNetworkInUse` ends. -/
theorem isNetworkInUse_cases (r : Client) (f s : String) :
    (∃ err, r.fail Call.listVM = some err ∧
      isNetworkInUse r f s = ((false, [], some err), r.record Call.listVM)) ∨
    (∃ err, r.fail Call.listVM = none ∧ r.fail Call.listVMI = some err ∧
      isNetworkInUse r f s =
        ((false, [], some err), (r.record Call.listVM).record Call.listVMI)) ∨
    (r.fail Call.listVM = none ∧ r.fail Call.listVMI = none ∧
      isNetworkInUse r f s =
        ((decide ((usageReport r.store.vms r.store.vmis f s).length > 0),
            usageReport r.store.vms r.store.vmis f s, none),
          (r.record Call.listVM).record Call.listVMI)) := by
  cases hvm : r.fail Call.listVM with
  | some err => exact Or.inl ⟨err, rfl, isNetworkInUse_fail_vm r f s err hvm⟩
  | none =>
    cases hvmi : r.fail Call.listVMI with
    | some err => exact Or.inr (Or.inl ⟨err, rfl, rfl, isNetworkInUse_fail_vmi r f s err hvm hvmi⟩)
    | none => exact Or.inr (Or.inr ⟨rfl, rfl, isNetworkInUse_ok r f s hvm hvmi⟩)

theorem isNetworkInUse_issued (r : Client) (f s : String) :
    Issued (fun c => c = Call.listVM ∨ c = Call.listVMI) r (isNetworkInUse r f s).2 ∧
    (isNetworkInUse r f s).2.fail = r.fail ∧
    (isNetworkInUse r f s).2.store = r.store := by
  rcases isNetworkInUse_cases r f s with ⟨err, _, h⟩ | ⟨err, _, _, h⟩ | ⟨_, _, h⟩
  · rw [h]
    exact ⟨Issued.record _ r _ (Or.inl rfl), rfl, rfl⟩
  · rw [h]
    exact ⟨(Issued.record _ r _ (Or.inl rfl)).trans (Issued.record _ _ _ (Or.inr rfl)),
      rfl, rfl⟩
  · rw [h]
    exact ⟨(Issued.record _ r _ (Or.inl rfl)).trans (Issued.record _ _ _ (Or.inr rfl)),
      rfl, rfl⟩

theorem reconcileEnsure_eq (r : Client) (dcn : Unstructured) (b n ns : String) :
    reconcileEnsure r dcn b n ns =
      match (ensureNetworkAttachmentDefinition r ns n b).1 with
      | some err =>
        (({}, some err),
          (updateStatus (ensureNetworkAttachmentDefinition r ns n b).2 dcn "ErrorEnsuringNAD"
            err.Error).2)
      | none =>
        match (ensureBridgeDaemonSet (ensureNetworkAttachmentDefinition r ns n b).2 b).1 with
        | some err =>
          (({}, some err),
            (updateStatus
              (ensureBridgeDaemonSet (ensureNetworkAttachmentDefinition r ns n b).2 b).2 dcn
              "ErrorEnsuringDaemonSet" err.Error).2)
        | none =>
          (({}, none),
            (updateStatus
              (ensureBridgeDaemonSet (ensureNetworkAttachmentDefinition r ns n b).2 b).2 dcn
              "Ready" "Resources created").2) := by
  unfold reconcileEnsure
  generalize ensureNetworkAttachmentDefinition r ns n b = res1
  obtain ⟨e1, r1⟩ := res1
  cases e1 with
  | some err => rfl
  | none =>
    simp only []
    generalize ensureBridgeDaemonSet r1 b = res2
    obtain ⟨e2, r2⟩ := res2
    cases e2 <;> rfl

/-! ## Failures while ensuring the dependents -/

theorem reconcileProvision_reach (r : Client) (dcn : Unstructured) (b n ns : String)
    (hfin : containsString dcn.GetFinalizers finalizerName = false →
      (r.Update (dcn.SetFinalizers (dcn.GetFinalizers ++ [finalizerName]))).1 = none) :
    reconcileProvision r dcn b n ns =
      reconcileEnsure (afterFinalizer r dcn).1 (afterFinalizer r dcn).2 b n ns := by
  cases hhas : containsString dcn.GetFinalizers finalizerName with
  | true =>
    rw [reconcileProvision_keep _ _ _ _ _ hhas]
    simp [afterFinalizer, hhas]
  | false =>
    rw [reconcileProvision_add _ _ _ _ _ hhas, hfin hhas]
    simp [afterFinalizer, hhas]

theorem afterFinalizer_issued (r : Client) (dcn : Unstructured) :
    Issued (fun c => c.isUpdate = true) r (afterFinalizer r dcn).1 := by
  unfold afterFinalizer
  cases hhas : containsString dcn.GetFinalizers finalizerName with
  | true => simp only [if_true]; exact Issued.refl _ r
  | false =>
    simp only [Bool.false_eq_true, if_false]
    exact Issued.of_log (Call.update _) rfl (Update_log _ _)

theorem ensureNAD_fails_iff (r : Client) (ns n b : String) (err : GoError) :
    (ensureNetworkAttachmentDefinition r ns n b).1 = some err ↔
      ((r.GetNAD ns n).1 = Except.error err ∧ IsNotFound err = false) ∨
      (∃ e, (r.GetNAD ns n).1 = Except.error e ∧ IsNotFound e = true ∧
        ((r.record (Call.getNAD ns n)).CreateNAD (nadBody ns n b)).1 = some err) := by
  rw [ensureNAD_eq]
  cases hg : (r.GetNAD ns n).1 with
  | ok o => simp
  | error e =>
    cases hnf : IsNotFound e with
    | false =>
      simp only [hnf, Bool.false_eq_true, if_false, Option.some.injEq, Except.error.injEq]
      constructor
      · intro h; exact Or.inl ⟨h, by rw [← h]; exact hnf⟩
      · rintro (⟨h, _⟩ | ⟨e1, h1, h2, _⟩)
        · exact h
        · rw [← h1, hnf] at h2; exact absurd h2 (by decide)
    | true =>
      simp only [hnf, if_true, Except.error.injEq]
      constructor
      · intro h; exact Or.inr ⟨e, rfl, hnf, h⟩
      · rintro (⟨h, h2⟩ | ⟨e1, h1, _, h3⟩)
        · rw [← h, hnf] at h2; exact absurd h2 (by decide)
        · exact h3

/-- C13. For a live DummyClusterNetwork with a valid spec whose finalizer step is passed:
when ensuring the NetworkAttachmentDefinition fails (its Get fails with an error other than
not-found, or its Create fails), `Reconcile` returns that error with the empty result, ends
with a status update of phase `ErrorEnsuringNAD` whose reason is the text of the error, and
issues no call on the DaemonSet; when that step succeeds and ensuring the DaemonSet fails, it
returns that error and ends with a status update of the different phase
`ErrorEnsuringDaemonSet`. In both cases the only status written is that one, so `Ready` is not
written. -/
theorem Reconcile_ensure_failure (r : Client) (req : Request) (dcn : Unstructured)
    (hget : r.fail (Call.getDCN req.Name) = none)
    (hdcn : r.store.dcns.get req.Name = some dcn)
    (hvalid : ValidSpec dcn) (hlive : dcn.DeletionTimestampIsZero = true)
    (hfin : containsString dcn.GetFinalizers finalizerName = false →
      ((r.record (Call.getDCN req.Name)).Update
        (dcn.SetFinalizers (dcn.GetFinalizers ++ [finalizerName]))).1 = none) :
    (∀ err,
      (ensureNetworkAttachmentDefinition (afterFinalizer (r.record (Call.getDCN req.Name)) dcn).1
        (specNadNamespace dcn) (specNadName dcn) (specBridgeName dcn)).1 = some err →
      (((afterFinalizer (r.record (Call.getDCN req.Name)) dcn).1.GetNAD (specNadNamespace dcn)
            (specNadName dcn)).1 = Except.error err ∧ IsNotFound err = false ∨
        ∃ e, ((afterFinalizer (r.record (Call.getDCN req.Name)) dcn).1.GetNAD
            (specNadNamespace dcn) (specNadName dcn)).1 = Except.error e ∧
          IsNotFound e = true ∧
          (((afterFinalizer (r.record (Call.getDCN req.Name)) dcn).1.record
            (Call.getNAD (specNadNamespace dcn) (specNadName dcn))).CreateNAD
            (nadBody (specNadNamespace dcn) (specNadName dcn) (specBridgeName dcn))).1 =
            some err) ∧
      (Reconcile r req).1 = ({}, some err) ∧
      phaseOf (setStatus (afterFinalizer (r.record (Call.getDCN req.Name)) dcn).2
        "ErrorEnsuringNAD" err.Error) = some (Val.str "ErrorEnsuringNAD") ∧
      fieldAt (Val.obj (setStatus (afterFinalizer (r.record (Call.getDCN req.Name)) dcn).2
        "ErrorEnsuringNAD" err.Error).Object) ["status", "reason"] =
        some (Val.str err.Error) ∧
      (∃ calls, (Reconcile r req).2.log = r.log ++ calls ++
        [Call.statusUpdate (setStatus (afterFinalizer (r.record (Call.getDCN req.Name)) dcn).2
          "ErrorEnsuringNAD" err.Error)] ∧
        ∀ c ∈ calls, c.isDaemonSet = false ∧ c.isStatusUpdate = false)) ∧
    ((ensureNetworkAttachmentDefinition (afterFinalizer (r.record (Call.getDCN req.Name)) dcn).1
        (specNadNamespace dcn) (specNadName dcn) (specBridgeName dcn)).1 = none →
      ∀ err,
      (ensureBridgeDaemonSet
        (ensureNetworkAttachmentDefinition
          (afterFinalizer (r.record (Call.getDCN req.Name)) dcn).1
          (specNadNamespace dcn) (specNadName dcn) (specBridgeName dcn)).2
        (specBridgeName dcn)).1 = some err →
      (Reconcile r req).1 = ({}, some err) ∧
      phaseOf (setStatus (afterFinalizer (r.record (Call.getDCN req.Name)) dcn).2
        "ErrorEnsuringDaemonSet" err.Error) = some (Val.str "ErrorEnsuringDaemonSet") ∧
      "ErrorEnsuringDaemonSet" ≠ "ErrorEnsuringNAD" ∧
      (∃ calls, (Reconcile r req).2.log = r.log ++ calls ++
        [Call.statusUpdate (setStatus (afterFinalizer (r.record (Call.getDCN req.Name)) dcn).2
          "ErrorEnsuringDaemonSet" err.Error)] ∧
        ∀ c ∈ calls, c.isStatusUpdate = false)) := by
  rw [Reconcile_live r req dcn hget hdcn hvalid hlive,
    reconcileProvision_reach _ _ _ _ _ hfin, reconcileEnsure_eq]
  obtain ⟨lf, hlf, hpf⟩ := afterFinalizer_issued (r.record (Call.getDCN req.Name)) dcn
  generalize afterFinalizer (r.record (Call.getDCN req.Name)) dcn = af at hlf ⊢
  obtain ⟨r1, dcn1⟩ := af
  simp only at hlf ⊢
  obtain ⟨⟨l1, hl1, hp1⟩, _, _⟩ :=
    ensureNAD_issued r1 (specNadNamespace dcn) (specNadName dcn) (specBridgeName dcn)
  constructor
  · intro err herr
    refine ⟨(ensureNAD_fails_iff _ _ _ _ _).mp herr, ?_⟩
    rw [herr]
    refine ⟨rfl, setStatus_phase _ _ _, setStatus_reason _ _ _,
      ⟨[Call.getDCN req.Name] ++ lf ++ l1, ?_, ?_⟩⟩
    · simp only [(updateStatus_effect _ _ _ _).1, hl1, hlf, Client.record,
        List.append_assoc]
    · intro c hc
      simp only [List.mem_append, List.mem_singleton] at hc
      rcases hc with (rfl | hc) | hc
      · exact ⟨rfl, rfl⟩
      · have := hpf c hc
        cases c <;> simp_all [Call.isUpdate, Call.isDaemonSet, Call.isStatusUpdate]
      · rcases hp1 c hc with rfl | rfl <;> exact ⟨rfl, rfl⟩
  · intro hnone err herr
    rw [hnone]
    simp only []
    rw [herr]
    obtain ⟨⟨l2, hl2, hp2⟩, _, _⟩ := ensureDS_issued
      (ensureNetworkAttachmentDefinition r1 (specNadNamespace dcn) (specNadName dcn)
        (specBridgeName dcn)).2 (specBridgeName dcn)
    refine ⟨rfl, setStatus_phase _ _ _, by decide,
      ⟨[Call.getDCN req.Name] ++ lf ++ l1 ++ l2, ?_, ?_⟩⟩
    · simp only [(updateStatus_effect _ _ _ _).1, hl2, hl1, hlf, Client.record,
        List.append_assoc]
    · intro c hc
      simp only [List.mem_append, List.mem_singleton] at hc
      rcases hc with ((rfl | hc) | hc) | hc
      · rfl
      · have := hpf c hc
        cases c <;> simp_all [Call.isUpdate, Call.isStatusUpdate]
      · rcases hp1 c hc with rfl | rfl <;> rfl
      · rcases hp2 c hc with rfl | rfl <;> rfl

theorem Reconcile_ensure_failure_witness :
    nadFailingClient.fail (Call.getDCN "net") = none ∧
    nadFailingClient.store.dcns.get "net" = some (scenarioDCN [finalizerName] none) ∧
    ValidSpec (scenarioDCN [finalizerName] none) ∧
    (scenarioDCN [finalizerName] none).DeletionTimestampIsZero = true ∧
    containsString (scenarioDCN [finalizerName] none).GetFinalizers finalizerName = true ∧
    (ensureNetworkAttachmentDefinition
      (afterFinalizer (nadFailingClient.record (Call.getDCN "net"))
        (scenarioDCN [finalizerName] none)).1 "default" "net1" "br0").1 =
      some ⟨StatusReason.Unknown, "boom"⟩ ∧
    (Reconcile nadFailingClient ⟨"", "net"⟩).1 = ({}, some ⟨StatusReason.Unknown, "boom"⟩) ∧
    (Reconcile nadFailingClient ⟨"", "net"⟩).2.log =
      [Call.getDCN "net", Call.getNAD "default" "net1",
        Call.statusUpdate (setStatus (scenarioDCN [finalizerName] none) "ErrorEnsuringNAD"
          "boom")] :=
  ⟨rfl, rfl, by decide, rfl, rfl, rfl,
    ((Reconcile_ensure_failure nadFailingClient ⟨"", "net"⟩ (scenarioDCN [finalizerName] none)
      rfl rfl (by decide) rfl (fun h => absurd h (by decide))).1
      ⟨StatusReason.Unknown, "boom"⟩ rfl).2.1,
    rfl⟩

/-! ## Teardown under failures -/

theorem usageReport_nil_of_free (vms vmis : List Unstructured) (f s : String)
    (hfree : ∀ w ∈ vms ++ vmis, (objectUsesNetwork w f s).1 = false) :
    usageReport vms vmis f s = [] := by
  by_contra hne
  obtain ⟨w, hw, hu⟩ := (usageReport_ne_nil_iff _ _ _ _).mp hne
  rw [hfree w hw] at hu
  exact absurd hu (by decide)

theorem reconcileTeardown_free (r : Client) (dcn : Unstructured) (b n ns : String)
    (hvm : r.fail Call.listVM = none) (hvmi : r.fail Call.listVMI = none)
    (hnone : usageReport r.store.vms r.store.vmis (ns ++ "/" ++ n) n = []) :
    reconcileTeardown r dcn b n ns =
      match (deleteBridgeDaemonSet ((r.record Call.listVM).record Call.listVMI) b).1 with
      | some err =>
        (({}, some err),
          (deleteBridgeDaemonSet ((r.record Call.listVM).record Call.listVMI) b).2)
      | none =>
        match (deleteNAD
          (deleteBridgeDaemonSet ((r.record Call.listVM).record Call.listVMI) b).2 ns n).1 with
        | some err =>
          (({}, some err),
            (deleteNAD
              (deleteBridgeDaemonSet ((r.record Call.listVM).record Call.listVMI) b).2
              ns n).2)
        | none =>
          match ((deleteNAD
            (deleteBridgeDaemonSet ((r.record Call.listVM).record Call.listVMI) b).2
            ns n).2.Update
              (dcn.SetFinalizers (removeString dcn.GetFinalizers finalizerName))).1 with
          | some err =>
            (({}, some err),
              ((deleteNAD
                (deleteBridgeDaemonSet ((r.record Call.listVM).record Call.listVMI) b).2
                ns n).2.Update
                  (dcn.SetFinalizers (removeString dcn.GetFinalizers finalizerName))).2)
          | none =>
            (({}, none),
              (updateStatus
                ((deleteNAD
                  (deleteBridgeDaemonSet ((r.record Call.listVM).record Call.listVMI) b).2
                  ns n).2.Update
                    (dcn.SetFinalizers (removeString dcn.GetFinalizers finalizerName))).2
                (dcn.SetFinalizers (removeString dcn.GetFinalizers finalizerName))
                "Deleted" "Cleaned up resources").2) := by
  unfold reconcileTeardown
  simp only [isNetworkInUse_ok r _ _ hvm hvmi, hnone, List.length_nil, gt_iff_lt,
    lt_self_iff_false, decide_False, Bool.false_eq_true, if_false]
  generalize deleteBridgeDaemonSet ((r.record Call.listVM).record Call.listVMI) b = res1
  obtain ⟨e1, r1⟩ := res1
  cases e1 with
  | some err => rfl
  | none =>
    simp only []
    generalize deleteNAD r1 ns n = res2
    obtain ⟨e2, r2⟩ := res2
    cases e2 with
    | some err => rfl
    | none =>
      simp only []
      generalize r2.Update (dcn.SetFinalizers (removeString dcn.GetFinalizers finalizerName)) =
        res3
      obtain ⟨e3, r3⟩ := res3
      cases e3 <;> rfl

/-- C17. For a DummyClusterNetwork with a valid spec that is being deleted and has no user
(both list calls succeed): if `deleteBridgeDaemonSet` fails, `Reconcile` returns its error,
has issued no call on the NetworkAttachmentDefinition, no Update and no status write, and the
stored DummyClusterNetworks are unchanged; if it succeeds and `deleteNAD` fails, `Reconcile`
returns that error, has issued no Update and no status write, and the stored
DummyClusterNetworks are unchanged; if both succeed, the Update without the sentinel is the
call that follows the two deletions. -/
theorem Reconcile_teardown_ordering (r : Client) (req : Request) (dcn : Unstructured)
    (hget : r.fail (Call.getDCN req.Name) = none)
    (hdcn : r.store.dcns.get req.Name = some dcn)
    (hvalid : ValidSpec dcn) (hdel : dcn.DeletionTimestampIsZero = false)
    (hvm : r.fail Call.listVM = none) (hvmi : r.fail Call.listVMI = none)
    (hfree : ∀ w ∈ r.store.vms ++ r.store.vmis,
      (objectUsesNetwork w (specNadNamespace dcn ++ "/" ++ specNadName dcn)
        (specNadName dcn)).1 = false) :
    (∀ err,
      (deleteBridgeDaemonSet
        (((r.record (Call.getDCN req.Name)).record Call.listVM).record Call.listVMI)
        (specBridgeName dcn)).1 = some err →
      (Reconcile r req).1 = ({}, some err) ∧
      (∃ calls, (Reconcile r req).2.log = r.log ++ calls ∧
        ∀ c ∈ calls, c.isNAD = false ∧ c.isUpdate = false ∧ c.isStatusUpdate = false) ∧
      (Reconcile r req).2.store.dcns = r.store.dcns) ∧
    ((deleteBridgeDaemonSet
        (((r.record (Call.getDCN req.Name)).record Call.listVM).record Call.listVMI)
        (specBridgeName dcn)).1 = none →
      (∀ err,
        (deleteNAD
          (deleteBridgeDaemonSet
            (((r.record (Call.getDCN req.Name)).record Call.listVM).record Call.listVMI)
            (specBridgeName dcn)).2 (specNadNamespace dcn) (specNadName dcn)).1 = some err →
        (Reconcile r req).1 = ({}, some err) ∧
        (∃ calls, (Reconcile r req).2.log = r.log ++ calls ∧
          ∀ c ∈ calls, c.isUpdate = false ∧ c.isStatusUpdate = false) ∧
        (Reconcile r req).2.store.dcns = r.store.dcns) ∧
      ((deleteNAD
          (deleteBridgeDaemonSet
            (((r.record (Call.getDCN req.Name)).record Call.listVM).record Call.listVMI)
            (specBridgeName dcn)).2 (specNadNamespace dcn) (specNadName dcn)).1 = none →
        ∃ calls rest,
          (deleteNAD
            (deleteBridgeDaemonSet
              (((r.record (Call.getDCN req.Name)).record Call.listVM).record Call.listVMI)
              (specBridgeName dcn)).2 (specNadNamespace dcn) (specNadName dcn)).2.log =
            r.log ++ calls ∧
          (∀ c ∈ calls, c.isUpdate = false ∧ c.isStatusUpdate = false) ∧
          (Reconcile r req).2.log = r.log ++ calls ++
            [Call.update (dcn.SetFinalizers (removeString dcn.GetFinalizers finalizerName))] ++
            rest)) := by
  have hnone := usageReport_nil_of_free _ _ _ _ hfree
  rw [Reconcile_deleting r req dcn hget hdcn hvalid hdel,
    reconcileTeardown_free (r.record (Call.getDCN req.Name)) dcn _ _ _ hvm hvmi hnone]
  obtain ⟨⟨l1, hl1, hp1⟩, _, hd1, _⟩ := deleteDS_issued
    (((r.record (Call.getDCN req.Name)).record Call.listVM).record Call.listVMI)
    (specBridgeName dcn)
  have hpre : ∀ c ∈ [Call.getDCN req.Name, Call.listVM, Call.listVMI] ++ l1,
      c.isNAD = false ∧ c.isUpdate = false ∧ c.isStatusUpdate = false := by
    intro c hc
    simp only [List.mem_append, List.mem_cons, List.mem_singleton, List.not_mem_nil,
      or_false] at hc
    rcases hc with (rfl | rfl | rfl) | hc
    · exact ⟨rfl, rfl, rfl⟩
    · exact ⟨rfl, rfl, rfl⟩
    · exact ⟨rfl, rfl, rfl⟩
    · rcases hp1 c hc with rfl | ⟨ds, rfl⟩ <;> exact ⟨rfl, rfl, rfl⟩
  constructor
  · intro err herr
    rw [herr]
    refine ⟨rfl, ⟨[Call.getDCN req.Name, Call.listVM, Call.listVMI] ++ l1, ?_, hpre⟩, ?_⟩
    · rw [hl1]
      simp [Client.record]
    · rw [hd1]; rfl
  · intro hok
    rw [hok]
    simp only []
    obtain ⟨⟨l2, hl2, hp2⟩, _, hd2, _⟩ := deleteNAD_issued
      (deleteBridgeDaemonSet
        (((r.record (Call.getDCN req.Name)).record Call.listVM).record Call.listVMI)
        (specBridgeName dcn)).2 (specNadNamespace dcn) (specNadName dcn)
    have hpre2 : ∀ c ∈ [Call.getDCN req.Name, Call.listVM, Call.listVMI] ++ l1 ++ l2,
        c.isUpdate = false ∧ c.isStatusUpdate = false := by
      intro c hc
      rcases List.mem_append.mp hc with hc | hc
      · exact (hpre c hc).2
      · rcases hp2 c hc with rfl | ⟨o, rfl⟩ <;> exact ⟨rfl, rfl⟩
    have hlog2 : (deleteNAD
        (deleteBridgeDaemonSet
          (((r.record (Call.getDCN req.Name)).record Call.listVM).record Call.listVMI)
          (specBridgeName dcn)).2 (specNadNamespace dcn) (specNadName dcn)).2.log =
        r.log ++ ([Call.getDCN req.Name, Call.listVM, Call.listVMI] ++ l1 ++ l2) := by
      rw [hl2, hl1]
      simp [Client.record]
    constructor
    · intro err herr
      rw [herr]
      refine ⟨rfl, ⟨_, hlog2, hpre2⟩, ?_⟩
      rw [hd2, hd1]; rfl
    · intro hok2
      rw [hok2]
      simp only []
      refine ⟨_, ?_, hlog2, hpre2, ?_⟩
      · exact match ((deleteNAD
            (deleteBridgeDaemonSet
              (((r.record (Call.getDCN req.Name)).record Call.listVM).record Call.listVMI)
              (specBridgeName dcn)).2 (specNadNamespace dcn) (specNadName dcn)).2.Update
            (dcn.SetFinalizers (removeString dcn.GetFinalizers finalizerName))).1 with
          | some _ => []
          | none => [Call.statusUpdate (setStatus
              (dcn.SetFinalizers (removeString dcn.GetFinalizers finalizerName))
              "Deleted" "Cleaned up resources")]
      · cases hu : ((deleteNAD
            (deleteBridgeDaemonSet
              (((r.record (Call.getDCN req.Name)).record Call.listVM).record Call.listVMI)
              (specBridgeName dcn)).2 (specNadNamespace dcn) (specNadName dcn)).2.Update
            (dcn.SetFinalizers (removeString dcn.GetFinalizers finalizerName))).1 with
        | some err =>
          simp only [List.append_nil]
          rw [Update_log, hlog2]
        | none =>
          simp only []
          rw [(updateStatus_effect _ _ _ _).1, Update_log, hlog2]

theorem Reconcile_teardown_ordering_witness :
    daemonSetFailingClient.fail (Call.getDCN "net") = none ∧
    daemonSetFailingClient.store.dcns.get "net" =
      some (scenarioDCN [finalizerName] (some 7)) ∧
    ValidSpec (scenarioDCN [finalizerName] (some 7)) ∧
    (scenarioDCN [finalizerName] (some 7)).DeletionTimestampIsZero = false ∧
    daemonSetFailingClient.store.vms ++ daemonSetFailingClient.store.vmis = [] ∧
    (deleteBridgeDaemonSet
      (((daemonSetFailingClient.record (Call.getDCN "net")).record Call.listVM).record
        Call.listVMI) "br0").1 = some ⟨StatusReason.Unknown, "boom"⟩ ∧
    (Reconcile daemonSetFailingClient ⟨"", "net"⟩).1 =
      ({}, some ⟨StatusReason.Unknown, "boom"⟩) ∧
    (Reconcile daemonSetFailingClient ⟨"", "net"⟩).2.log =
      [Call.getDCN "net", Call.listVM, Call.listVMI,
        Call.getDaemonSet "kube-system" "dummy-bridge-ensure"] :=
  ⟨rfl, rfl, by decide, rfl, rfl, rfl,
    ((Reconcile_teardown_ordering daemonSetFailingClient ⟨"", "net"⟩
      (scenarioDCN [finalizerName] (some 7)) rfl rfl (by decide) rfl rfl rfl
      (fun w hw => by
        simp [daemonSetFailingClient, scenarioCStore, emptyStore] at hw)).1
      ⟨StatusReason.Unknown, "boom"⟩ rfl).1,
    rfl⟩

/-! ## The phases written -/

theorem updateStatus_phase_issued (r : Client) (o : Unstructured) (phase reason : String)
    (hp : phase ∈ writtenPhases) :
    Issued (fun c => ∀ obj, c = Call.statusUpdate obj →
      ∃ p, phaseOf obj = some (Val.str p) ∧ p ∈ writtenPhases) r
      (updateStatus r o phase reason).2 := by
  refine (updateStatus_issued r o phase reason).mono ?_
  intro c hc obj hobj
  rw [hc] at hobj
  rw [← Call.statusUpdate.inj hobj]
  exact ⟨phase, setStatus_phase _ _ _, hp⟩

theorem issued_phase_of_not_status {r r1 : Client}
    (h : Issued (fun c => c.isStatusUpdate = false) r r1) :
    Issued (fun c => ∀ obj, c = Call.statusUpdate obj →
      ∃ p, phaseOf obj = some (Val.str p) ∧ p ∈ writtenPhases) r r1 := by
  refine h.mono ?_
  intro c hc obj hobj
  rw [hobj] at hc
  exact absurd hc (by simp [Call.isStatusUpdate])

theorem ensureNAD_not_status (r : Client) (ns n b : String) :
    Issued (fun c => c.isStatusUpdate = false) r
      (ensureNetworkAttachmentDefinition r ns n b).2 :=
  (ensureNAD_issued r ns n b).1.mono (by rintro c (rfl | rfl) <;> rfl)

theorem ensureDS_not_status (r : Client) (b : String) :
    Issued (fun c => c.isStatusUpdate = false) r (ensureBridgeDaemonSet r b).2 :=
  (ensureDS_issued r b).1.mono (by rintro c (rfl | rfl) <;> rfl)

theorem deleteDS_not_status (r : Client) (b : String) :
    Issued (fun c => c.isStatusUpdate = false) r (deleteBridgeDaemonSet r b).2 :=
  (deleteDS_issued r b).1.mono (by rintro c (rfl | ⟨ds, rfl⟩) <;> rfl)

theorem deleteNAD_not_status (r : Client) (ns n : String) :
    Issued (fun c => c.isStatusUpdate = false) r (deleteNAD r ns n).2 :=
  (deleteNAD_issued r ns n).1.mono (by rintro c (rfl | ⟨o, rfl⟩) <;> rfl)

theorem isNetworkInUse_not_status (r : Client) (f s : String) :
    Issued (fun c => c.isStatusUpdate = false) r (isNetworkInUse r f s).2 :=
  (isNetworkInUse_issued r f s).1.mono (by rintro c (rfl | rfl) <;> rfl)

theorem Update_not_status (r : Client) (o : Unstructured) :
    Issued (fun c => c.isStatusUpdate = false) r (r.Update o).2 :=
  Issued.of_log (Call.update o) rfl (Update_log r o)

theorem reconcileEnsure_phases (r : Client) (dcn : Unstructured) (b n ns : String) :
    Issued (fun c => ∀ obj, c = Call.statusUpdate obj →
      ∃ p, phaseOf obj = some (Val.str p) ∧ p ∈ writtenPhases) r
      (reconcileEnsure r dcn b n ns).2 := by
  rw [reconcileEnsure_eq]
  have h1 := issued_phase_of_not_status (ensureNAD_not_status r ns n b)
  have h2 := issued_phase_of_not_status
    (ensureDS_not_status (ensureNetworkAttachmentDefinition r ns n b).2 b)
  cases (ensureNetworkAttachmentDefinition r ns n b).1 with
  | some err => exact h1.trans (updateStatus_phase_issued _ _ _ _ (by decide))
  | none =>
    simp only []
    cases (ensureBridgeDaemonSet (ensureNetworkAttachmentDefinition r ns n b).2 b).1 with
    | some err => exact (h1.trans h2).trans (updateStatus_phase_issued _ _ _ _ (by decide))
    | none => exact (h1.trans h2).trans (updateStatus_phase_issued _ _ _ _ (by decide))

theorem reconcileProvision_phases (r : Client) (dcn : Unstructured) (b n ns : String) :
    Issued (fun c => ∀ obj, c = Call.statusUpdate obj →
      ∃ p, phaseOf obj = some (Val.str p) ∧ p ∈ writtenPhases) r
      (reconcileProvision r dcn b n ns).2 := by
  cases hhas : containsString dcn.GetFinalizers finalizerName with
  | true =>
    rw [reconcileProvision_keep _ _ _ _ _ hhas]
    exact reconcileEnsure_phases r dcn b n ns
  | false =>
    rw [reconcileProvision_add _ _ _ _ _ hhas]
    have hu := issued_phase_of_not_status
      (Update_not_status r (dcn.SetFinalizers (dcn.GetFinalizers ++ [finalizerName])))
    cases (r.Update (dcn.SetFinalizers (dcn.GetFinalizers ++ [finalizerName]))).1 with
    | some err => exact hu
    | none => exact hu.trans (reconcileEnsure_phases _ _ _ _ _)

theorem reconcileTeardown_phases (r : Client) (dcn : Unstructured) (b n ns : String) :
    Issued (fun c => ∀ obj, c = Call.statusUpdate obj →
      ∃ p, phaseOf obj = some (Val.str p) ∧ p ∈ writtenPhases) r
      (reconcileTeardown r dcn b n ns).2 := by
  have hin := issued_phase_of_not_status (isNetworkInUse_not_status r (ns ++ "/" ++ n) n)
  rcases isNetworkInUse_cases r (ns ++ "/" ++ n) n with
    ⟨err, _, h⟩ | ⟨err, _, _, h⟩ | ⟨hvm, hvmi, h⟩
  · rw [reconcileTeardown_list_error r _ dcn b n ns err h]
    rw [h] at hin
    exact hin
  · rw [reconcileTeardown_list_error r _ dcn b n ns err h]
    rw [h] at hin
    exact hin
  · rw [h] at hin
    by_cases hnone : usageReport r.store.vms r.store.vmis (ns ++ "/" ++ n) n = []
    · rw [reconcileTeardown_free r dcn b n ns hvm hvmi hnone]
      have h1 := hin.trans (issued_phase_of_not_status
        (deleteDS_not_status ((r.record Call.listVM).record Call.listVMI) b))
      have h2 := h1.trans (issued_phase_of_not_status (deleteNAD_not_status
        (deleteBridgeDaemonSet ((r.record Call.listVM).record Call.listVMI) b).2 ns n))
      have h3 := h2.trans (issued_phase_of_not_status (Update_not_status
        (deleteNAD (deleteBridgeDaemonSet ((r.record Call.listVM).record Call.listVMI) b).2
          ns n).2 (dcn.SetFinalizers (removeString dcn.GetFinalizers finalizerName))))
      cases (deleteBridgeDaemonSet ((r.record Call.listVM).record Call.listVMI) b).1 with
      | some err => exact h1
      | none =>
        simp only []
        cases (deleteNAD
          (deleteBridgeDaemonSet ((r.record Call.listVM).record Call.listVMI) b).2 ns n).1 with
        | some err => exact h2
        | none =>
          simp only []
          cases ((deleteNAD
            (deleteBridgeDaemonSet ((r.record Call.listVM).record Call.listVMI) b).2
            ns n).2.Update
              (dcn.SetFinalizers (removeString dcn.GetFinalizers finalizerName))).1 with
          | some err => exact h3
          | none => exact h3.trans (updateStatus_phase_issued _ _ _ _ (by decide))
    · rw [reconcileTeardown_in_use r dcn b n ns hvm hvmi
        ((usageReport_ne_nil_iff _ _ _ _).mp hnone)]
      exact hin.trans (updateStatus_phase_issued _ _ _ _ (by decide))

/-- C12. Whatever the store holds and refuses, every status that `Reconcile` writes has one
of the six phases `InvalidSpec`, `ErrorEnsuringNAD`, `ErrorEnsuringDaemonSet`, `Ready`,
`DeletionBlocked`, `Deleted`. -/
theorem Reconcile_status_phases (r : Client) (req : Request) :
    ∃ calls, (Reconcile r req).2.log = r.log ++ calls ∧
      ∀ obj, Call.statusUpdate obj ∈ calls →
        ∃ p, phaseOf obj = some (Val.str p) ∧
          p ∈ ["InvalidSpec", "ErrorEnsuringNAD", "ErrorEnsuringDaemonSet", "Ready",
            "DeletionBlocked", "Deleted"] := by
  have key : Issued (fun c => ∀ obj, c = Call.statusUpdate obj →
      ∃ p, phaseOf obj = some (Val.str p) ∧ p ∈ writtenPhases) r (Reconcile r req).2 := by
    have hfetch : Issued (fun c => ∀ obj, c = Call.statusUpdate obj →
        ∃ p, phaseOf obj = some (Val.str p) ∧ p ∈ writtenPhases) r
        (r.record (Call.getDCN req.Name)) :=
      issued_phase_of_not_status (Issued.record _ r _ rfl)
    cases hg : (r.GetDCN req.Name).1 with
    | error err =>
      rw [Reconcile_fetch_error r req err hg]
      exact hfetch
    | ok dcn =>
      obtain ⟨hget, hdcn⟩ := GetDCN_ok_inv r req.Name dcn hg
      rw [Reconcile_fetched r req dcn hget hdcn]
      split
      · exact hfetch.trans (updateStatus_phase_issued _ _ _ _ (by decide))
      · split
        · exact hfetch.trans (reconcileProvision_phases _ _ _ _ _)
        · exact hfetch.trans (reconcileTeardown_phases _ _ _ _ _)
  obtain ⟨calls, hlog, hp⟩ := key
  exact ⟨calls, hlog, fun obj hobj => hp _ hobj obj rfl⟩

/-- C12, as stated: a refused Get of the NetworkAttachmentDefinition makes `Reconcile` write
the phase `ErrorEnsuringNAD`, which is not one of the five phases the claim lists. -/
theorem Reconcile_status_phases_counterexample :
    (Reconcile nadFailingClient ⟨"", "net"⟩).2.log =
      [Call.getDCN "net", Call.getNAD "default" "net1",
        Call.statusUpdate (setStatus (scenarioDCN [finalizerName] none) "ErrorEnsuringNAD"
          "boom")] ∧
    phaseOf (setStatus (scenarioDCN [finalizerName] none) "ErrorEnsuringNAD" "boom") =
      some (Val.str "ErrorEnsuringNAD") ∧
    "ErrorEnsuringNAD" ∉ specPhases :=
  ⟨rfl, rfl, by decide⟩

/-! ## Status updates do not steer the reconciliation -/

theorem Agree.same (r : Client) : Agree r r := ⟨rfl, rfl, fun _ _ => rfl⟩

theorem Agree.step {r r1 : Client} (h : Agree r r1) (c : Call) :
    Agree (r.record c) (r1.record c) := by
  obtain ⟨hs, hl, hf⟩ := h
  refine ⟨hs, ?_, hf⟩
  show r1.log ++ [c] = r.log ++ [c]
  rw [hl]

theorem GetDCN_agree {r r1 : Client} (h : Agree r r1) (name : String) :
    (r1.GetDCN name).1 = (r.GetDCN name).1 := by
  obtain ⟨hs, _, hf⟩ := h
  unfold Client.GetDCN
  rw [hf (Call.getDCN name) rfl, hs]
  cases r.fail (Call.getDCN name) with
  | some err => rfl
  | none => cases r.store.dcns.get name <;> rfl

theorem GetNAD_agree {r r1 : Client} (h : Agree r r1) (ns name : String) :
    (r1.GetNAD ns name).1 = (r.GetNAD ns name).1 := by
  obtain ⟨hs, _, hf⟩ := h
  unfold Client.GetNAD
  rw [hf (Call.getNAD ns name) rfl, hs]
  cases r.fail (Call.getNAD ns name) with
  | some err => rfl
  | none => cases r.store.nads.get (ns, name) <;> rfl

theorem GetDaemonSet_agree {r r1 : Client} (h : Agree r r1) (ns name : String) :
    (r1.GetDaemonSet ns name).1 = (r.GetDaemonSet ns name).1 := by
  obtain ⟨hs, _, hf⟩ := h
  unfold Client.GetDaemonSet
  rw [hf (Call.getDaemonSet ns name) rfl, hs]
  cases r.fail (Call.getDaemonSet ns name) with
  | some err => rfl
  | none => cases r.store.daemonSets.get (ns, name) <;> rfl

theorem Update_agree {r r1 : Client} (h : Agree r r1) (o : Unstructured) :
    (r1.Update o).1 = (r.Update o).1 ∧ Agree (r.Update o).2 (r1.Update o).2 := by
  have hrec := h.step (Call.update o)
  obtain ⟨hs, hl, hf⟩ := h
  unfold Client.Update
  rw [hf (Call.update o) rfl, hs]
  cases r.fail (Call.update o) with
  | some err => exact ⟨rfl, hrec⟩
  | none =>
    cases r.store.dcns.get o.GetName with
    | none => exact ⟨rfl, hrec⟩
    | some old => exact ⟨rfl, rfl, hrec.2.1, hf⟩

theorem CreateNAD_agree {r r1 : Client} (h : Agree r r1) (o : Unstructured) :
    (r1.CreateNAD o).1 = (r.CreateNAD o).1 ∧ Agree (r.CreateNAD o).2 (r1.CreateNAD o).2 := by
  have hrec := h.step (Call.createNAD o)
  obtain ⟨hs, hl, hf⟩ := h
  unfold Client.CreateNAD
  rw [hf (Call.createNAD o) rfl, hs]
  cases r.fail (Call.createNAD o) with
  | some err => exact ⟨rfl, hrec⟩
  | none =>
    cases r.store.nads.get o.key with
    | some old => exact ⟨rfl, hrec⟩
    | none => exact ⟨rfl, rfl, hrec.2.1, hf⟩

theorem DeleteNAD_agree {r r1 : Client} (h : Agree r r1) (o : Unstructured) :
    (r1.DeleteNAD o).1 = (r.DeleteNAD o).1 ∧ Agree (r.DeleteNAD o).2 (r1.DeleteNAD o).2 := by
  have hrec := h.step (Call.deleteNAD o)
  obtain ⟨hs, hl, hf⟩ := h
  unfold Client.DeleteNAD
  rw [hf (Call.deleteNAD o) rfl, hs]
  cases r.fail (Call.deleteNAD o) with
  | some err => exact ⟨rfl, hrec⟩
  | none =>
    cases r.store.nads.get o.key with
    | none => exact ⟨rfl, hrec⟩
    | some old => exact ⟨rfl, rfl, hrec.2.1, hf⟩

theorem CreateDaemonSet_agree {r r1 : Client} (h : Agree r r1) (ds : DaemonSet) :
    (r1.CreateDaemonSet ds).1 = (r.CreateDaemonSet ds).1 ∧
      Agree (r.CreateDaemonSet ds).2 (r1.CreateDaemonSet ds).2 := by
  have hrec := h.step (Call.createDaemonSet ds)
  obtain ⟨hs, hl, hf⟩ := h
  unfold Client.CreateDaemonSet
  rw [hf (Call.createDaemonSet ds) rfl, hs]
  cases r.fail (Call.createDaemonSet ds) with
  | some err => exact ⟨rfl, hrec⟩
  | none =>
    cases r.store.daemonSets.get ds.key with
    | some old => exact ⟨rfl, hrec⟩
    | none => exact ⟨rfl, rfl, hrec.2.1, hf⟩

theorem DeleteDaemonSet_agree {r r1 : Client} (h : Agree r r1) (ds : DaemonSet) :
    (r1.DeleteDaemonSet ds).1 = (r.DeleteDaemonSet ds).1 ∧
      Agree (r.DeleteDaemonSet ds).2 (r1.DeleteDaemonSet ds).2 := by
  have hrec := h.step (Call.deleteDaemonSet ds)
  obtain ⟨hs, hl, hf⟩ := h
  unfold Client.DeleteDaemonSet
  rw [hf (Call.deleteDaemonSet ds) rfl, hs]
  cases r.fail (Call.deleteDaemonSet ds) with
  | some err => exact ⟨rfl, hrec⟩
  | none =>
    cases r.store.daemonSets.get ds.key with
    | none => exact ⟨rfl, hrec⟩
    | some old => exact ⟨rfl, rfl, hrec.2.1, hf⟩

theorem ensureNAD_agree {r r1 : Client} (h : Agree r r1) (ns n b : String) :
    (ensureNetworkAttachmentDefinition r1 ns n b).1 =
      (ensureNetworkAttachmentDefinition r ns n b).1 ∧
    Agree (ensureNetworkAttachmentDefinition r ns n b).2
      (ensureNetworkAttachmentDefinition r1 ns n b).2 := by
  rw [ensureNAD_eq r, ensureNAD_eq r1, GetNAD_agree h]
  cases (r.GetNAD ns n).1 with
  | ok o => exact ⟨rfl, h.step _⟩
  | error err =>
    cases hnf : IsNotFound err with
    | false =>
      simp only [hnf, Bool.false_eq_true, if_false]
      exact ⟨trivial, h.step _⟩
    | true =>
      simp only [hnf, if_true]
      exact CreateNAD_agree (h.step _) _

theorem ensureDS_agree {r r1 : Client} (h : Agree r r1) (b : String) :
    (ensureBridgeDaemonSet r1 b).1 = (ensureBridgeDaemonSet r b).1 ∧
    Agree (ensureBridgeDaemonSet r b).2 (ensureBridgeDaemonSet r1 b).2 := by
  rw [ensureDS_eq r, ensureDS_eq r1, GetDaemonSet_agree h]
  cases (r.GetDaemonSet "kube-system" "dummy-bridge-ensure").1 with
  | ok o => exact ⟨rfl, h.step _⟩
  | error err =>
    cases hnf : IsNotFound err with
    | false =>
      simp only [hnf, Bool.false_eq_true, if_false]
      exact ⟨trivial, h.step _⟩
    | true =>
      simp only [hnf, if_true]
      exact CreateDaemonSet_agree (h.step _) _

theorem deleteDS_agree {r r1 : Client} (h : Agree r r1) (b : String) :
    (deleteBridgeDaemonSet r1 b).1 = (deleteBridgeDaemonSet r b).1 ∧
    Agree (deleteBridgeDaemonSet r b).2 (deleteBridgeDaemonSet r1 b).2 := by
  rw [deleteDS_eq r, deleteDS_eq r1, GetDaemonSet_agree h]
  cases (r.GetDaemonSet "kube-system" "dummy-bridge-ensure").1 with
  | ok ds => exact DeleteDaemonSet_agree (h.step _) ds
  | error err =>
    cases hnf : IsNotFound err with
    | false =>
      simp only [hnf, Bool.false_eq_true, if_false]
      exact ⟨trivial, h.step _⟩
    | true =>
      simp only [hnf, if_true]
      exact ⟨trivial, h.step _⟩

theorem deleteNAD_agree {r r1 : Client} (h : Agree r r1) (ns n : String) :
    (deleteNAD r1 ns n).1 = (deleteNAD r ns n).1 ∧
    Agree (deleteNAD r ns n).2 (deleteNAD r1 ns n).2 := by
  rw [deleteNAD_eq r, deleteNAD_eq r1, GetNAD_agree h]
  cases (r.GetNAD ns n).1 with
  | ok o => exact DeleteNAD_agree (h.step _) o
  | error err =>
    cases hnf : IsNotFound err with
    | false =>
      simp only [hnf, Bool.false_eq_true, if_false]
      exact ⟨trivial, h.step _⟩
    | true =>
      simp only [hnf, if_true]
      exact ⟨trivial, h.step _⟩

theorem updateStatus_agree_log {r r1 : Client} (h : Agree r r1) (o : Unstructured)
    (phase reason : String) :
    (updateStatus r1 o phase reason).2.log = (updateStatus r o phase reason).2.log := by
  rw [(updateStatus_effect r1 o phase reason).1, (updateStatus_effect r o phase reason).1,
    h.2.1]

theorem reconcileEnsure_agree {r r1 : Client} (h : Agree r r1) (dcn : Unstructured)
    (b n ns : String) :
    (reconcileEnsure r1 dcn b n ns).1 = (reconcileEnsure r dcn b n ns).1 ∧
    (reconcileEnsure r1 dcn b n ns).2.log = (reconcileEnsure r dcn b n ns).2.log := by
  obtain ⟨e1, h1⟩ := ensureNAD_agree h ns n b
  obtain ⟨e2, h2⟩ := ensureDS_agree h1 b
  rw [reconcileEnsure_eq r, reconcileEnsure_eq r1, e1]
  cases (ensureNetworkAttachmentDefinition r ns n b).1 with
  | some err => exact ⟨by simp only [], updateStatus_agree_log h1 _ _ _⟩
  | none =>
    simp only []
    rw [e2]
    cases (ensureBridgeDaemonSet (ensureNetworkAttachmentDefinition r ns n b).2 b).1 with
    | some err => exact ⟨by simp only [], updateStatus_agree_log h2 _ _ _⟩
    | none => exact ⟨by simp only [], updateStatus_agree_log h2 _ _ _⟩

theorem reconcileProvision_agree {r r1 : Client} (h : Agree r r1) (dcn : Unstructured)
    (b n ns : String) :
    (reconcileProvision r1 dcn b n ns).1 = (reconcileProvision r dcn b n ns).1 ∧
    (reconcileProvision r1 dcn b n ns).2.log = (reconcileProvision r dcn b n ns).2.log := by
  cases hhas : containsString dcn.GetFinalizers finalizerName with
  | true =>
    rw [reconcileProvision_keep r _ _ _ _ hhas, reconcileProvision_keep r1 _ _ _ _ hhas]
    exact reconcileEnsure_agree h dcn b n ns
  | false =>
    obtain ⟨e, hu⟩ := Update_agree h (dcn.SetFinalizers (dcn.GetFinalizers ++ [finalizerName]))
    rw [reconcileProvision_add r _ _ _ _ hhas, reconcileProvision_add r1 _ _ _ _ hhas, e]
    cases (r.Update (dcn.SetFinalizers (dcn.GetFinalizers ++ [finalizerName]))).1 with
    | some err => exact ⟨by simp only [], hu.2.1⟩
    | none => exact reconcileEnsure_agree hu _ b n ns

theorem reconcileTeardown_agree {r r1 : Client} (h : Agree r r1) (dcn : Unstructured)
    (b n ns : String) :
    (reconcileTeardown r1 dcn b n ns).1 = (reconcileTeardown r dcn b n ns).1 ∧
    (reconcileTeardown r1 dcn b n ns).2.log = (reconcileTeardown r dcn b n ns).2.log := by
  have hvm1 : r1.fail Call.listVM = r.fail Call.listVM := h.2.2 _ rfl
  have hvmi1 : r1.fail Call.listVMI = r.fail Call.listVMI := h.2.2 _ rfl
  have hA2 : Agree ((r.record Call.listVM).record Call.listVMI)
      ((r1.record Call.listVM).record Call.listVMI) := (h.step _).step _
  rcases isNetworkInUse_cases r (ns ++ "/" ++ n) n with
    ⟨err, hvm, hr⟩ | ⟨err, hvm, hvmi, hr⟩ | ⟨hvm, hvmi, hr⟩
  · rw [reconcileTeardown_list_error r _ dcn b n ns err hr,
      reconcileTeardown_list_error r1 _ dcn b n ns err
        (isNetworkInUse_fail_vm r1 _ _ err (hvm1.trans hvm))]
    exact ⟨by simp only [], (h.step _).2.1⟩
  · rw [reconcileTeardown_list_error r _ dcn b n ns err hr,
      reconcileTeardown_list_error r1 _ dcn b n ns err
        (isNetworkInUse_fail_vmi r1 _ _ err (hvm1.trans hvm) (hvmi1.trans hvmi))]
    exact ⟨by simp only [], hA2.2.1⟩
  · by_cases hnone : usageReport r.store.vms r.store.vmis (ns ++ "/" ++ n) n = []
    · have hnone1 : usageReport r1.store.vms r1.store.vmis (ns ++ "/" ++ n) n = [] := by
        rw [h.1]; exact hnone
      obtain ⟨e1, h3⟩ := deleteDS_agree hA2 b
      obtain ⟨e2, h4⟩ := deleteNAD_agree h3 ns n
      obtain ⟨e3, h5⟩ := Update_agree h4
        (dcn.SetFinalizers (removeString dcn.GetFinalizers finalizerName))
      rw [reconcileTeardown_free r dcn b n ns hvm hvmi hnone,
        reconcileTeardown_free r1 dcn b n ns (hvm1.trans hvm) (hvmi1.trans hvmi) hnone1, e1]
      cases (deleteBridgeDaemonSet ((r.record Call.listVM).record Call.listVMI) b).1 with
      | some err => exact ⟨by simp only [], h3.2.1⟩
      | none =>
        simp only []
        rw [e2]
        cases (deleteNAD
          (deleteBridgeDaemonSet ((r.record Call.listVM).record Call.listVMI) b).2 ns n).1 with
        | some err => exact ⟨by simp only [], h4.2.1⟩
        | none =>
          simp only []
          rw [e3]
          cases ((deleteNAD
            (deleteBridgeDaemonSet ((r.record Call.listVM).record Call.listVMI) b).2
            ns n).2.Update
              (dcn.SetFinalizers (removeString dcn.GetFinalizers finalizerName))).1 with
          | some err => exact ⟨by simp only [], h5.2.1⟩
          | none => exact ⟨by simp only [], updateStatus_agree_log h5 _ _ _⟩
    · have hused := (usageReport_ne_nil_iff _ _ _ _).mp hnone
      have hused1 : ∃ w ∈ r1.store.vms ++ r1.store.vmis,
          (objectUsesNetwork w (ns ++ "/" ++ n) n).1 = true := by
        rw [h.1]; exact hused
      rw [reconcileTeardown_in_use r dcn b n ns hvm hvmi hused,
        reconcileTeardown_in_use r1 dcn b n ns (hvm1.trans hvm) (hvmi1.trans hvmi) hused1]
      refine ⟨by simp only [], ?_⟩
      rw [h.1]
      exact updateStatus_agree_log hA2 _ _ _

theorem Reconcile_agree {r r1 : Client} (h : Agree r r1) (req : Request) :
    (Reconcile r1 req).1 = (Reconcile r req).1 ∧
    (Reconcile r1 req).2.log = (Reconcile r req).2.log := by
  have hg := GetDCN_agree h req.Name
  cases hget : (r.GetDCN req.Name).1 with
  | error err =>
    rw [Reconcile_fetch_error r req err hget,
      Reconcile_fetch_error r1 req err (hg.trans hget)]
    exact ⟨by simp only [], (h.step _).2.1⟩
  | ok dcn =>
    obtain ⟨hf, hd⟩ := GetDCN_ok_inv r req.Name dcn hget
    obtain ⟨hf1, hd1⟩ := GetDCN_ok_inv r1 req.Name dcn (hg.trans hget)
    rw [Reconcile_fetched r req dcn hf hd, Reconcile_fetched r1 req dcn hf1 hd1]
    split
    · exact ⟨by simp only [], updateStatus_agree_log (h.step _) _ _ _⟩
    · split
      · exact reconcileProvision_agree (h.step _) _ _ _ _
      · exact reconcileTeardown_agree (h.step _) _ _ _ _

/-- C11. Two runs of `Reconcile` on the same store and log that differ at most in which
status updates the store refuses return the same result and error and issue the same calls
with the same arguments, the calls other than status updates in particular. -/
theorem Reconcile_status_best_effort (r r1 : Client) (req : Request)
    (hstore : r1.store = r.store) (hlog : r1.log = r.log)
    (hfail : ∀ c, c.isStatusUpdate = false → r1.fail c = r.fail c) :
    (Reconcile r1 req).1 = (Reconcile r req).1 ∧
    (Reconcile r1 req).2.log = (Reconcile r req).2.log ∧
    (Reconcile r1 req).2.log.filter (fun c => !c.isStatusUpdate) =
      (Reconcile r req).2.log.filter (fun c => !c.isStatusUpdate) := by
  obtain ⟨h1, h2⟩ := @Reconcile_agree r r1 ⟨hstore, hlog, hfail⟩ req
  exact ⟨h1, h2, by rw [h2]⟩

theorem Reconcile_status_best_effort_witness :
    statusFailingClient.store = (clientOf scenarioAStore).store ∧
    statusFailingClient.log = (clientOf scenarioAStore).log ∧
    (∀ c, c.isStatusUpdate = false →
      statusFailingClient.fail c = (clientOf scenarioAStore).fail c) ∧
    statusFailingClient.fail
      (Call.statusUpdate (setStatus (scenarioDCN [finalizerName] none) "Ready"
        "Resources created")) ≠ none ∧
    (Reconcile statusFailingClient ⟨"", "net"⟩).1 =
      (Reconcile (clientOf scenarioAStore) ⟨"", "net"⟩).1 ∧
    (Reconcile statusFailingClient ⟨"", "net"⟩).1 = ({}, none) :=
  ⟨rfl, rfl, fun c hc => by cases c <;> first | rfl | simp [Call.isStatusUpdate] at hc,
    by decide,
    (Reconcile_status_best_effort (clientOf scenarioAStore) statusFailingClient ⟨"", "net"⟩
      rfl rfl (fun c hc => by cases c <;> first | rfl | simp [Call.isStatusUpdate] at hc)).1,
    rfl⟩

/-! ## The dependents over several reconciliations -/

theorem reconcileTeardown_fail (r : Client) (dcn : Unstructured) (b n ns : String) :
    (reconcileTeardown r dcn b n ns).2.fail = r.fail := by
  rcases isNetworkInUse_cases r (ns ++ "/" ++ n) n with
    ⟨err, _, h⟩ | ⟨err, _, _, h⟩ | ⟨hvm, hvmi, h⟩
  · rw [reconcileTeardown_list_error r _ dcn b n ns err h]; rfl
  · rw [reconcileTeardown_list_error r _ dcn b n ns err h]; rfl
  · by_cases hnone : usageReport r.store.vms r.store.vmis (ns ++ "/" ++ n) n = []
    · rw [reconcileTeardown_free r dcn b n ns hvm hvmi hnone]
      have h1 := (deleteDS_issued ((r.record Call.listVM).record Call.listVMI) b).2.1
      have h2 := (deleteNAD_issued
        (deleteBridgeDaemonSet ((r.record Call.listVM).record Call.listVMI) b).2 ns n).2.1
      have h3 := (Update_frame
        (deleteNAD (deleteBridgeDaemonSet ((r.record Call.listVM).record Call.listVMI) b).2
          ns n).2 (dcn.SetFinalizers (removeString dcn.GetFinalizers finalizerName))).1
      cases (deleteBridgeDaemonSet ((r.record Call.listVM).record Call.listVMI) b).1 with
      | some err => simp only []; rw [h1]; rfl
      | none =>
        simp only []
        cases (deleteNAD
          (deleteBridgeDaemonSet ((r.record Call.listVM).record Call.listVMI) b).2 ns n).1 with
        | some err => simp only []; rw [h2, h1]; rfl
        | none =>
          simp only []
          cases ((deleteNAD
            (deleteBridgeDaemonSet ((r.record Call.listVM).record Call.listVMI) b).2
            ns n).2.Update
              (dcn.SetFinalizers (removeString dcn.GetFinalizers finalizerName))).1 with
          | some err => simp only []; rw [h3, h2, h1]; rfl
          | none =>
            simp only []
            rw [(updateStatus_effect _ _ _ _).2.1, h3, h2, h1]; rfl
    · rw [reconcileTeardown_in_use r dcn b n ns hvm hvmi
        ((usageReport_ne_nil_iff _ _ _ _).mp hnone)]
      simp only []
      rw [(updateStatus_effect _ _ _ _).2.1]; rfl

theorem GetNAD_ok_inv (r : Client) (ns n : String) (o : Unstructured)
    (h : (r.GetNAD ns n).1 = Except.ok o) : r.store.nads.get (ns, n) = some o := by
  unfold Client.GetNAD at h
  cases hf : r.fail (Call.getNAD ns n) with
  | some err => simp [hf] at h
  | none =>
    cases hg : r.store.nads.get (ns, n) with
    | none => simp [hf, hg] at h
    | some o1 =>
      simp only [hf, hg, Except.ok.injEq] at h
      rw [h]

theorem DeleteNAD_other (r : Client) (o : Unstructured) (key : String × String)
    (hkey : key ≠ o.key) :
    (r.DeleteNAD o).2.store.nads.get key = r.store.nads.get key := by
  unfold Client.DeleteNAD
  split
  · rfl
  · split
    · rfl
    · simp only [Keyed.get_erase, if_neg hkey]

theorem deleteNAD_other (r : Client) (ns n : String) (key : String × String)
    (hkey : key ≠ (ns, n)) :
    (deleteNAD r ns n).2.store.nads.get key = r.store.nads.get key := by
  rw [deleteNAD_eq]
  cases hg : (r.GetNAD ns n).1 with
  | ok o =>
    have hk : o.key = (ns, n) := r.store.nads.sound _ _ (GetNAD_ok_inv r ns n o hg)
    exact DeleteNAD_other _ o key (by rw [hk]; exact hkey)
  | error err =>
    cases hnf : IsNotFound err with
    | false => simp only [hnf, Bool.false_eq_true, if_false]; rfl
    | true => simp only [hnf, if_true]; rfl

/-- A teardown without user leaves every NetworkAttachmentDefinition at another identity as
it was. -/
theorem reconcileTeardown_other (r : Client) (dcn : Unstructured) (b n ns : String)
    (hvm : r.fail Call.listVM = none) (hvmi : r.fail Call.listVMI = none)
    (hnone : usageReport r.store.vms r.store.vmis (ns ++ "/" ++ n) n = [])
    (key : String × String) (hkey : key ≠ (ns, n)) :
    (reconcileTeardown r dcn b n ns).2.store.nads.get key = r.store.nads.get key := by
  rw [reconcileTeardown_free r dcn b n ns hvm hvmi hnone]
  have h1 := (deleteDS_issued ((r.record Call.listVM).record Call.listVMI) b).2.2.2.1
  have h2 := deleteNAD_other
    (deleteBridgeDaemonSet ((r.record Call.listVM).record Call.listVMI) b).2 ns n key hkey
  have h3 := (Update_frame
    (deleteNAD (deleteBridgeDaemonSet ((r.record Call.listVM).record Call.listVMI) b).2
      ns n).2 (dcn.SetFinalizers (removeString dcn.GetFinalizers finalizerName))).2.1
  cases (deleteBridgeDaemonSet ((r.record Call.listVM).record Call.listVMI) b).1 with
  | some err => simp only []; rw [h1]; rfl
  | none =>
    simp only []
    cases (deleteNAD
      (deleteBridgeDaemonSet ((r.record Call.listVM).record Call.listVMI) b).2 ns n).1 with
    | some err => simp only []; rw [h2, h1]; rfl
    | none =>
      simp only []
      cases ((deleteNAD
        (deleteBridgeDaemonSet ((r.record Call.listVM).record Call.listVMI) b).2
        ns n).2.Update
          (dcn.SetFinalizers (removeString dcn.GetFinalizers finalizerName))).1 with
      | some err => simp only []; rw [h3, h2, h1]; rfl
      | none =>
        simp only []
        rw [(updateStatus_effect _ _ _ _).2.2.1, h3, h2, h1]; rfl

theorem free_of_usageReport_nil (vms vmis : List Unstructured) (f s : String)
    (hnone : usageReport vms vmis f s = []) :
    ∀ w ∈ vms ++ vmis, (objectUsesNetwork w f s).1 = false := by
  intro w hw
  cases hu : (objectUsesNetwork w f s).1 with
  | false => rfl
  | true => exact absurd hnone ((usageReport_ne_nil_iff _ _ _ _).mpr ⟨w, hw, hu⟩)

/-- What a teardown run leaves behind on a store that holds no dependent of the resource. -/
theorem Reconcile_deleting_post (r : Client) (req : Request) (dcn : Unstructured)
    (hfail : ∀ c, r.fail c = none)
    (hdcn : r.store.dcns.get req.Name = some dcn)
    (hvalid : ValidSpec dcn) (hdel : dcn.DeletionTimestampIsZero = false)
    (hnad : r.store.nads.get (specNadNamespace dcn, specNadName dcn) = none)
    (hds : r.store.daemonSets.get ("kube-system", "dummy-bridge-ensure") = none) :
    (Reconcile r req).2.fail = r.fail ∧
    (∃ d, (Reconcile r req).2.store.dcns.get req.Name = some d ∧ ValidSpec d ∧
      d.DeletionTimestampIsZero = false ∧ specNadName d = specNadName dcn ∧
      specNadNamespace d = specNadNamespace dcn) ∧
    (Reconcile r req).2.store.nads.get (specNadNamespace dcn, specNadName dcn) = none ∧
    (Reconcile r req).2.store.daemonSets.get ("kube-system", "dummy-bridge-ensure") =
      none := by
  have hname : dcn.GetName = req.Name := r.store.dcns.sound _ _ hdcn
  have hold : (r.record (Call.getDCN req.Name)).store.dcns.get dcn.GetName = some dcn := by
    rw [hname]; exact hdcn
  rw [Reconcile_deleting r req dcn (hfail _) hdcn hvalid hdel]
  refine ⟨reconcileTeardown_fail _ _ _ _ _, ?_⟩
  by_cases hnone : usageReport r.store.vms r.store.vmis
      (specNadNamespace dcn ++ "/" ++ specNadName dcn) (specNadName dcn) = []
  · obtain ⟨_, hds1, hnad1, hst, _⟩ :=
      reconcileTeardown_clean (r.record (Call.getDCN req.Name)) dcn (specBridgeName dcn)
        (specNadName dcn) (specNadNamespace dcn) hfail hold
        (free_of_usageReport_nil _ _ _ _ hnone)
    rw [hname] at hst
    have hvalid1 : ValidSpec (dcn.SetFinalizers (removeString dcn.GetFinalizers
        finalizerName)) := hvalid
    exact ⟨⟨_, hst, validSpec_setStatus _ _ _ hvalid1, hdel,
      congrArg Prod.fst (NestedString_setStatus _ _ _ "nadName"),
      congrArg Prod.fst (NestedString_setStatus _ _ _ "nadNamespace")⟩, hnad1, hds1⟩
  · rw [reconcileTeardown_in_use (r.record (Call.getDCN req.Name)) dcn _ _ _ (hfail _)
      (hfail _) ((usageReport_ne_nil_iff _ _ _ _).mp hnone)]
    generalize blockedReason (usageReport (r.record (Call.getDCN req.Name)).store.vms
      (r.record (Call.getDCN req.Name)).store.vmis
      (specNadNamespace dcn ++ "/" ++ specNadName dcn) (specNadName dcn)) = reason
    rw [updateStatus_ok dcn]
    · refine ⟨⟨setStatus dcn "DeletionBlocked" reason, ?_,
        validSpec_setStatus _ _ _ hvalid, hdel,
        congrArg Prod.fst (NestedString_setStatus _ _ _ "nadName"),
        congrArg Prod.fst (NestedString_setStatus _ _ _ "nadNamespace")⟩, hnad, hds⟩
      simp only [Keyed.get_set]
      rw [if_pos]
      exact hname.symm
    · exact hfail
    · exact hold

theorem live_times (r : Client) (req : Request) (dcn : Unstructured)
    (hfail : ∀ c, r.fail c = none)
    (hdcn : r.store.dcns.get req.Name = some dcn)
    (hvalid : ValidSpec dcn) (hlive : dcn.DeletionTimestampIsZero = true) :
    ∀ k, (∀ c, (reconcileTimes k r req).fail c = none) ∧
      ∃ d, (reconcileTimes k r req).store.dcns.get req.Name = some d ∧ ValidSpec d ∧
        d.DeletionTimestampIsZero = true ∧ specNadName d = specNadName dcn ∧
        specNadNamespace d = specNadNamespace dcn := by
  intro k
  induction k with
  | zero => exact ⟨hfail, dcn, hdcn, hvalid, hlive, rfl, rfl⟩
  | succ k ih =>
    obtain ⟨hf, d, hd, hv, hl, hn, hns⟩ := ih
    obtain ⟨_, hf1, ⟨d1, hd1, hv1, hl1, _, hn1, hns1, _⟩, _, _⟩ :=
      Reconcile_live_post (reconcileTimes k r req) req d hf hd hv hl
    refine ⟨?_, d1, hd1, hv1, hl1, hn1.trans hn, hns1.trans hns⟩
    intro c
    show (Reconcile (reconcileTimes k r req) req).2.fail c = none
    rw [hf1]; exact hf c

theorem deleting_times (r : Client) (req : Request) (dcn : Unstructured)
    (hfail : ∀ c, r.fail c = none)
    (hdcn : r.store.dcns.get req.Name = some dcn)
    (hvalid : ValidSpec dcn) (hdel : dcn.DeletionTimestampIsZero = false)
    (hnad : r.store.nads.get (specNadNamespace dcn, specNadName dcn) = none)
    (hds : r.store.daemonSets.get ("kube-system", "dummy-bridge-ensure") = none) :
    ∀ k, (∀ c, (reconcileTimes k r req).fail c = none) ∧
      (∃ d, (reconcileTimes k r req).store.dcns.get req.Name = some d ∧ ValidSpec d ∧
        d.DeletionTimestampIsZero = false ∧ specNadName d = specNadName dcn ∧
        specNadNamespace d = specNadNamespace dcn) ∧
      (reconcileTimes k r req).store.nads.get (specNadNamespace dcn, specNadName dcn) =
        none ∧
      (reconcileTimes k r req).store.daemonSets.get ("kube-system", "dummy-bridge-ensure") =
        none := by
  intro k
  induction k with
  | zero => exact ⟨hfail, ⟨dcn, hdcn, hvalid, hdel, rfl, rfl⟩, hnad, hds⟩
  | succ k ih =>
    obtain ⟨hf, ⟨d, hd, hv, hl, hn, hns⟩, hnadk, hdsk⟩ := ih
    rw [← hn, ← hns] at hnadk
    obtain ⟨hf1, ⟨d1, hd1, hv1, hl1, hn1, hns1⟩, hnad1, hds1⟩ :=
      Reconcile_deleting_post (reconcileTimes k r req) req d hf hd hv hl hnadk hdsk
    rw [hn, hns] at hnad1
    refine ⟨?_, ⟨d1, hd1, hv1, hl1, hn1.trans hn, hns1.trans hns⟩, hnad1, hds1⟩
    intro c
    show (Reconcile (reconcileTimes k r req) req).2.fail c = none
    rw [hf1]; exact hf c

/-- C16, amended. On a store that refuses no call, for a DummyClusterNetwork R with a valid
spec: starting without the dependents of R, after any one or more consecutive reconciliations
of R its NetworkAttachmentDefinition and the DaemonSet both exist if R is live, and neither
exists if R is being deleted; and a teardown of R without user succeeds, removes the DaemonSet
`kube-system/dummy-bridge-ensure`, which is shared by all resources, and leaves every
NetworkAttachmentDefinition at an identity other than that of R as it was. -/
theorem dependents_follow_resource (r : Client) (req : Request) (dcn : Unstructured)
    (hfail : ∀ c, r.fail c = none)
    (hdcn : r.store.dcns.get req.Name = some dcn)
    (hvalid : ValidSpec dcn) :
    (r.store.nads.get (specNadNamespace dcn, specNadName dcn) = none →
      r.store.daemonSets.get ("kube-system", "dummy-bridge-ensure") = none →
      ∀ k,
        (dcn.DeletionTimestampIsZero = true →
          (∃ nad, (reconcileTimes (k + 1) r req).store.nads.get
            (specNadNamespace dcn, specNadName dcn) = some nad) ∧
          (∃ ds, (reconcileTimes (k + 1) r req).store.daemonSets.get
            ("kube-system", "dummy-bridge-ensure") = some ds)) ∧
        (dcn.DeletionTimestampIsZero = false →
          (reconcileTimes (k + 1) r req).store.nads.get
            (specNadNamespace dcn, specNadName dcn) = none ∧
          (reconcileTimes (k + 1) r req).store.daemonSets.get
            ("kube-system", "dummy-bridge-ensure") = none)) ∧
    (dcn.DeletionTimestampIsZero = false →
      (∀ w ∈ r.store.vms ++ r.store.vmis,
        (objectUsesNetwork w (specNadNamespace dcn ++ "/" ++ specNadName dcn)
          (specNadName dcn)).1 = false) →
      (Reconcile r req).1 = ({}, none) ∧
      (Reconcile r req).2.store.daemonSets.get ("kube-system", "dummy-bridge-ensure") =
        none ∧
      ∀ key, key ≠ (specNadNamespace dcn, specNadName dcn) →
        (Reconcile r req).2.store.nads.get key = r.store.nads.get key) := by
  constructor
  · intro hnad hds k
    constructor
    · intro hlive
      obtain ⟨hf, d, hd, hv, hl, hn, hns⟩ := live_times r req dcn hfail hdcn hvalid hlive k
      obtain ⟨_, _, _, hnad1, hds1⟩ :=
        Reconcile_live_post (reconcileTimes k r req) req d hf hd hv hl
      rw [hn, hns] at hnad1
      exact ⟨hnad1, hds1⟩
    · intro hdel
      obtain ⟨_, _, hnad1, hds1⟩ :=
        deleting_times r req dcn hfail hdcn hvalid hdel hnad hds (k + 1)
      exact ⟨hnad1, hds1⟩
  · intro hdel hfree
    have hname : dcn.GetName = req.Name := r.store.dcns.sound _ _ hdcn
    have hold : (r.record (Call.getDCN req.Name)).store.dcns.get dcn.GetName = some dcn := by
      rw [hname]; exact hdcn
    rw [Reconcile_deleting r req dcn (hfail _) hdcn hvalid hdel]
    obtain ⟨hres, hds1, _⟩ :=
      reconcileTeardown_clean (r.record (Call.getDCN req.Name)) dcn (specBridgeName dcn)
        (specNadName dcn) (specNadNamespace dcn) hfail hold hfree
    refine ⟨hres, hds1, ?_⟩
    intro key hkey
    exact reconcileTeardown_other (r.record (Call.getDCN req.Name)) dcn _ _ _ (hfail _)
      (hfail _) (usageReport_nil_of_free _ _ _ _ hfree) key hkey

theorem dependents_follow_resource_witness :
    (∀ c, (clientOf scenarioAStore).fail c = none) ∧
    (clientOf scenarioAStore).store.dcns.get "net" = some (scenarioDCN [] none) ∧
    ValidSpec (scenarioDCN [] none) ∧
    (clientOf scenarioAStore).store.nads.get ("default", "net1") = none ∧
    (clientOf scenarioAStore).store.daemonSets.get ("kube-system", "dummy-bridge-ensure") =
      none ∧
    (scenarioDCN [] none).DeletionTimestampIsZero = true ∧
    (∃ nad, (reconcileTimes 3 (clientOf scenarioAStore) ⟨"", "net"⟩).store.nads.get
      ("default", "net1") = some nad) ∧
    (∃ ds, (reconcileTimes 3 (clientOf scenarioAStore) ⟨"", "net"⟩).store.daemonSets.get
      ("kube-system", "dummy-bridge-ensure") = some ds) :=
  ⟨fun _ => rfl, rfl, by decide, rfl, rfl, rfl,
    ((dependents_follow_resource (clientOf scenarioAStore) ⟨"", "net"⟩ (scenarioDCN [] none)
      (fun _ => rfl) rfl (by decide)).1 rfl rfl 2).1 rfl⟩

/-- C16, as stated: from a store without dependents, a successful provisioning of `a`
followed by a successful teardown of `b` leaves `a` live, with its finalizer, its status
`Ready` and its NetworkAttachmentDefinition, but without the DaemonSet. -/
theorem dependents_follow_resource_counterexample :
    (clientOf twoNetworksStore).store.nads.get ("default", "net1") = none ∧
    (clientOf twoNetworksStore).store.daemonSets.get ("kube-system", "dummy-bridge-ensure") =
      none ∧
    (Reconcile (clientOf twoNetworksStore) ⟨"", "a"⟩).1 = ({}, none) ∧
    (Reconcile (Reconcile (clientOf twoNetworksStore) ⟨"", "a"⟩).2 ⟨"", "b"⟩).1 =
      ({}, none) ∧
    ((Reconcile (Reconcile (clientOf twoNetworksStore) ⟨"", "a"⟩).2 ⟨"", "b"⟩).2.store.dcns.get
      "a").map (fun o => (o.DeletionTimestampIsZero,
        containsString o.GetFinalizers finalizerName, phaseOf o)) =
      some (true, true, some (Val.str "Ready")) ∧
    ((Reconcile (Reconcile (clientOf twoNetworksStore) ⟨"", "a"⟩).2
      ⟨"", "b"⟩).2.store.nads.get ("default", "net1")).isSome = true ∧
    (Reconcile (Reconcile (clientOf twoNetworksStore) ⟨"", "a"⟩).2
      ⟨"", "b"⟩).2.store.daemonSets.get ("kube-system", "dummy-bridge-ensure") = none :=
  ⟨rfl, rfl, rfl, rfl, rfl, rfl, rfl⟩

end Harvester
